import Mathlib

/-!
# CppMicroServices: ServiceRegistrationBase

A shallow embedding of `framework/src/service/ServiceRegistrationBase.cpp`.

Heap objects are addressed by natural numbers, every method takes the world
(heap, framework context, trace of calls into collaborators) and returns the
outcome of the call together with the world it leaves behind.  The model is
sequential: a lock is a no-op, `atomic_compare_exchange_strong` is a read
followed by a write, and a user callback (listener, factory) is a function
that cannot change the world.  One `CoreBundleContext` is modelled, so
`bundle->coreCtx` is the same context for every live bundle.
-/

namespace cppmicroservices

/-! ## Values, property maps -/

/-- Modelled from the spec: the class `Any` (declared in `Any.h`, absent
here) is the tagged value stored in a property map.  The tags kept are the
ones this file casts to (`int`, `std::vector<std::string>`) and a few others
a user map may hold. -/
inductive Any where
  | empty
  | bool (b : Bool)
  | int (i : Int)
  | long (i : Int)
  | string (s : String)
  | stringVector (v : List String)
  deriving DecidableEq, Repr

/-- The method `Any::Empty()`. -/
def Any.Empty : Any → Bool
  | Any.empty => true
  | _ => false

/-- What a call can throw.  `nonStd` is a thrown object whose type does not
derive from `std::exception`. -/
inductive Exn where
  | logic_error (what : String)
  | invalid_argument (what : String)
  | BadAnyCastException
  | std_exception (what : String)
  | nonStd
  deriving DecidableEq, Repr

/-- How a call ends: it returns, an exception leaves it, or it dereferences a
null pointer. -/
inductive Outcome where
  | returned
  | threw (e : Exn)
  | nullDereference
  deriving DecidableEq, Repr

/-- The cast `any_cast<int>`. -/
def any_cast_int : Any → Except Exn Int
  | Any.int i => Except.ok i
  | _ => Except.error Exn.BadAnyCastException

/-- The cast `any_cast<std::vector<std::string>>`. -/
def any_cast_stringVector : Any → Except Exn (List String)
  | Any.stringVector v => Except.ok v
  | _ => Except.error Exn.BadAnyCastException

namespace Constants

/-- Modelled from the spec: the property keys of `Constants.h` (absent here),
four distinct strings. -/
def SERVICE_ID : String := "service.id"

/-- Modelled from the spec: see `SERVICE_ID`. -/
def OBJECTCLASS : String := "objectclass"

/-- Modelled from the spec: see `SERVICE_ID`. -/
def SERVICE_SCOPE : String := "service.scope"

/-- Modelled from the spec: see `SERVICE_ID`. -/
def SERVICE_RANKING : String := "service.ranking"

end Constants

/-- The type `ServiceProperties`, a `std::unordered_map<std::string, Any>`:
a list of entries, at most one per key. -/
abbrev AnyMap := List (String × Any)

/-- The lookup `find` of the map. -/
def AnyMap.find : AnyMap → String → Option Any
  | [], _ => none
  | (k', v) :: t, k => if k' = k then some v else AnyMap.find t k

/-- The assignment `m[k] = v`: overwrite the entry of `k`, or insert one. -/
def AnyMap.assign : AnyMap → String → Any → AnyMap
  | [], k, v => [(k, v)]
  | (k', v') :: t, k, v => if k' = k then (k, v) :: t else (k', v') :: AnyMap.assign t k v

/-- Modelled from the spec: the class `Properties` (absent here) is the
key/value store of a registration; it is built from an `AnyMap` and read by
key. -/
structure Properties where
  props : AnyMap
  deriving DecidableEq, Repr

/-- Modelled from the spec: `Properties::Value_unlocked(key)` (absent here)
returns the value stored under `key` and whether there is one; the value is an
empty `Any` when there is none. -/
def Properties.Value_unlocked (p : Properties) (key : String) : Any × Bool :=
  match AnyMap.find p.props key with
  | some v => (v, true)
  | none => (Any.empty, false)

/-! ## Registrations, references, events -/

/-- Address of a `ServiceRegistrationBasePrivate`. -/
abbrev RegId := Nat

/-- Address of a `BundlePrivate`. -/
abbrev BundleId := Nat

/-- Address of a service instance (an `InterfaceMapConstPtr`). -/
abbrev Instance := Nat

/-- Identity of a service listener entry. -/
abbrev ListenerId := Nat

/-- An `InterfaceMap`: interface id to `std::shared_ptr<void>`, where `none`
is the null pointer. -/
abbrev InterfaceMap := List (String × Option Nat)

/-- The lookup `find` of an interface map (`none` is `end()`). -/
def InterfaceMap.find : InterfaceMap → String → Option (Option Nat)
  | [], _ => none
  | (k', v) :: t, k => if k' = k then some v else InterfaceMap.find t k

/-- Modelled from the spec: a `ServiceReferenceBase` (declared in
`ServiceReferenceBase.h`, absent here) is "a weak handle referencing a
registration plus an interface-id discriminant": the registration it refers to
(`none` for a null reference) and the interface id it was requested under. -/
structure ServiceReferenceBase where
  registration : Option RegId
  interfaceId : String
  deriving DecidableEq, Repr

/-- The null reference, as assigned by `reference = nullptr`. -/
def ServiceReferenceBase.null : ServiceReferenceBase := ⟨none, ""⟩

/-- The enumeration `ServiceEvent::Type`. -/
inductive ServiceEventType where
  | SERVICE_REGISTERED
  | SERVICE_MODIFIED
  | SERVICE_UNREGISTERING
  | SERVICE_MODIFIED_ENDMATCH
  deriving DecidableEq, Repr

/-- A `ServiceEvent`. -/
structure ServiceEvent where
  type : ServiceEventType
  reference : ServiceReferenceBase
  deriving DecidableEq, Repr

/-- The enumeration `ServiceException::Type`, as far as used here. -/
inductive ServiceExceptionType where
  | UNSPECIFIED
  | FACTORY_EXCEPTION
  deriving DecidableEq, Repr

/-- A `ServiceException`. -/
structure ServiceException where
  what : String
  type : ServiceExceptionType
  deriving DecidableEq, Repr

/-- The enumeration `FrameworkEvent::Type`, as far as used here. -/
inductive FrameworkEventType where
  | FRAMEWORK_ERROR
  | FRAMEWORK_WARNING
  deriving DecidableEq, Repr

/-- A `FrameworkEvent`. -/
structure FrameworkEvent where
  type : FrameworkEventType
  bundle : BundleId
  message : String
  exception : ServiceException
  deriving DecidableEq, Repr

/-- The record `ServiceRegistrationBasePrivate` (declared in
`ServiceRegistrationBasePrivate.h`, absent here), with the fields this file
reads and writes.  `bundle` is the weak pointer to the owning bundle (`none`
after `reset()`), `service` the shared pointer to the interface map. -/
structure ServiceRegistrationBasePrivate where
  ref : Nat
  service : Option InterfaceMap
  bundle : Option BundleId
  reference : ServiceReferenceBase
  properties : Properties
  available : Bool
  unregistering : Bool
  dependents : List (BundleId × Nat)
  prototypeServiceInstances : List (BundleId × List Instance)
  bundleServiceInstance : List (BundleId × Instance)
  deriving DecidableEq, Repr

/-- A `ServiceRegistrationBase` handle: the pointer `d`, `none` when null. -/
structure ServiceRegistrationBase where
  d : Option RegId
  deriving DecidableEq, Repr

/-! ## The framework context -/

/-- Modelled from the spec: the `ServiceRegistry` (absent here) keeps one
bucket of registrations per interface id. -/
structure ServiceRegistry where
  classServices : List (String × List RegId)
  deriving DecidableEq, Repr

/-- Modelled from the spec: the `ServiceListeners` (absent here) hold the
service listener entries and, for each, the filter it matches property maps
with. -/
structure ServiceListeners where
  serviceSet : List ListenerId
  filter : ListenerId → Properties → Bool

/-- The part of `CoreBundleContext` this file reaches. -/
structure CoreBundleContext where
  services : ServiceRegistry
  listeners : ServiceListeners

/-- How a user callback ends. -/
inductive CallResult where
  | returns
  | throwsStd (what : String)
  | throwsOther
  deriving DecidableEq, Repr

/-- A call into a collaborator or into user code, as recorded in the trace. -/
inductive Effect where
  | RemoveServiceRegistration (registration : RegId)
  | UpdateServiceRegistrationOrder (classes : List String)
  | CallDelegate (listener : ListenerId) (evt : ServiceEvent)
  | UngetService (factory : Nat) (bundle : BundleId) (registration : RegId) (service : Instance)
  | SendFrameworkEvent (evt : FrameworkEvent)
  deriving DecidableEq, Repr

/-- The world a method runs in. `bundleAlive b` tells whether the
`BundlePrivate` at `b` still exists, that is whether `lock()` on a weak
pointer to it succeeds; `UngetService` is the behaviour of the user
factories; `trace` lists the calls made so far, oldest first. -/
structure World where
  heap : RegId → ServiceRegistrationBasePrivate
  bundleAlive : BundleId → Bool
  coreCtx : CoreBundleContext
  UngetService : Nat → BundleId → RegId → Instance → CallResult
  trace : List Effect

/-- Write the record at address `d`. -/
def World.store (w : World) (d : RegId) (r : ServiceRegistrationBasePrivate) : World :=
  { w with heap := fun x => if x = d then r else w.heap x }

/-- Append a call to the trace. -/
def World.emit (w : World) (e : Effect) : World :=
  { w with trace := w.trace ++ [e] }

/-- The call `d->bundle.lock()`: the owning bundle when it still exists. -/
def World.lockBundle (w : World) (d : RegId) : Option BundleId :=
  match (w.heap d).bundle with
  | some b => if w.bundleAlive b then some b else none
  | none => none

/-! ## Collaborators that are not part of this file -/

/-- Modelled from the spec: the ranking of a registration is its signed
integer property `SERVICE_RANKING`, taken as 0 when there is none. -/
def ranking (p : Properties) : Int :=
  match (p.Value_unlocked Constants.SERVICE_RANKING).1 with
  | Any.int i => i
  | _ => 0

/-- Modelled from the spec: the service id of a registration is its 64-bit
integer property `SERVICE_ID`. -/
def serviceId (p : Properties) : Int :=
  match (p.Value_unlocked Constants.SERVICE_ID).1 with
  | Any.long i => i
  | _ => 0

/-- Modelled from the spec: `ServiceReferenceBase::operator<` (absent here).
References are "totally ordered by (ranking desc, id asc)": the reference with
the higher ranking sorts earlier, ties are broken by the lower service id
first.  The spec orders references to registrations only; with a null
reference on either side the comparison is taken to be false. -/
def ServiceReferenceBase.lt (heap : RegId → ServiceRegistrationBasePrivate)
    (sr1 sr2 : ServiceReferenceBase) : Bool :=
  match sr1.registration, sr2.registration with
  | some r1, some r2 =>
    decide (ranking (heap r1).properties > ranking (heap r2).properties)
      || (decide (ranking (heap r1).properties = ranking (heap r2).properties)
          && decide (serviceId (heap r1).properties < serviceId (heap r2).properties))
  | _, _ => false

/-- The operator `ServiceRegistrationBase::operator<`.  The test
`this == &o` compares the addresses of the two handles; a handle compared with
itself has the same `d`, so the first condition is `d == o.d`. -/
def ServiceRegistrationBase.lt (heap : RegId → ServiceRegistrationBasePrivate)
    (this o : ServiceRegistrationBase) : Bool :=
  if this.d = o.d then false
  else if (this.d.isNone && o.d.isNone) || o.d.isNone then false
  else
    match this.d, o.d with
    | none, _ => true
    | some d, some od =>
      let sr1 := (heap d).reference
      let sr2 := (heap od).reference
      ServiceReferenceBase.lt heap sr1 sr2
    | some _, none => false

/-- The operator `ServiceRegistrationBase::operator==`. -/
def ServiceRegistrationBase.eq (this registration : ServiceRegistrationBase) : Bool :=
  decide (this.d = registration.d)

/-- Insert `a` into a sorted bucket, after the entries that are less than it. -/
def insertSorted (lt : RegId → RegId → Bool) (a : RegId) : List RegId → List RegId
  | [] => [a]
  | b :: t => if lt b a then b :: insertSorted lt a t else a :: b :: t

/-- Sort a bucket in ascending order of `lt` (the `std::sort` of a bucket). -/
def sortBucket (lt : RegId → RegId → Bool) (l : List RegId) : List RegId :=
  l.foldr (insertSorted lt) []

/-- Modelled from the spec: `ServiceRegistry::RemoveServiceRegistration_unlocked`
(absent here) "removes the registration from all buckets". -/
def ServiceRegistry.RemoveServiceRegistration_unlocked (s : ServiceRegistry) (sr : RegId) :
    ServiceRegistry :=
  ⟨s.classServices.map (fun b => (b.1, b.2.filter (fun r => decide (r ≠ sr))))⟩

/-- Modelled from the spec: `ServiceRegistry::UpdateServiceRegistrationOrder`
(absent here) recomputes the rank order of the buckets of the given interface
ids, with `ServiceRegistrationBase::operator<`. -/
def ServiceRegistry.UpdateServiceRegistrationOrder (s : ServiceRegistry)
    (heap : RegId → ServiceRegistrationBasePrivate) (classes : List String) : ServiceRegistry :=
  ⟨s.classServices.map (fun b =>
    if b.1 ∈ classes then
      (b.1, sortBucket (fun x y => ServiceRegistrationBase.lt heap ⟨some x⟩ ⟨some y⟩) b.2)
    else b)⟩

/-- Modelled from the spec: `Get(interface)` of the registry (absent here)
"returns all available registrations for `interface`", in bucket order;
"unavailable registrations are skipped". -/
def ServiceRegistry.Get (s : ServiceRegistry) (heap : RegId → ServiceRegistrationBasePrivate)
    (clazz : String) : List RegId :=
  (s.classServices.filter (fun b => decide (b.1 = clazz))).flatMap
    (fun b => b.2.filter (fun r => (heap r).available))

/-- Modelled from the spec: `ServiceListeners::GetMatchingServiceListeners`
(absent here): the listeners are "filtered against event properties", the
properties of the registration the event refers to at the time of the call,
and "matching listeners are returned as a snapshot". -/
def GetMatchingServiceListeners (w : World) (evt : ServiceEvent) : List ListenerId :=
  match evt.reference.registration with
  | some r => w.coreCtx.listeners.serviceSet.filter
      (fun l => w.coreCtx.listeners.filter l (w.heap r).properties)
  | none => []

/-- Deliver `evt` to each of `receivers`, in order. -/
def deliver (w : World) (receivers : List ListenerId) (evt : ServiceEvent) : World :=
  { w with trace := w.trace ++ receivers.map (fun l => Effect.CallDelegate l evt) }

/-- Modelled from the spec: the pair form
`ServiceListeners::ServiceChanged(listeners, event, beforeSnapshot)` (absent
here) delivers `event` to `listeners` and leaves in `beforeSnapshot` the
"previously matching listeners that no longer match", that is the ones not in
`listeners`.  It returns the world and the updated snapshot. -/
def ServiceChanged3 (w : World) (receivers : List ListenerId) (evt : ServiceEvent)
    (matchBefore : List ListenerId) : World × List ListenerId :=
  (deliver w receivers evt, matchBefore.filter (fun l => decide (l ∉ receivers)))

/-- Modelled from the spec: `ServiceListeners::ServiceChanged(listeners, event)`
(absent here) delivers `event` to `listeners`. -/
def ServiceChanged (w : World) (receivers : List ListenerId) (evt : ServiceEvent) : World :=
  deliver w receivers evt

/-- Modelled from the spec: `ServiceListeners::SendFrameworkEvent` (absent
here) emits a framework event. -/
def SendFrameworkEvent (w : World) (evt : FrameworkEvent) : World :=
  w.emit (Effect.SendFrameworkEvent evt)

/-! ## ServiceRegistrationBase::SetProperties -/

/-- Lines 156-169 of `SetProperties`: the new ranking, 0 when `propsCopy` has
none, `std::invalid_argument` when it is not an `int`. -/
def newRank (propsCopy : AnyMap) : Except Exn Int :=
  match AnyMap.find propsCopy Constants.SERVICE_RANKING with
  | some v =>
    match any_cast_int v with
    | Except.ok i => Except.ok i
    | Except.error _ =>
      Except.error (Exn.invalid_argument "SERVICE_RANKING property has unexpected value type. ")
  | none => Except.ok 0

/-- Lines 171-177 of `SetProperties`: the old ranking, 0 when the stored value
is empty, cast without a type check otherwise. -/
def oldRank (properties : Properties) : Except Exn Int :=
  let oldRankAny := (properties.Value_unlocked Constants.SERVICE_RANKING).1
  if !oldRankAny.Empty then any_cast_int oldRankAny else Except.ok 0

/-- Lines 150-154 of `SetProperties`: the copy of the new properties with the
three reserved keys taken from the stored properties. -/
def propsCopyOf (properties : Properties) (props : AnyMap) : AnyMap :=
  let propsCopy := props
  let propsCopy := AnyMap.assign propsCopy Constants.SERVICE_ID
    (properties.Value_unlocked Constants.SERVICE_ID).1
  let objectClasses := (properties.Value_unlocked Constants.OBJECTCLASS).1
  let propsCopy := AnyMap.assign propsCopy Constants.OBJECTCLASS objectClasses
  AnyMap.assign propsCopy Constants.SERVICE_SCOPE
    (properties.Value_unlocked Constants.SERVICE_SCOPE).1

/-- Lines 189-196 of `SetProperties`: notify the listeners, when the owning
bundle still exists. -/
def notifyModified (w : World) (d : RegId) (modifiedEvent modifiedEndMatchEvent : ServiceEvent)
    (before : List ListenerId) : World :=
  match w.lockBundle d with
  | some _ =>
    let matchingListeners := GetMatchingServiceListeners w modifiedEvent
    let r := ServiceChanged3 w matchingListeners modifiedEvent before
    ServiceChanged r.1 r.2 modifiedEndMatchEvent
  | none => w

/-- The method `ServiceRegistrationBase::SetProperties`. -/
def ServiceRegistrationBase.SetProperties (this : ServiceRegistrationBase) (props : AnyMap)
    (w : World) : Outcome × World :=
  match this.d with
  | none => (Outcome.threw (Exn.logic_error "ServiceRegistrationBase object invalid"), w)
  | some d =>
    if !(w.heap d).available then
      (Outcome.threw (Exn.logic_error "Service is unregistered"), w)
    else
      let modifiedEndMatchEvent : ServiceEvent :=
        ⟨ServiceEventType.SERVICE_MODIFIED_ENDMATCH, (w.heap d).reference⟩
      let modifiedEvent : ServiceEvent :=
        ⟨ServiceEventType.SERVICE_MODIFIED, (w.heap d).reference⟩
      let before : List ListenerId :=
        match w.lockBundle d with
        | some _ => GetMatchingServiceListeners w modifiedEndMatchEvent
        | none => []
      let objectClasses := ((w.heap d).properties.Value_unlocked Constants.OBJECTCLASS).1
      let propsCopy := propsCopyOf (w.heap d).properties props
      match newRank propsCopy with
      | Except.error e => (Outcome.threw e, w)
      | Except.ok new_rank =>
        match oldRank (w.heap d).properties with
        | Except.error e => (Outcome.threw e, w)
        | Except.ok old_rank =>
          let w1 := w.store d { w.heap d with properties := Properties.mk propsCopy }
          if old_rank ≠ new_rank then
            match any_cast_stringVector objectClasses with
            | Except.error e => (Outcome.threw e, w1)
            | Except.ok classes =>
              let w2 :=
                match w1.lockBundle d with
                | some _ =>
                  ({ w1 with coreCtx := { w1.coreCtx with services :=
                      w1.coreCtx.services.UpdateServiceRegistrationOrder w1.heap classes } }).emit
                    (Effect.UpdateServiceRegistrationOrder classes)
                | none => w1
              (Outcome.returned, notifyModified w2 d modifiedEvent modifiedEndMatchEvent before)
          else
            (Outcome.returned, notifyModified w1 d modifiedEvent modifiedEndMatchEvent before)

/-! ## ServiceRegistrationBase::Unregister -/

/-- The function `atomic_compare_exchange_strong(obj, expected, desired)` on
booleans: whether the exchange takes place (then `desired` is written to
`obj`), and the value left in `expected`. -/
def atomic_compare_exchange_strong (obj expected : Bool) : Bool × Bool :=
  if obj = expected then (true, expected) else (false, obj)

/-- The message of the framework event of lines 278 and 301. -/
def ungetMessage : String := "ServiceFactory UngetService implementation threw an exception"

/-- The try/catch of lines 272-288 and of lines 295-311: one call of the
factory's `UngetService`.  A `std::exception` is caught and reported as a
framework error when the owning bundle still exists; the handler catches
`std::exception const&` only, so any other thrown object leaves the call. -/
def ungetOne (d : RegId) (serviceFactory : Nat) (bundle : BundleId) (service : Instance)
    (w : World) : Outcome × World :=
  let w1 := w.emit (Effect.UngetService serviceFactory bundle d service)
  match w.UngetService serviceFactory bundle d service with
  | CallResult.returns => (Outcome.returned, w1)
  | CallResult.throwsStd what =>
    match w1.lockBundle d with
    | some b =>
      (Outcome.returned,
        SendFrameworkEvent w1
          ⟨FrameworkEventType.FRAMEWORK_ERROR, b, ungetMessage,
            ⟨what, ServiceExceptionType.FACTORY_EXCEPTION⟩⟩)
    | none => (Outcome.returned, w1)
  | CallResult.throwsOther => (Outcome.threw Exn.nonStd, w1)

/-- Sequencing of two steps: the second runs in the world the first leaves
when the first returned; otherwise the outcome of the first stands. -/
def andThen (r : Outcome × World) (k : World → Outcome × World) : Outcome × World :=
  match r.1 with
  | Outcome.returned => k r.2
  | _ => r

/-- The inner loop of lines 270-289, over the prototype instances of one
consuming bundle. -/
def ungetServices (d : RegId) (serviceFactory : Nat) (bundle : BundleId) :
    List Instance → World → Outcome × World
  | [], w => (Outcome.returned, w)
  | service :: rest, w =>
    andThen (ungetOne d serviceFactory bundle service w)
      (ungetServices d serviceFactory bundle rest)

/-- The loop of lines 268-290, over the copy of `prototypeServiceInstances`. -/
def ungetPrototypeServices (d : RegId) (serviceFactory : Nat) :
    List (BundleId × List Instance) → World → Outcome × World
  | [], w => (Outcome.returned, w)
  | i :: rest, w =>
    andThen (ungetServices d serviceFactory i.1 i.2 w)
      (ungetPrototypeServices d serviceFactory rest)

/-- The loop of lines 293-312, over the copy of `bundleServiceInstance`. -/
def ungetBundleServices (d : RegId) (serviceFactory : Nat) :
    List (BundleId × Instance) → World → Outcome × World
  | [], w => (Outcome.returned, w)
  | i :: rest, w =>
    andThen (ungetOne d serviceFactory i.1 i.2 w)
      (ungetBundleServices d serviceFactory rest)

/-- Lines 315-329 of `Unregister`: the final locked block. -/
def finishUnregister (d : RegId) (w : World) : World :=
  w.store d
    { w.heap d with
      bundle := none
      dependents := []
      service := none
      prototypeServiceInstances := []
      bundleServiceInstance := []
      ref := (w.heap d).ref + 1
      reference := ServiceReferenceBase.null
      unregistering := false }

/-- Line 249 of `Unregister`: the registration is made unavailable. -/
def madeUnavailable (w : World) (d : RegId) : World :=
  w.store d { w.heap d with available := false }

/-- Lines 250-257 of `Unregister`: the factory to unget with.  The variable
`bundle` of line 251 is the boolean `d->bundle.lock() && factoryIter !=
d->service->end()`. -/
def factoryOf (w : World) (d : RegId) (service : InterfaceMap) : Option Nat :=
  let factoryIter := InterfaceMap.find service "org.cppmicroservices.factory"
  let bundle : Bool := (w.lockBundle d).isSome && factoryIter.isSome
  if bundle then
    match factoryIter with
    | some second => second
    | none => none
  else none

/-- Lines 242-329 of `Unregister`: take the factory and the copies of the two
caches under the lock, unget every cached instance, clear the record. -/
def ungetAndFinish (d : RegId) (w : World) : Outcome × World :=
  let w1 := madeUnavailable w d
  match (w1.heap d).service with
  | none => (Outcome.nullDereference, w1)
  | some service =>
    match factoryOf w1 d service with
    | some serviceFactory =>
      let prototypeServiceInstances := (w1.heap d).prototypeServiceInstances
      let bundleServiceInstance := (w1.heap d).bundleServiceInstance
      andThen (ungetPrototypeServices d serviceFactory prototypeServiceInstances w1) fun w2 =>
        andThen (ungetBundleServices d serviceFactory bundleServiceInstance w2) fun w3 =>
          (Outcome.returned, finishUnregister d w3)
    | none => (Outcome.returned, finishUnregister d w1)

/-- The method `ServiceRegistrationBase::Unregister`. -/
def ServiceRegistrationBase.Unregister (this : ServiceRegistrationBase) (w : World) :
    Outcome × World :=
  match this.d with
  | none => (Outcome.threw (Exn.logic_error "ServiceRegistrationBase object invalid"), w)
  | some d =>
    if !(w.heap d).available then
      (Outcome.threw (Exn.logic_error "Service is unregistered"), w)
    else
      let cas := atomic_compare_exchange_strong (w.heap d).unregistering false
      let isUnregistering := cas.2
      let r : World × Bool :=
        if cas.1 then
          let w1 := w.store d { w.heap d with unregistering := true }
          match w1.lockBundle d with
          | some _ =>
            (({ w1 with coreCtx := { w1.coreCtx with services :=
                w1.coreCtx.services.RemoveServiceRegistration_unlocked d } }).emit
              (Effect.RemoveServiceRegistration d), true)
          | none => (w1, false)
        else (w, false)
      let w2 := r.1
      let coreContext := r.2
      if isUnregistering then (Outcome.returned, w2)
      else
        let w3 :=
          if coreContext then
            let unregisteringEvent : ServiceEvent :=
              ⟨ServiceEventType.SERVICE_UNREGISTERING, (w2.heap d).reference⟩
            let listeners := GetMatchingServiceListeners w2 unregisteringEvent
            ServiceChanged w2 listeners unregisteringEvent
          else w2
        ungetAndFinish d w3

/-! ## ServiceRegistrationBase::GetReference -/

/-- The method `ServiceRegistrationBase::GetReference`. -/
def ServiceRegistrationBase.GetReference (this : ServiceRegistrationBase) (interfaceId : String)
    (w : World) : Except Exn ServiceReferenceBase :=
  match this.d with
  | none => Except.error (Exn.logic_error "ServiceRegistrationBase object invalid")
  | some d =>
    if !(w.heap d).available then Except.error (Exn.logic_error "Service is unregistered")
    else
      let ref := (w.heap d).reference
      Except.ok { ref with interfaceId := interfaceId }

/-! ## Vocabulary of the statements -/

/-- The record `SetProperties` stores at line 178. -/
def swapped (w : World) (d : RegId) (props : AnyMap) : ServiceRegistrationBasePrivate :=
  { w.heap d with properties := Properties.mk (propsCopyOf (w.heap d).properties props) }

/-- The ranking entry of a map passed to `SetProperties` is an `int`, or there
is none. -/
def rankingIntOrAbsent (props : AnyMap) : Bool :=
  match AnyMap.find props Constants.SERVICE_RANKING with
  | none => true
  | some (Any.int _) => true
  | some _ => false

/-- The stored ranking of a registration is an `int`, or it is empty. -/
def rankingIntOrEmpty (properties : Properties) : Bool :=
  match (properties.Value_unlocked Constants.SERVICE_RANKING).1 with
  | Any.empty => true
  | Any.int _ => true
  | _ => false

/-- The calls made between world `w` and a later world `w2`. -/
def callsSince (w w2 : World) : List Effect :=
  w2.trace.drop w.trace.length

/-- The event `SetProperties` builds at line 127. -/
def modifiedEventOf (w : World) (d : RegId) : ServiceEvent :=
  ⟨ServiceEventType.SERVICE_MODIFIED, (w.heap d).reference⟩

/-- The event `SetProperties` builds at line 126. -/
def modifiedEndMatchEventOf (w : World) (d : RegId) : ServiceEvent :=
  ⟨ServiceEventType.SERVICE_MODIFIED_ENDMATCH, (w.heap d).reference⟩

/-- The listeners of the framework whose filter matches a property map. -/
def listenersMatching (w : World) (properties : Properties) : List ListenerId :=
  w.coreCtx.listeners.serviceSet.filter (fun l => w.coreCtx.listeners.filter l properties)

/-- The world `SetProperties` hands to the notification step: the record
swapped, and the buckets re-sorted when the ranking changed and the owning
bundle still exists. -/
def afterSwap (w : World) (d : RegId) (props : AnyMap) (changed : Bool) (classes : List String) :
    World :=
  let w1 := w.store d (swapped w d props)
  if changed then
    match w1.lockBundle d with
    | some _ =>
      ({ w1 with coreCtx := { w1.coreCtx with services :=
          w1.coreCtx.services.UpdateServiceRegistrationOrder w1.heap classes } }).emit
        (Effect.UpdateServiceRegistrationOrder classes)
    | none => w1
  else w1

/-- The listeners `SetProperties` collects at line 133, before the swap. -/
def beforeOf (w : World) (d : RegId) : List ListenerId :=
  match w.lockBundle d with
  | some _ => GetMatchingServiceListeners w (modifiedEndMatchEventOf w d)
  | none => []

/-- Whether a recorded call is a re-sort of registry buckets. -/
def Effect.isUpdateServiceRegistrationOrder : Effect → Bool
  | Effect.UpdateServiceRegistrationOrder _ => true
  | _ => false

/-- The deliveries to service listeners among recorded calls, in order. -/
def deliveries : List Effect → List (ListenerId × ServiceEvent)
  | [] => []
  | Effect.CallDelegate l evt :: t => (l, evt) :: deliveries t
  | _ :: t => deliveries t

/-- The parts of the world a user callback cannot reach: everything but the
trace. -/
def World.sameState (w w2 : World) : Prop :=
  w2.heap = w.heap ∧ w2.coreCtx = w.coreCtx ∧ w2.bundleAlive = w.bundleAlive
    ∧ w2.UngetService = w.UngetService

/-- The record `Unregister` leaves behind at lines 315-329. -/
def unregisteredRecord (r : ServiceRegistrationBasePrivate) : ServiceRegistrationBasePrivate :=
  { r with
    available := false
    bundle := none
    dependents := []
    service := none
    prototypeServiceInstances := []
    bundleServiceInstance := []
    ref := r.ref + 1
    reference := ServiceReferenceBase.null
    unregistering := false }

/-- The calls one pass through the try/catch of `Unregister` makes for the
cached instance `i.2` of the consuming bundle `i.1`: the factory's
`UngetService` and, when that throws a `std::exception` and the owning bundle
`owner` still exists, `SendFrameworkEvent`. -/
def ungetCalls (w : World) (d : RegId) (f : Nat) (owner : Option BundleId)
    (i : BundleId × Instance) : List Effect :=
  Effect.UngetService f i.1 d i.2 ::
    (match w.UngetService f i.1 d i.2, owner with
     | CallResult.throwsStd what, some b =>
       [Effect.SendFrameworkEvent
         ⟨FrameworkEventType.FRAMEWORK_ERROR, b, ungetMessage,
           ⟨what, ServiceExceptionType.FACTORY_EXCEPTION⟩⟩]
     | _, _ => [])

/-- The prototype cache as a list of (consuming bundle, instance), in
iteration order. -/
def prototypePairs (l : List (BundleId × List Instance)) : List (BundleId × Instance) :=
  l.flatMap (fun i => i.2.map (fun s => (i.1, s)))

/-- Line 214 of `Unregister` when the compare-and-swap succeeds: the latch is
set. -/
def latched (w : World) (d : RegId) : World :=
  w.store d { w.heap d with unregistering := true }

/-- Lines 218-222 of `Unregister`: the registration is removed from the
registry. -/
def removedFromRegistry (w : World) (d : RegId) : World :=
  ({ w with coreCtx := { w.coreCtx with services :=
    w.coreCtx.services.RemoveServiceRegistration_unlocked d } }).emit
      (Effect.RemoveServiceRegistration d)

/-- The event `Unregister` builds at line 237. -/
def unregisteringEventOf (w : World) (d : RegId) : ServiceEvent :=
  ⟨ServiceEventType.SERVICE_UNREGISTERING, (w.heap d).reference⟩

/-- Lines 235-239 of `Unregister`: `UNREGISTERING` is dispatched to the
matching listeners. -/
def dispatchedUnregistering (w : World) (d : RegId) : World :=
  ServiceChanged w (GetMatchingServiceListeners w (unregisteringEventOf w d))
    (unregisteringEventOf w d)

/-- Lines 213-240 of `Unregister` for the call that wins the
compare-and-swap: the latch is set and, when the owning bundle still exists,
the registration is removed from the registry and `UNREGISTERING` is
dispatched. -/
def winnerDispatched (w : World) (d : RegId) : World :=
  match (latched w d).lockBundle d with
  | some _ => dispatchedUnregistering (removedFromRegistry (latched w d) d) d
  | none => latched w d

/-- The factory calls among recorded calls, in order: factory, consuming
bundle, registration, instance. -/
def ungets : List Effect → List (Nat × BundleId × RegId × Instance)
  | [] => []
  | Effect.UngetService f b r s :: t => (f, b, r, s) :: ungets t
  | _ :: t => ungets t

/-- The framework events among recorded calls, in order. -/
def frameworkEvents : List Effect → List FrameworkEvent
  | [] => []
  | Effect.SendFrameworkEvent e :: t => e :: frameworkEvents t
  | _ :: t => frameworkEvents t

/-- The framework event `Unregister` sends for a factory error `what` on a
registration owned by `b`. -/
def factoryErrorEvent (b : BundleId) (what : String) : FrameworkEvent :=
  ⟨FrameworkEventType.FRAMEWORK_ERROR, b, ungetMessage,
    ⟨what, ServiceExceptionType.FACTORY_EXCEPTION⟩⟩

/-- The cached instances of a registration in the order `Unregister` visits
them: the prototype instances, then the bundle-scope instances. -/
def cachedInstances (r : ServiceRegistrationBasePrivate) : List (BundleId × Instance) :=
  prototypePairs r.prototypeServiceInstances ++ r.bundleServiceInstance

/-- The framework events `Unregister` sends while visiting the cached
instances `l` of a registration owned by `b`: one for each instance whose
unget throws a `std::exception`, in order. -/
def factoryErrors (w : World) (d : RegId) (f : Nat) (b : BundleId)
    (l : List (BundleId × Instance)) : List FrameworkEvent :=
  l.filterMap (fun i =>
    match w.UngetService f i.1 d i.2 with
    | CallResult.throwsStd what => some (factoryErrorEvent b what)
    | _ => none)

/-- Lines 250-329 of `Unregister`: what follows the write of line 249, run in
the world `w1` that write leaves. -/
def ungetFromUnavailable (d : RegId) (w1 : World) : Outcome × World :=
  match (w1.heap d).service with
  | none => (Outcome.nullDereference, w1)
  | some service =>
    match factoryOf w1 d service with
    | some serviceFactory =>
      andThen (ungetPrototypeServices d serviceFactory (w1.heap d).prototypeServiceInstances w1)
        fun w2 =>
          andThen (ungetBundleServices d serviceFactory (w1.heap d).bundleServiceInstance w2)
            fun w3 => (Outcome.returned, finishUnregister d w3)
    | none => (Outcome.returned, finishUnregister d w1)

/-- Whether a recorded call is one the unget loops make: the factory's
`UngetService` or the framework event reporting its failure. -/
def Effect.isFactoryCall : Effect → Bool
  | Effect.UngetService _ _ _ _ => true
  | Effect.SendFrameworkEvent _ => true
  | _ => false

/-- The calls lines 213-240 of a winning `Unregister` make: the removal from
the registry and the `UNREGISTERING` deliveries when the owning bundle still
exists, none otherwise. -/
def winnerCalls (w : World) (d : RegId) : List Effect :=
  match w.lockBundle d with
  | some _ =>
    Effect.RemoveServiceRegistration d
      :: (GetMatchingServiceListeners w (unregisteringEventOf w d)).map
          (fun l => Effect.CallDelegate l (unregisteringEventOf w d))
  | none => []

/-! ## Unregister, as its callees observe it

A listener, the registry and a factory are called at some moment of a run of
`Unregister`, and each of them can look at the registration it is called for.
The definitions below repeat the embedding of `Unregister` and keep, next to
the world, a log: every call into a collaborator or into user code is entered
with the value the flag `d->available` has in the heap at the moment of the
call.  A step that makes no call enters nothing. -/

/-- A call together with the value of the flag `d->available` of the
registration at the moment of the call. -/
structure ObservedCall where
  call : Effect
  available : Bool
  deriving DecidableEq, Repr

/-- A world and the log of the calls made so far, oldest first. -/
structure Observed where
  world : World
  log : List ObservedCall

/-- Write the record at address `d`; no call is made. -/
def Observed.store (o : Observed) (d : RegId) (r : ServiceRegistrationBasePrivate) : Observed :=
  { o with world := o.world.store d r }

/-- Append a call to the trace, and enter it in the log with the flag of
registration `d` as the heap has it now. -/
def Observed.emit (o : Observed) (d : RegId) (e : Effect) : Observed :=
  { world := o.world.emit e
    log := o.log ++ [{ call := e, available := (o.world.heap d).available }] }

/-- The call `ServiceChanged(listeners, event)`, every delivery entered in the
log with the flag of registration `d` as the heap has it now. -/
def Observed.ServiceChanged (o : Observed) (d : RegId) (receivers : List ListenerId)
    (evt : ServiceEvent) : Observed :=
  { world := cppmicroservices.ServiceChanged o.world receivers evt
    log := o.log ++ receivers.map
      (fun l => { call := Effect.CallDelegate l evt, available := (o.world.heap d).available }) }

/-- The try/catch of lines 272-288 and of lines 295-311, with the log. -/
def ungetOneObserved (d : RegId) (serviceFactory : Nat) (bundle : BundleId) (service : Instance)
    (o : Observed) : Outcome × Observed :=
  let o1 := o.emit d (Effect.UngetService serviceFactory bundle d service)
  match o.world.UngetService serviceFactory bundle d service with
  | CallResult.returns => (Outcome.returned, o1)
  | CallResult.throwsStd what =>
    match o1.world.lockBundle d with
    | some b =>
      (Outcome.returned,
        o1.emit d (Effect.SendFrameworkEvent
          ⟨FrameworkEventType.FRAMEWORK_ERROR, b, ungetMessage,
            ⟨what, ServiceExceptionType.FACTORY_EXCEPTION⟩⟩))
    | none => (Outcome.returned, o1)
  | CallResult.throwsOther => (Outcome.threw Exn.nonStd, o1)

/-- Sequencing of two steps, with the log. -/
def andThenObserved (r : Outcome × Observed) (k : Observed → Outcome × Observed) :
    Outcome × Observed :=
  match r.1 with
  | Outcome.returned => k r.2
  | _ => r

/-- The inner loop of lines 270-289, with the log. -/
def ungetServicesObserved (d : RegId) (serviceFactory : Nat) (bundle : BundleId) :
    List Instance → Observed → Outcome × Observed
  | [], o => (Outcome.returned, o)
  | service :: rest, o =>
    andThenObserved (ungetOneObserved d serviceFactory bundle service o)
      (ungetServicesObserved d serviceFactory bundle rest)

/-- The loop of lines 268-290, with the log. -/
def ungetPrototypeServicesObserved (d : RegId) (serviceFactory : Nat) :
    List (BundleId × List Instance) → Observed → Outcome × Observed
  | [], o => (Outcome.returned, o)
  | i :: rest, o =>
    andThenObserved (ungetServicesObserved d serviceFactory i.1 i.2 o)
      (ungetPrototypeServicesObserved d serviceFactory rest)

/-- The loop of lines 293-312, with the log. -/
def ungetBundleServicesObserved (d : RegId) (serviceFactory : Nat) :
    List (BundleId × Instance) → Observed → Outcome × Observed
  | [], o => (Outcome.returned, o)
  | i :: rest, o =>
    andThenObserved (ungetOneObserved d serviceFactory i.1 i.2 o)
      (ungetBundleServicesObserved d serviceFactory rest)

/-- Lines 315-329 of `Unregister`, with the log: the final locked block makes
no call. -/
def finishUnregisterObserved (d : RegId) (o : Observed) : Observed :=
  o.store d
    { o.world.heap d with
      bundle := none
      dependents := []
      service := none
      prototypeServiceInstances := []
      bundleServiceInstance := []
      ref := (o.world.heap d).ref + 1
      reference := ServiceReferenceBase.null
      unregistering := false }

/-- Lines 242-329 of `Unregister`, with the log. -/
def ungetAndFinishObserved (d : RegId) (o : Observed) : Outcome × Observed :=
  let o1 := o.store d { o.world.heap d with available := false }
  match (o1.world.heap d).service with
  | none => (Outcome.nullDereference, o1)
  | some service =>
    match factoryOf o1.world d service with
    | some serviceFactory =>
      let prototypeServiceInstances := (o1.world.heap d).prototypeServiceInstances
      let bundleServiceInstance := (o1.world.heap d).bundleServiceInstance
      andThenObserved (ungetPrototypeServicesObserved d serviceFactory prototypeServiceInstances o1)
        fun o2 =>
          andThenObserved (ungetBundleServicesObserved d serviceFactory bundleServiceInstance o2)
            fun o3 => (Outcome.returned, finishUnregisterObserved d o3)
    | none => (Outcome.returned, finishUnregisterObserved d o1)

/-- The method `ServiceRegistrationBase::Unregister`, with the log of its
calls, empty when the method is entered. -/
def ServiceRegistrationBase.UnregisterObserved (this : ServiceRegistrationBase) (w : World) :
    Outcome × Observed :=
  let o : Observed := { world := w, log := [] }
  match this.d with
  | none => (Outcome.threw (Exn.logic_error "ServiceRegistrationBase object invalid"), o)
  | some d =>
    if !(o.world.heap d).available then
      (Outcome.threw (Exn.logic_error "Service is unregistered"), o)
    else
      let cas := atomic_compare_exchange_strong (o.world.heap d).unregistering false
      let isUnregistering := cas.2
      let r : Observed × Bool :=
        if cas.1 then
          let o1 := o.store d { o.world.heap d with unregistering := true }
          let w1 := o1.world
          match w1.lockBundle d with
          | some _ =>
            let removed : World :=
              { w1 with coreCtx := { w1.coreCtx with services :=
                w1.coreCtx.services.RemoveServiceRegistration_unlocked d } }
            (({ o1 with world := removed } : Observed).emit d
              (Effect.RemoveServiceRegistration d), true)
          | none => (o1, false)
        else (o, false)
      let o2 := r.1
      let coreContext := r.2
      if isUnregistering then (Outcome.returned, o2)
      else
        let o3 :=
          if coreContext then
            let unregisteringEvent : ServiceEvent :=
              ⟨ServiceEventType.SERVICE_UNREGISTERING, (o2.world.heap d).reference⟩
            let listeners := GetMatchingServiceListeners o2.world unregisteringEvent
            o2.ServiceChanged d listeners unregisteringEvent
          else o2
        ungetAndFinishObserved d o3

/-- The calls of a list, each observed with the same value of the flag. -/
def observedWith (available : Bool) (calls : List Effect) : List ObservedCall :=
  calls.map (fun e => { call := e, available := available })

/-- The step `r2` with the log runs the step `r` from the world of `o`, leaves
the heap alone, and enters in the log the calls it makes, all of them factory
calls, with the flag of registration `d` as `o` has it. -/
def Observed.FactoryStep (d : RegId) (o : Observed) (r : Outcome × World)
    (r2 : Outcome × Observed) : Prop :=
  (r2.1, r2.2.world) = r ∧ r2.2.world.heap = o.world.heap
    ∧ ∃ post, r2.2.log = o.log ++ observedWith (o.world.heap d).available post
        ∧ r2.2.world.trace = o.world.trace ++ post
        ∧ ∀ e ∈ post, Effect.isFactoryCall e = true

/-- The step `r2` with the log runs the step `r` from the world of `o` and
enters in the log the calls it makes, all of them factory calls, with the
value `available` of the flag. -/
def Observed.Logs (available : Bool) (o : Observed) (r : Outcome × World)
    (r2 : Outcome × Observed) : Prop :=
  (r2.1, r2.2.world) = r
    ∧ ∃ post, r2.2.log = o.log ++ observedWith available post
        ∧ r2.2.world.trace = o.world.trace ++ post
        ∧ ∀ e ∈ post, Effect.isFactoryCall e = true

/-! ## A concrete framework

Three registrations of the interface `Foo`, each with a service factory, owned
by bundle 1 and used by bundles 2 and 3: registration 1 has ranking 0 and id
1, registration 2 ranking 10 and id 2, registration 3 ranking 10 and id 3.
Listener 100 matches the maps whose `color` is `red`, listener 101 every map,
listener 102 the maps whose ranking is at least 10. -/

namespace Example

/-- A registration of `Foo` with the given ranking and id, at address `self`. -/
def registration (rank id : Int) (self : RegId) : ServiceRegistrationBasePrivate :=
  { ref := 1
    service := some [("Foo", some 7), ("org.cppmicroservices.factory", some 7)]
    bundle := some 1
    reference := ⟨some self, ""⟩
    properties := ⟨[("service.id", Any.long id), ("objectclass", Any.stringVector ["Foo"]),
      ("service.scope", Any.string "bundle"), ("service.ranking", Any.int rank),
      ("color", Any.string "red")]⟩
    available := true
    unregistering := false
    dependents := [(2, 1)]
    prototypeServiceInstances := [(2, [11, 12]), (3, [14])]
    bundleServiceInstance := [(2, 10), (3, 13)] }

/-- The heap of the three registrations. -/
def heap : RegId → ServiceRegistrationBasePrivate
  | 1 => registration 0 1 1
  | 2 => registration 10 2 2
  | _ => registration 10 3 3

/-- The filters of the three listeners. -/
def filter : ListenerId → Properties → Bool
  | 100, p => decide (AnyMap.find p.props "color" = some (Any.string "red"))
  | 101, _ => true
  | _, p => decide (ranking p ≥ 10)

/-- The framework with all bundles alive; the factory throws a
`std::exception` when it ungets instance 12. -/
def world : World :=
  { heap := heap
    bundleAlive := fun _ => true
    coreCtx := ⟨⟨[("Foo", [2, 3, 1])]⟩, ⟨[100, 101, 102], filter⟩⟩
    UngetService := fun _ _ _ s =>
      if s = 12 then CallResult.throwsStd "boom" else CallResult.returns
    trace := [] }

/-- The same framework after every `BundlePrivate` has been destroyed. -/
def worldBundleGone : World :=
  { world with bundleAlive := fun _ => false }

/-- The same framework while an `Unregister` of registration 1 is in flight:
the winner has set the latch and removed the registration from its bucket,
and is dispatching `UNREGISTERING`. -/
def worldInFlight : World :=
  { world with
    heap := fun r => if r = 1 then { heap 1 with unregistering := true } else heap r
    coreCtx := ⟨⟨[("Foo", [2, 3])]⟩, ⟨[100, 101, 102], filter⟩⟩ }

/-- The same framework with a factory that throws an object that is not a
`std::exception` when it ungets instance 12. -/
def worldNonStd : World :=
  { world with
    UngetService := fun _ _ _ s =>
      if s = 12 then CallResult.throwsOther else CallResult.returns }

/-- The handle of registration 1. -/
def handle : ServiceRegistrationBase := ⟨some 1⟩

/-- A property map that raises the ranking to 20, drops `color` and tries to
overwrite the service id. -/
def newProps : AnyMap :=
  [("service.ranking", Any.int 20), ("service.id", Any.long 99)]

/-- The framework after every `BundlePrivate` has been destroyed, while an
`Unregister` of registration 1 is in flight: the winner has set the latch and
has not yet reached line 249. -/
def worldInFlightBundleGone : World :=
  { worldBundleGone with
    heap := fun r => if r = 1 then { heap 1 with unregistering := true } else heap r }

/-- A property map whose ranking is a string. -/
def mistypedProps : AnyMap :=
  [("service.ranking", Any.string "high"), ("color", Any.string "blue")]

/-- A user executor registered under `cppmicroservices::async::AsyncWorkService`
by bundle 1, as `TestFallbackUsedAfterUnregister` registers its mock: a
service object and no factory, no ranking, id `id`. -/
def executor (id : Int) (self : RegId) : ServiceRegistrationBasePrivate :=
  { ref := 1
    service := some [("cppmicroservices::async::AsyncWorkService", some 5)]
    bundle := some 1
    reference := ⟨some self, ""⟩
    properties := ⟨[("service.id", Any.long id),
      ("objectclass", Any.stringVector ["cppmicroservices::async::AsyncWorkService"]),
      ("service.scope", Any.string "singleton")]⟩
    available := true
    unregistering := false
    dependents := []
    prototypeServiceInstances := []
    bundleServiceInstance := [] }

/-- The framework of `TestFallbackUsedAfterUnregister` after the mock executor
has been registered, as registration 1. -/
def worldWithExecutor : World :=
  { heap := fun r => executor 1 r
    bundleAlive := fun _ => true
    coreCtx := ⟨⟨[("cppmicroservices::async::AsyncWorkService", [1])]⟩, ⟨[], fun _ _ => false⟩⟩
    UngetService := fun _ _ _ _ => CallResult.returns
    trace := [] }

end Example

/-! ## ConfigurationNotifier

Of the configuration notifier of Declarative Services only the declarations
of `ConfigurationNotifier.hpp` belong to the sources: the struct
`ConfigChangeNotification` is embedded from them, the member functions of
`ConfigurationNotifier` are modelled from the specification. -/

namespace scrimpl

/-- Modelled from the spec: the enumeration `ConfigurationEventType` (declared
in `ConfigurationListener.hpp`, absent here), with the two event types the
spec names. -/
inductive ConfigurationEventType where
  | UPDATED
  | REMOVED
  deriving DecidableEq, Repr

/-- The struct `ConfigChangeNotification`; `newProperties` is a shared pointer,
`none` when null. -/
structure ConfigChangeNotification where
  pid : String
  event : ConfigurationEventType
  newProperties : Option AnyMap
  deriving DecidableEq, Repr

/-- The constructor of `ConfigChangeNotification` (lines 39-46). -/
def ConfigChangeNotification.new (pid : String) (properties : Option AnyMap)
    (evt : ConfigurationEventType) : ConfigChangeNotification :=
  { pid := pid, newProperties := properties, event := evt }

/-- Modelled from the spec: `ListenerTokenId` (declared elsewhere) is an
unsigned 64-bit integer. -/
abbrev ListenerTokenId := Nat

/-- The number of values of a `ListenerTokenId`. -/
def tokenModulus : Nat := 2 ^ 64

/-- A callback `std::function<void(const ConfigChangeNotification&)>`: how a
call of it ends. -/
abbrev Listener := ConfigChangeNotification → CallResult

/-- The type `TokenMap` of lines 88-90, an unordered map from token to
callback: a list of entries. -/
abbrev TokenMap := List (ListenerTokenId × Listener)

/-- The lookup `find` of a token map. -/
def TokenMap.find : TokenMap → ListenerTokenId → Option Listener
  | [], _ => none
  | (t', cb) :: rest, t => if t' = t then some cb else TokenMap.find rest t

/-- The insertion `emplace` of a token map: nothing is inserted when the
token already has an entry. -/
def TokenMap.emplace (m : TokenMap) (t : ListenerTokenId) (cb : Listener) : TokenMap :=
  if (TokenMap.find m t).isSome then m else m ++ [(t, cb)]

/-- The removal `erase` of a token map. -/
def TokenMap.erase (m : TokenMap) (t : ListenerTokenId) : TokenMap :=
  m.filter (fun e => decide (e.1 ≠ t))

/-- The table `listenersMap` of lines 92-94, an unordered map from PID to a
shared token map: a list of entries. -/
abbrev ListenersMap := List (String × TokenMap)

/-- The lookup `find` of the table. -/
def ListenersMap.find : ListenersMap → String → Option TokenMap
  | [], _ => none
  | (p', m) :: rest, p => if p' = p then some m else ListenersMap.find rest p

/-- The assignment `table[pid] = inner` of the table. -/
def ListenersMap.assign : ListenersMap → String → TokenMap → ListenersMap
  | [], p, m => [(p, m)]
  | (p', m') :: rest, p, m =>
    if p' = p then (p, m) :: rest else (p', m') :: ListenersMap.assign rest p m

/-- The removal `erase` of the table. -/
def ListenersMap.erase (table : ListenersMap) (p : String) : ListenersMap :=
  table.filter (fun e => decide (e.1 ≠ p))

/-- The state of a `ConfigurationNotifier`: the table and the token counter
(lines 92-100). -/
structure ConfigurationNotifier where
  listenersMap : ListenersMap
  tokenCounter : ListenerTokenId

/-- Modelled from the spec: a notifier as its constructor leaves it, with an
empty table and the counter at zero. -/
def ConfigurationNotifier.fresh : ConfigurationNotifier :=
  { listenersMap := [], tokenCounter := 0 }

/-- The listener stored under a PID and a token, if any. -/
def ConfigurationNotifier.listener (n : ConfigurationNotifier) (pid : String)
    (token : ListenerTokenId) : Option Listener :=
  (ListenersMap.find n.listenersMap pid).bind (fun m => TokenMap.find m token)

/-- Modelled from the spec: `RegisterListener(pid, cb)` (defined in
`ConfigurationNotifier.cpp`, absent here): the "token is a monotonic 64-bit
counter", so the counter is incremented in 64 bits and its new value is the
token; the callback is inserted under the token in the inner map of `pid`,
which is created when missing. -/
def ConfigurationNotifier.RegisterListener (n : ConfigurationNotifier) (pid : String)
    (notify : Listener) : ListenerTokenId × ConfigurationNotifier :=
  let token := (n.tokenCounter + 1) % tokenModulus
  let inner := (ListenersMap.find n.listenersMap pid).getD []
  (token,
    { listenersMap := ListenersMap.assign n.listenersMap pid (TokenMap.emplace inner token notify)
      tokenCounter := token })

/-- Modelled from the spec: `UnregisterListener(pid, token)` (absent here)
"removes entry; empty inner maps are garbage-collected". -/
def ConfigurationNotifier.UnregisterListener (n : ConfigurationNotifier) (pid : String)
    (token : ListenerTokenId) : ConfigurationNotifier :=
  match ListenersMap.find n.listenersMap pid with
  | none => n
  | some inner =>
    let erased := TokenMap.erase inner token
    if erased.isEmpty then
      { n with listenersMap := ListenersMap.erase n.listenersMap pid }
    else
      { n with listenersMap := ListenersMap.assign n.listenersMap pid erased }

/-- Modelled from the spec: `AnyListenersForPid(pid)` (absent here) is an
"existence probe": whether the table has an inner map for `pid`. -/
def ConfigurationNotifier.AnyListenersForPid (n : ConfigurationNotifier) (pid : String) : Bool :=
  (ListenersMap.find n.listenersMap pid).isSome

/-- What `NotifyAllListeners` does outside the notifier: it invokes the
callback stored under a PID and a token, or it logs an error. -/
inductive NotifyEffect where
  | invoked (pid : String) (token : ListenerTokenId) (notification : ConfigChangeNotification)
  | logged (what : String)
  deriving DecidableEq, Repr

/-- The message logged for a callback that threw. -/
def thrownMessage : CallResult → String
  | CallResult.throwsStd what => what
  | _ => "unknown exception"

/-- Modelled from the spec: the loop of `NotifyAllListeners` over the
snapshot: each callback is invoked; "a callback raising an error must not
prevent other callbacks from running; the error is logged and discarded". -/
def notifyEach (pid : String) (notification : ConfigChangeNotification) :
    TokenMap → List NotifyEffect
  | [] => []
  | (token, cb) :: rest =>
    match cb notification with
    | CallResult.returns =>
      NotifyEffect.invoked pid token notification :: notifyEach pid notification rest
    | r =>
      NotifyEffect.invoked pid token notification :: NotifyEffect.logged (thrownMessage r)
        :: notifyEach pid notification rest

/-- Modelled from the spec: `NotifyAllListeners(pid, type, properties)`
(absent here): "snapshot the inner map under lock, release the lock, then
invoke callbacks".  It returns how the call ends, the notifier it leaves and
what it did outside the notifier. -/
def ConfigurationNotifier.NotifyAllListeners (n : ConfigurationNotifier) (pid : String)
    (type : ConfigurationEventType) (properties : Option AnyMap) :
    Outcome × ConfigurationNotifier × List NotifyEffect :=
  match ListenersMap.find n.listenersMap pid with
  | none => (Outcome.returned, n, [])
  | some snapshot =>
    (Outcome.returned, n, notifyEach pid (ConfigChangeNotification.new pid properties type) snapshot)

/-- The callbacks invoked among the effects of a notification, in order. -/
def invocations : List NotifyEffect → List (String × ListenerTokenId × ConfigChangeNotification)
  | [] => []
  | NotifyEffect.invoked p t x :: rest => (p, t, x) :: invocations rest
  | NotifyEffect.logged _ :: rest => invocations rest

/-- The errors logged among the effects of a notification, in order. -/
def logged : List NotifyEffect → List String
  | [] => []
  | NotifyEffect.invoked _ _ _ :: rest => logged rest
  | NotifyEffect.logged what :: rest => what :: logged rest

/-- A call of one of the two registration functions of a notifier. -/
inductive Call where
  | register (pid : String) (notify : Listener)
  | unregister (pid : String) (token : ListenerTokenId)

/-- A notifier together with the history of the calls made on it: the tokens
`RegisterListener` has returned, oldest first, and the listeners that have
been registered and not yet unregistered, each known by its PID and token. -/
structure History where
  notifier : ConfigurationNotifier
  tokens : List ListenerTokenId
  live : String → ListenerTokenId → Bool

/-- The history of a notifier nothing has been called on. -/
def History.start : History :=
  { notifier := ConfigurationNotifier.fresh, tokens := [], live := fun _ _ => false }

/-- One call on the notifier of a history. -/
def History.step (h : History) : Call → History
  | Call.register pid notify =>
    let r := h.notifier.RegisterListener pid notify
    { notifier := r.2
      tokens := h.tokens ++ [r.1]
      live := fun p t => if p = pid ∧ t = r.1 then true else h.live p t }
  | Call.unregister pid token =>
    { notifier := h.notifier.UnregisterListener pid token
      tokens := h.tokens
      live := fun p t => if p = pid ∧ t = token then false else h.live p t }

/-- A sequence of calls on the notifier of a history. -/
def History.run (h : History) (calls : List Call) : History :=
  calls.foldl History.step h

/-- The number of `RegisterListener` calls of a sequence. -/
def registrations : List Call → Nat
  | [] => 0
  | Call.register _ _ :: rest => registrations rest + 1
  | Call.unregister _ _ :: rest => registrations rest

/-- A client that registers a listener under `pid` and unregisters it again,
`k` times over: at most one listener is registered at any moment. -/
def registerAndUnregister (pid : String) (notify : Listener) : Nat → List Call
  | 0 => []
  | k + 1 =>
    registerAndUnregister pid notify k
      ++ [Call.register pid notify, Call.unregister pid ((k + 1) % tokenModulus)]

/-- Every inner map of the table is non-empty and has one entry per token. -/
def ListenersMap.WellFormed (table : ListenersMap) : Prop :=
  ∀ e ∈ table, e.2 ≠ [] ∧ (e.2.map Prod.fst).Nodup

/-- The table of the notifier of a history is well formed and holds exactly
the listeners of the history that are registered and not yet unregistered. -/
def History.Consistent (h : History) : Prop :=
  ListenersMap.WellFormed h.notifier.listenersMap
    ∧ ∀ p t, h.live p t = (h.notifier.listener p t).isSome

end scrimpl

/-! ## CCUnsatisfiedReferenceState

The state classes of a component configuration are not part of the sources,
only the test `TestCCUnsatisfiedReferenceState.cpp` is; the state
`UNSATISFIED_REFERENCE` is modelled from section 4.9 of the specification. -/

namespace scrimpl

/-- Modelled from the spec: the five states of a component configuration. -/
inductive ComponentState where
  | DISABLED
  | UNSATISFIED_REFERENCE
  | SATISFIED
  | ACTIVE
  | DISPOSED
  deriving DecidableEq, Repr

/-- Modelled from the spec: a state object of a component configuration, known
by its address, with the state value it stands for. -/
structure ComponentConfigurationState where
  address : Nat
  value : ComponentState
  deriving DecidableEq, Repr

/-- Modelled from the spec: the part of a component configuration the state
`UNSATISFIED_REFERENCE` touches: the current state object, the factory
(`none` when the lookup returns null) and the provided interfaces of the
component metadata. -/
structure ComponentConfigurationImpl where
  state : ComponentConfigurationState
  factory : Option Nat
  interfaces : List String
  deriving DecidableEq, Repr

/-- A component configuration together with the service registrations
published in the framework, each with its interface ids. -/
structure System where
  config : ComponentConfigurationImpl
  registrations : List (List String)
  deriving DecidableEq, Repr

/-- The call `GetConfigState()` of the tests: the value of the current state. -/
def System.GetConfigState (s : System) : ComponentState :=
  s.config.state.value

/-- The call `GetServiceReferences(clazz)` of the tests: the published
registrations that provide `clazz`. -/
def System.GetServiceReferences (s : System) (clazz : String) : List (List String) :=
  s.registrations.filter (fun r => decide (clazz ∈ r))

/-- Modelled from the spec: the "compare-and-swap on state": the current state
object is replaced by `desired` when it is the object `expected`. -/
def System.CompareAndSetState (s : System) (expected desired : ComponentConfigurationState) :
    Bool × System :=
  if s.config.state.address = expected.address then
    (true, { s with config := { s.config with state := desired } })
  else (false, s)

/-- Modelled from the spec: the publication of the component as a service,
under its provided interfaces. -/
def System.RegisterService (s : System) : System :=
  { s with registrations := s.registrations ++ [s.config.interfaces] }

/-- Modelled from the spec: the state object `Register` moves to, a new object
(its address is not the one of `this`) of value `SATISFIED`. -/
def satisfiedAfter (this : ComponentConfigurationState) : ComponentConfigurationState :=
  { address := this.address + 1, value := ComponentState.SATISFIED }

/-- Where an invocation of `Register` stands: before its compare-and-swap,
having won it and about to publish, or returned. -/
inductive Phase where
  | start
  | publishing
  | returned
  deriving DecidableEq, Repr

/-- Modelled from the spec: one atomic step of `Register` through the state
object `this`: "if the factory lookup returns null, abort and stay in
`UNSATISFIED_REFERENCE`; otherwise publish the service and move to
`SATISFIED`", the invocation that publishes being the one that wins the
"compare-and-swap on state". -/
def registerStep (this : ComponentConfigurationState) (phase : Phase) (s : System) :
    Phase × System :=
  match phase with
  | Phase.start =>
    match s.config.factory with
    | none => (Phase.returned, s)
    | some _ =>
      let r := s.CompareAndSetState this (satisfiedAfter this)
      if r.1 then (Phase.publishing, r.2) else (Phase.returned, r.2)
  | Phase.publishing => (Phase.returned, s.RegisterService)
  | Phase.returned => (Phase.returned, s)

/-- Modelled from the spec: `CCUnsatisfiedReferenceState::Register`, one
invocation run alone from its start to its return. -/
def CCUnsatisfiedReferenceState.Register (this : ComponentConfigurationState) (s : System) :
    Outcome × System :=
  let r1 := registerStep this Phase.start s
  let r2 := registerStep this r1.1 r1.2
  (Outcome.returned, r2.2)

/-- Modelled from the spec: `CCUnsatisfiedReferenceState::Activate`.  The table
of section 4.9 has no activation out of `UNSATISFIED_REFERENCE`: no instance is
constructed (the result is null) and the configuration is left alone. -/
def CCUnsatisfiedReferenceState.Activate (_this : ComponentConfigurationState) (s : System)
    (_clientBundle : Nat) : Outcome × Option Nat × System :=
  (Outcome.returned, none, s)

/-- Modelled from the spec: `CCUnsatisfiedReferenceState::Deactivate`.  The
table of section 4.9 has no deactivation out of `UNSATISFIED_REFERENCE`: the
configuration is left alone. -/
def CCUnsatisfiedReferenceState.Deactivate (_this : ComponentConfigurationState) (s : System) :
    Outcome × System :=
  (Outcome.returned, s)

/-- Concurrent invocations of `Register` on one component configuration: the
system and the phase of each invocation. -/
structure Interleaving where
  system : System
  phase : Nat → Phase

/-- The invocations before any of them has taken a step. -/
def Interleaving.init (s : System) : Interleaving :=
  { system := s, phase := fun _ => Phase.start }

/-- Invocation `i` of `n` takes its next atomic step. -/
def Interleaving.step (this : ComponentConfigurationState) (n : Nat) (x : Interleaving)
    (i : Nat) : Interleaving :=
  if i < n then
    let r := registerStep this (x.phase i) x.system
    { system := r.2, phase := fun j => if j = i then r.1 else x.phase j }
  else x

/-- The invocations take steps in the order a schedule gives. -/
def Interleaving.run (this : ComponentConfigurationState) (n : Nat) (x : Interleaving)
    (schedule : List Nat) : Interleaving :=
  schedule.foldl (Interleaving.step this n) x

/-- The invariant of concurrent `Register` invocations through `this` on the
system `s`: no invocation has stepped yet; or one has won the compare-and-swap
and is about to publish; or the winner has published. -/
def Interleaving.Inv (this : ComponentConfigurationState) (s : System) (n : Nat)
    (x : Interleaving) : Prop :=
  x.system.config.factory = s.config.factory
    ∧ x.system.config.interfaces = s.config.interfaces
    ∧ ((x.system.config.state = this ∧ (∀ i, i < n → x.phase i = Phase.start)
          ∧ x.system.registrations = s.registrations)
      ∨ (x.system.config.state = satisfiedAfter this
          ∧ (∃ w, w < n ∧ x.phase w = Phase.publishing
              ∧ ∀ i, i < n → i ≠ w → x.phase i ≠ Phase.publishing)
          ∧ x.system.registrations = s.registrations)
      ∨ (x.system.config.state = satisfiedAfter this
          ∧ (∀ i, i < n → x.phase i ≠ Phase.publishing)
          ∧ x.system.registrations = s.registrations ++ [s.config.interfaces]))

/-- A component configuration in `UNSATISFIED_REFERENCE` with a factory,
providing `Service::Interface`, as `TestRegister` sets it up. -/
def exampleSystem : System :=
  { config :=
      { state := { address := 40, value := ComponentState.UNSATISFIED_REFERENCE }
        factory := some 9
        interfaces := ["Service::Interface"] }
    registrations := [] }

/-- The same component configuration without a factory, as
`TestRegister_Failure` sets it up. -/
def exampleSystemNoFactory : System :=
  { exampleSystem with config := { exampleSystem.config with factory := none } }

/-- How far an invocation of `Register` has come: the number of atomic steps
after which it is sure to have reached its phase. -/
def Phase.rank : Phase → Nat
  | Phase.start => 0
  | Phase.publishing => 1
  | Phase.returned => 2

end scrimpl

/-! ## SCRAsyncWorkService

The class `SCRAsyncWorkService` is not part of the sources, only the test
`TestAsyncWorkService.cpp` is; `post` is modelled from section 4.4 of the
specification, over the registry of the world above. -/

namespace scrimpl

/-- The interface id a user executor is registered under. -/
def asyncWorkServiceInterface : String := "cppmicroservices::async::AsyncWorkService"

/-- Identity of a task, a `std::packaged_task<void()>`. -/
abbrev Task := Nat

/-- What a `post` does with its task: it hands it to the `post` of the user
executor registered as `executor`, or the fallback runs it to completion. -/
inductive PostEffect where
  | userPost (executor : RegId) (task : Task)
  | fallbackRun (task : Task)
  deriving DecidableEq, Repr

/-- Modelled from the spec: an `SCRAsyncWorkService`.  "There is no global
mutable cache of the chosen executor": the object holds no executor; what is
kept here is the list of what its posts did, oldest first. -/
structure SCRAsyncWorkService where
  log : List PostEffect
  deriving DecidableEq, Repr

/-- Modelled from the spec: "the current highest-ranked registered executor
if any": the first of the registrations `Get` returns for the interface,
which are "already sorted". -/
def SCRAsyncWorkService.currentExecutor (w : World) : Option RegId :=
  (w.coreCtx.services.Get w.heap asyncWorkServiceInterface).head?

/-- Modelled from the spec: `SCRAsyncWorkService::post(task)`.  "The choice is
re-evaluated on each `post`: take the current highest-ranked registered
executor if any, else fallback." -/
def SCRAsyncWorkService.post (this : SCRAsyncWorkService) (w : World) (task : Task) :
    SCRAsyncWorkService :=
  match SCRAsyncWorkService.currentExecutor w with
  | some executor => { this with log := this.log ++ [PostEffect.userPost executor task] }
  | none => { this with log := this.log ++ [PostEffect.fallbackRun task] }

/-- The tasks the fallback ran, in order. -/
def fallbackRuns : List PostEffect → List Task
  | [] => []
  | PostEffect.userPost _ _ :: rest => fallbackRuns rest
  | PostEffect.fallbackRun task :: rest => task :: fallbackRuns rest

end scrimpl

/-! ## MetadataParserFactory

The factory of metadata parsers is not part of the sources, only the test
`TestMetadataParserFactory.cpp` is; `Create` is modelled from section 6 of the
specification. -/

namespace scrimpl

namespace metadata

/-- Modelled from the spec: the `ParserError` of section 7, which the test
observes as a `std::runtime_error`. -/
inductive ParserError where
  | runtime_error (what : String)
  deriving DecidableEq, Repr

/-- Modelled from the spec: a `MetadataParser` (absent here), known by the
manifest version it parses and the logger it was given. -/
structure MetadataParser where
  version : Int
  logger : Option Nat
  deriving DecidableEq, Repr

/-- Modelled from the spec: `MetadataParserFactory::Create(version, logger)`.
The "manifest version ∈ {1}"; an "invalid or unknown manifest version
produces `ParserError`". -/
def MetadataParserFactory.Create (version : Int) (logger : Option Nat) :
    Except ParserError MetadataParser :=
  if version = 1 then Except.ok { version := 1, logger := logger }
  else Except.error (ParserError.runtime_error "Unsupported manifest file version")

end metadata

end scrimpl

/-! ## Bundle validation

Neither the framework nor the runtime of Declarative Services is part of the
sources, only the test `TestBundleValidation.cpp` is.  The validation is modelled
from sections 4.9 and 4.10 of the specification and from its end-to-end
scenarios 1 and 2, for bundles that carry one component each. -/

/-- How the validation predicate ends for a bundle: it returns true, it
returns false, or it throws. -/
inductive ValidationResult where
  | accepts
  | rejects
  | throws (what : String)
  deriving DecidableEq, Repr

/-- The enumeration `Bundle::State`. -/
inductive Bundle.State where
  | STATE_UNINSTALLED
  | STATE_INSTALLED
  | STATE_RESOLVED
  | STATE_STARTING
  | STATE_STOPPING
  | STATE_ACTIVE
  deriving DecidableEq, Repr

/-- A `SecurityException`, the `SecurityError` of the spec. -/
structure SecurityException where
  what : String
  deriving DecidableEq, Repr

/-- Modelled from the spec: what the framework and the runtime hold for a
bundle and its component: the state of the bundle, whether its shared library
is loaded into the process, the activation policy of the component
(immediate or delayed), whether the component is enabled, whether it is
satisfied ("all references satisfied, config ok"), and whether it has been
activated. -/
structure BundleRecord where
  state : Bundle.State
  loaded : Bool
  immediate : Bool
  enabled : Bool
  satisfied : Bool
  active : Bool
  deriving DecidableEq, Repr

/-- Modelled from the spec: a framework with its "optional predicate supplied
at framework construction" (`none` when there is none), its bundles and the
framework events delivered to the framework listeners so far, oldest first. -/
structure Framework where
  validationFunc : Option (BundleId → ValidationResult)
  bundles : BundleId → BundleRecord
  events : List FrameworkEvent

/-- Write the record of bundle `b`. -/
def Framework.update (fw : Framework) (b : BundleId) (r : BundleRecord) : Framework :=
  { fw with bundles := fun x => if x = b then r else fw.bundles x }

/-- Modelled from the spec: the state of the component of bundle `b`, by the
table of section 4.9. -/
def Framework.componentState (fw : Framework) (b : BundleId) : scrimpl.ComponentState :=
  if !(fw.bundles b).enabled then scrimpl.ComponentState.DISABLED
  else if !(fw.bundles b).satisfied then scrimpl.ComponentState.UNSATISFIED_REFERENCE
  else if !(fw.bundles b).active then scrimpl.ComponentState.SATISFIED
  else scrimpl.ComponentState.ACTIVE

/-- Modelled from the spec: the predicate is consulted for bundle `b`.  "If
the predicate returns false, the operation fails with `SecurityError`"; "if
the predicate throws, a framework error event is emitted with the offending
bundle and `SecurityError` propagates to the caller". -/
def Framework.validate (fw : Framework) (b : BundleId) :
    Except SecurityException Unit × Framework :=
  match fw.validationFunc with
  | none => (Except.ok (), fw)
  | some validationFunc =>
    match validationFunc b with
    | ValidationResult.accepts => (Except.ok (), fw)
    | ValidationResult.rejects =>
      (Except.error ⟨"bundle validation failed"⟩, fw)
    | ValidationResult.throws what =>
      (Except.error ⟨what⟩,
        { fw with events := fw.events ++
          [⟨FrameworkEventType.FRAMEWORK_ERROR, b, "bundle validation threw",
            ⟨what, ServiceExceptionType.UNSPECIFIED⟩⟩] })

/-- Modelled from the spec: the shared library of bundle `b` is loaded into
the process; the predicate is "consulted before any code from a bundle runs". -/
def Framework.loadSharedLibrary (fw : Framework) (b : BundleId) :
    Except SecurityException Unit × Framework :=
  if (fw.bundles b).loaded then (Except.ok (), fw)
  else
    match fw.validate b with
    | (Except.ok _, fw1) => (Except.ok (), fw1.update b { fw1.bundles b with loaded := true })
    | (Except.error e, fw1) => (Except.error e, fw1)

/-- Modelled from the spec: the activation of the component of bundle `b`:
the library is loaded and the implementation constructed.  A failure
"transitions back to `SATISFIED` without exposing the partially constructed
instance" and "surfaces the error to the triggering caller". -/
def Framework.activate (fw : Framework) (b : BundleId) :
    Except SecurityException Unit × Framework :=
  match fw.loadSharedLibrary b with
  | (Except.ok _, fw1) => (Except.ok (), fw1.update b { fw1.bundles b with active := true })
  | (Except.error e, fw1) => (Except.error e, fw1)

/-- Modelled from the spec: `Bundle::Start` on bundle `b`.  A component that
is enabled, satisfied and immediate is activated "eagerly", and the start
fails with the bundle left in `RESOLVED` when the activation does; a delayed
component, or one with an unsatisfied reference, is not activated by the
start. -/
def Framework.Start (fw : Framework) (b : BundleId) :
    Except SecurityException Unit × Framework :=
  if (fw.bundles b).state = Bundle.State.STATE_ACTIVE then (Except.ok (), fw)
  else if (fw.bundles b).enabled && (fw.bundles b).satisfied && (fw.bundles b).immediate then
    match fw.activate b with
    | (Except.ok _, fw1) =>
      (Except.ok (), fw1.update b { fw1.bundles b with state := Bundle.State.STATE_ACTIVE })
    | (Except.error e, fw1) =>
      (Except.error e, fw1.update b { fw1.bundles b with state := Bundle.State.STATE_RESOLVED })
  else (Except.ok (), fw.update b { fw.bundles b with state := Bundle.State.STATE_ACTIVE })

/-- Modelled from the spec: the service of the component of bundle `b` is
published while the bundle is started and the component enabled and
satisfied. -/
def Framework.published (fw : Framework) (b : BundleId) : Bool :=
  decide ((fw.bundles b).state = Bundle.State.STATE_ACTIVE) && (fw.bundles b).enabled
    && (fw.bundles b).satisfied

/-- Modelled from the spec: the references of the component of bundle `b`
become satisfied (another bundle registers the service it requires).  An
enabled immediate component of a started bundle is then activated; the error
of a failed activation does not reach the bundle that registered the
service. -/
def Framework.ReferencesSatisfied (fw : Framework) (b : BundleId) : Framework :=
  let fw1 := fw.update b { fw.bundles b with satisfied := true }
  if decide ((fw.bundles b).state = Bundle.State.STATE_ACTIVE) && (fw.bundles b).enabled
      && (fw.bundles b).immediate && !(fw.bundles b).active then
    (fw1.activate b).2
  else fw1

/-- Modelled from the spec: `GetService` on the service reference of the
component of bundle `b`; the result is the instance (named by the bundle), or
null when the service is not published.  "GetService on published ref
(delayed)" activates the component; when the activation fails the error
reaches the caller and the component is disabled (scenario 1). -/
def Framework.GetService (fw : Framework) (b : BundleId) :
    Except SecurityException (Option Instance) × Framework :=
  if !fw.published b then (Except.ok none, fw)
  else if (fw.bundles b).active then (Except.ok (some b), fw)
  else
    match fw.activate b with
    | (Except.ok _, fw1) => (Except.ok (some b), fw1)
    | (Except.error e, fw1) =>
      (Except.error e, fw1.update b { fw1.bundles b with enabled := false })

/-- Modelled from the spec: `IsComponentEnabled` for the component of bundle
`b`. -/
def Framework.IsComponentEnabled (fw : Framework) (b : BundleId) : Bool :=
  (fw.bundles b).enabled

/-- Modelled from the spec: `EnableComponent` for the component of bundle `b`;
the result is what the returned future completes with.  Enabling a satisfied
immediate component of a started bundle activates it; "delayed components
won't throw when enabled". -/
def Framework.EnableComponent (fw : Framework) (b : BundleId) :
    Except SecurityException Unit × Framework :=
  let fw1 := fw.update b { fw.bundles b with enabled := true }
  if decide ((fw.bundles b).state = Bundle.State.STATE_ACTIVE) && (fw.bundles b).satisfied
      && (fw.bundles b).immediate && !(fw.bundles b).active then
    fw1.activate b
  else (Except.ok (), fw1)

/-- The framework after bundle `b` has been started and the references of its
component have become satisfied. -/
def Framework.startedAndSatisfied (fw : Framework) (b : BundleId) : Framework :=
  (fw.Start b).2.ReferencesSatisfied b

/-- The framework after a `GetService` on the component of bundle `b` and an
`EnableComponent` of that component. -/
def Framework.reenabled (fw : Framework) (b : BundleId) : Framework :=
  ((fw.GetService b).2.EnableComponent b).2

/-- Whether a framework event is a `FRAMEWORK_ERROR` whose bundle is `b`. -/
def FrameworkEvent.isErrorOf (b : BundleId) (evt : FrameworkEvent) : Bool :=
  decide (evt.type = FrameworkEventType.FRAMEWORK_ERROR) && decide (evt.bundle = b)

/-- Whether the outcome of a gated operation is a `SecurityException`. -/
def isSecurityError {α : Type} (r : Except SecurityException α) : Bool :=
  match r with
  | Except.error _ => true
  | Except.ok _ => false

namespace Example

/-- The validation function of `BundleValidationFailure`: it returns true for
bundle 0 (Declarative Services) and false for every other bundle. -/
def rejectingFunc : BundleId → ValidationResult :=
  fun b => if b = 0 then ValidationResult.accepts else ValidationResult.rejects

/-- The validation function of `BundleValidationFunctionException`: it
returns true for bundle 0 and throws for every other bundle. -/
def throwingFunc : BundleId → ValidationResult :=
  fun b => if b = 0 then ValidationResult.accepts else ValidationResult.throws "foobar"

/-- The bundles of `TestBundleValidation.cpp`, installed and not started:
bundle 1 (`TestBundleDSTOI1`) has an immediate component without references,
bundle 6 (`TestBundleDSTOI6`) a delayed component that requires `Interface1`,
bundle 7 (`TestBundleDSTOI7`) an immediate component that requires
`Interface1`. -/
def bundles : BundleId → BundleRecord
  | 6 =>
    { state := Bundle.State.STATE_RESOLVED, loaded := false, immediate := false,
      enabled := true, satisfied := false, active := false }
  | 7 =>
    { state := Bundle.State.STATE_RESOLVED, loaded := false, immediate := true,
      enabled := true, satisfied := false, active := false }
  | _ =>
    { state := Bundle.State.STATE_RESOLVED, loaded := false, immediate := true,
      enabled := true, satisfied := true, active := false }

/-- The framework of `BundleValidationFailure`. -/
def frameworkRejecting : Framework :=
  { validationFunc := some rejectingFunc, bundles := bundles, events := [] }

/-- The framework of `BundleValidationSuccess`. -/
def frameworkAccepting : Framework :=
  { validationFunc := some (fun _ => ValidationResult.accepts), bundles := bundles, events := [] }

/-- The framework of `BundleValidationFunctionException`. -/
def frameworkThrowing : Framework :=
  { validationFunc := some throwingFunc, bundles := bundles, events := [] }

end Example

/-! ## The test component ServiceComponentCA7 -/

namespace sample

/-- Address of a `ComponentContext`. -/
abbrev ComponentContext := Nat

/-- The class `ServiceComponentCA7`: its data member `properties`; the mutex
`propertiesLock` holds no data. -/
structure ServiceComponentCA7 where
  properties : AnyMap
  deriving DecidableEq, Repr

/-- The constructor, `properties(*props)`; `props` is a shared pointer, `none`
when null, and no object is constructed from a null pointer. -/
def ServiceComponentCA7.new (props : Option AnyMap) : Option ServiceComponentCA7 :=
  match props with
  | some p => some { properties := p }
  | none => none

/-- The method `ServiceComponentCA7::Modified`; both arguments are shared
pointers, `none` when null. -/
def ServiceComponentCA7.Modified (this : ServiceComponentCA7)
    (_context : Option ComponentContext) (configuration : Option AnyMap) :
    Outcome × ServiceComponentCA7 :=
  match configuration with
  | some c => (Outcome.returned, { this with properties := c })
  | none => (Outcome.nullDereference, this)

/-- The method `ServiceComponentCA7::GetProperties`. -/
def ServiceComponentCA7.GetProperties (this : ServiceComponentCA7) : AnyMap :=
  this.properties

/-- A sequence of `Modified` calls on one component, in order; it stops at the
first call that does not return. -/
def ServiceComponentCA7.ModifiedAll (this : ServiceComponentCA7) :
    List (Option ComponentContext × Option AnyMap) → Outcome × ServiceComponentCA7
  | [] => (Outcome.returned, this)
  | c :: rest =>
    match this.Modified c.1 c.2 with
    | (Outcome.returned, next) => next.ModifiedAll rest
    | r => r

end sample

/-! # Theorems -/

/-! ## Property maps -/

theorem AnyMap.find_assign (m : AnyMap) (k : String) (v : Any) (k' : String) :
    AnyMap.find (AnyMap.assign m k v) k' = if k = k' then some v else AnyMap.find m k' := by
  induction m with
  | nil => simp [AnyMap.assign, AnyMap.find]
  | cons e t ih =>
    obtain ⟨a, b⟩ := e
    by_cases h : a = k
    · subst h
      by_cases h2 : a = k' <;> simp [AnyMap.assign, AnyMap.find, h2]
    · by_cases h2 : a = k'
      · subst h2
        simp [AnyMap.assign, AnyMap.find, h, Ne.symm h]
      · simp [AnyMap.assign, AnyMap.find, h, h2, ih]

theorem reserved_ne :
    Constants.SERVICE_ID ≠ Constants.OBJECTCLASS ∧ Constants.SERVICE_ID ≠ Constants.SERVICE_SCOPE
      ∧ Constants.OBJECTCLASS ≠ Constants.SERVICE_SCOPE
      ∧ Constants.SERVICE_RANKING ≠ Constants.SERVICE_ID
      ∧ Constants.SERVICE_RANKING ≠ Constants.OBJECTCLASS
      ∧ Constants.SERVICE_RANKING ≠ Constants.SERVICE_SCOPE := by
  decide

/-- The keys `SetProperties` takes from the stored properties. -/
theorem find_propsCopyOf (properties : Properties) (props : AnyMap) (k : String) :
    AnyMap.find (propsCopyOf properties props) k =
      if k = Constants.SERVICE_ID ∨ k = Constants.OBJECTCLASS ∨ k = Constants.SERVICE_SCOPE then
        some (properties.Value_unlocked k).1
      else AnyMap.find props k := by
  obtain ⟨h1, h2, h3, -⟩ := reserved_ne
  simp only [propsCopyOf, AnyMap.find_assign]
  by_cases hs : Constants.SERVICE_SCOPE = k
  · subst hs
    simp
  · by_cases ho : Constants.OBJECTCLASS = k
    · subst ho
      simp [hs]
    · by_cases hi : Constants.SERVICE_ID = k
      · subst hi
        simp [hs, ho]
      · simp [hs, ho, hi, Ne.symm hs, Ne.symm ho, Ne.symm hi]

/-! ## Frame lemmas for the collaborators -/

@[simp]
theorem World.store_heap_self (w : World) (d : RegId) (r : ServiceRegistrationBasePrivate) :
    (w.store d r).heap d = r := by
  simp [World.store]

theorem World.store_heap_other (w : World) (d x : RegId) (r : ServiceRegistrationBasePrivate)
    (h : x ≠ d) : (w.store d r).heap x = w.heap x := by
  simp [World.store, h]

@[simp]
theorem World.store_trace (w : World) (d : RegId) (r : ServiceRegistrationBasePrivate) :
    (w.store d r).trace = w.trace := rfl

@[simp]
theorem World.store_coreCtx (w : World) (d : RegId) (r : ServiceRegistrationBasePrivate) :
    (w.store d r).coreCtx = w.coreCtx := rfl

@[simp]
theorem World.store_bundleAlive (w : World) (d : RegId)
    (r : ServiceRegistrationBasePrivate) : (w.store d r).bundleAlive = w.bundleAlive := rfl

@[simp]
theorem World.store_UngetService (w : World) (d : RegId)
    (r : ServiceRegistrationBasePrivate) : (w.store d r).UngetService = w.UngetService := rfl

@[simp]
theorem World.emit_heap (w : World) (e : Effect) : (w.emit e).heap = w.heap := rfl

@[simp]
theorem World.emit_trace (w : World) (e : Effect) : (w.emit e).trace = w.trace ++ [e] := rfl

@[simp]
theorem World.emit_coreCtx (w : World) (e : Effect) : (w.emit e).coreCtx = w.coreCtx := rfl

@[simp]
theorem World.emit_bundleAlive (w : World) (e : Effect) :
    (w.emit e).bundleAlive = w.bundleAlive := rfl

@[simp]
theorem World.emit_UngetService (w : World) (e : Effect) :
    (w.emit e).UngetService = w.UngetService := rfl

@[simp]
theorem World.emit_lockBundle (w : World) (e : Effect) (d : RegId) :
    (w.emit e).lockBundle d = w.lockBundle d := rfl

@[simp]
theorem deliver_heap (w : World) (l : List ListenerId) (evt : ServiceEvent) :
    (deliver w l evt).heap = w.heap := rfl

@[simp]
theorem deliver_coreCtx (w : World) (l : List ListenerId) (evt : ServiceEvent) :
    (deliver w l evt).coreCtx = w.coreCtx := rfl

@[simp]
theorem deliver_bundleAlive (w : World) (l : List ListenerId) (evt : ServiceEvent) :
    (deliver w l evt).bundleAlive = w.bundleAlive := rfl

@[simp]
theorem deliver_UngetService (w : World) (l : List ListenerId) (evt : ServiceEvent) :
    (deliver w l evt).UngetService = w.UngetService := rfl

@[simp]
theorem deliver_trace (w : World) (l : List ListenerId) (evt : ServiceEvent) :
    (deliver w l evt).trace = w.trace ++ l.map (fun x => Effect.CallDelegate x evt) := rfl

@[simp]
theorem deliver_lockBundle (w : World) (l : List ListenerId) (evt : ServiceEvent)
    (d : RegId) : (deliver w l evt).lockBundle d = w.lockBundle d := rfl

/-- A store that leaves the `bundle` field alone does not change what
`lock()` returns. -/
theorem World.store_lockBundle (w : World) (d x : RegId) (r : ServiceRegistrationBasePrivate)
    (h : r.bundle = (w.heap d).bundle) : (w.store d r).lockBundle x = w.lockBundle x := by
  unfold World.lockBundle
  by_cases hx : x = d
  · subst hx
    simp [h]
  · simp [World.store_heap_other _ _ _ _ hx]

@[simp]
theorem notifyModified_heap (w : World) (d : RegId) (e1 e2 : ServiceEvent)
    (before : List ListenerId) : (notifyModified w d e1 e2 before).heap = w.heap := by
  unfold notifyModified
  split <;> simp [ServiceChanged, ServiceChanged3]

@[simp]
theorem notifyModified_coreCtx (w : World) (d : RegId) (e1 e2 : ServiceEvent)
    (before : List ListenerId) : (notifyModified w d e1 e2 before).coreCtx = w.coreCtx := by
  unfold notifyModified
  split <;> simp [ServiceChanged, ServiceChanged3]

/-! ## SetProperties: what it leaves in the heap -/

/-- After `SetProperties`, whatever its outcome, the heap is the old one or
the old one with the record of the registration swapped at line 178. -/
theorem SetProperties_heap (d : RegId) (props : AnyMap) (w : World) :
    ((ServiceRegistrationBase.mk (some d)).SetProperties props w).2.heap = w.heap
      ∨ ((ServiceRegistrationBase.mk (some d)).SetProperties props w).2.heap
          = (w.store d (swapped w d props)).heap := by
  unfold ServiceRegistrationBase.SetProperties
  simp only
  split
  · exact Or.inl rfl
  · split
    · exact Or.inl rfl
    · split
      · exact Or.inl rfl
      · split
        · split
          · exact Or.inr rfl
          · right
            simp only [notifyModified_heap]
            split <;> rfl
        · right
          simp only [notifyModified_heap]
          rfl

/-- When `SetProperties` returns, the record of the registration has been
swapped at line 178. -/
theorem SetProperties_heap_returned (d : RegId) (props : AnyMap) (w : World)
    (h : ((ServiceRegistrationBase.mk (some d)).SetProperties props w).1 = Outcome.returned) :
    ((ServiceRegistrationBase.mk (some d)).SetProperties props w).2.heap
      = (w.store d (swapped w d props)).heap := by
  revert h
  unfold ServiceRegistrationBase.SetProperties
  simp only
  split
  · simp
  · split
    · simp
    · split
      · simp
      · split
        · split
          · simp
          · intro _
            simp only [notifyModified_heap]
            split <;> rfl
        · intro _
          simp only [notifyModified_heap]
          rfl

theorem newRank_propsCopyOf (properties : Properties) (props : AnyMap) :
    newRank (propsCopyOf properties props) = newRank props := by
  obtain ⟨-, -, -, h4, h5, h6⟩ := reserved_ne
  unfold newRank
  rw [find_propsCopyOf]
  simp [h4, h5, h6]

theorem newRank_of_rankingIntOrAbsent (props : AnyMap) (h : rankingIntOrAbsent props = true) :
    newRank props = Except.ok (ranking (Properties.mk props)) := by
  unfold rankingIntOrAbsent at h
  unfold newRank ranking Properties.Value_unlocked
  cases hf : AnyMap.find props Constants.SERVICE_RANKING with
  | none => simp
  | some v =>
    rw [hf] at h
    cases v <;> simp_all [any_cast_int]

theorem oldRank_of_rankingIntOrEmpty (properties : Properties)
    (h : rankingIntOrEmpty properties = true) :
    oldRank properties = Except.ok (ranking properties) := by
  unfold rankingIntOrEmpty at h
  unfold oldRank ranking
  cases hv : (properties.Value_unlocked Constants.SERVICE_RANKING).1 <;>
    simp_all [any_cast_int, Any.Empty]

/-- The trace `notifyModified` leaves: `MODIFIED` to the listeners matching
now, then `MODIFIED_ENDMATCH` to the listeners of `before` that do not. -/
theorem notifyModified_trace (w : World) (d : RegId) (e1 e2 : ServiceEvent)
    (before : List ListenerId) :
    (notifyModified w d e1 e2 before).trace = w.trace ++
      (match w.lockBundle d with
       | some _ =>
         (GetMatchingServiceListeners w e1).map (fun l => Effect.CallDelegate l e1)
           ++ (before.filter (fun l => decide (l ∉ GetMatchingServiceListeners w e1))).map
                (fun l => Effect.CallDelegate l e2)
       | none => []) := by
  unfold notifyModified
  split <;> simp [ServiceChanged, ServiceChanged3]

/-- What `SetProperties` does to an available registration when the casts of
lines 161, 176 and 182 succeed. -/
theorem SetProperties_eq (d : RegId) (props : AnyMap) (w : World) (n o : Int)
    (classes : List String)
    (hav : (w.heap d).available = true)
    (hn : newRank props = Except.ok n)
    (ho : oldRank (w.heap d).properties = Except.ok o)
    (hc : o ≠ n → any_cast_stringVector
      ((w.heap d).properties.Value_unlocked Constants.OBJECTCLASS).1 = Except.ok classes) :
    (ServiceRegistrationBase.mk (some d)).SetProperties props w =
      (Outcome.returned,
        notifyModified (afterSwap w d props (decide (o ≠ n)) classes) d
          (modifiedEventOf w d) (modifiedEndMatchEventOf w d) (beforeOf w d)) := by
  unfold ServiceRegistrationBase.SetProperties
  simp only
  rw [if_neg (by simp [hav])]
  simp only [newRank_propsCopyOf, hn, ho]
  by_cases hne : o = n
  · subst hne
    simp [afterSwap, swapped, modifiedEventOf, modifiedEndMatchEventOf, beforeOf]
  · have hc2 := hc hne
    simp only [ne_eq, hne, not_false_eq_true, if_true, hc2]
    simp [afterSwap, swapped, modifiedEventOf, modifiedEndMatchEventOf, beforeOf, hne]

/-- A call of `SetProperties` that returns was made on an available
registration and none of its three casts failed. -/
theorem SetProperties_returned_inv (d : RegId) (props : AnyMap) (w : World)
    (h : ((ServiceRegistrationBase.mk (some d)).SetProperties props w).1 = Outcome.returned) :
    (w.heap d).available = true ∧ ∃ n o classes,
      newRank props = Except.ok n ∧ oldRank (w.heap d).properties = Except.ok o
        ∧ (o ≠ n → any_cast_stringVector
            ((w.heap d).properties.Value_unlocked Constants.OBJECTCLASS).1 = Except.ok classes) := by
  revert h
  unfold ServiceRegistrationBase.SetProperties
  simp only [newRank_propsCopyOf]
  split
  · simp
  · rename_i hav
    have hav2 : (w.heap d).available = true := by simpa using hav
    split
    · simp
    · rename_i n hn
      split
      · simp
      · rename_i o ho
        split
        · rename_i hne
          split
          · simp
          · rename_i classes hcl
            intro _
            exact ⟨hav2, n, o, classes, hn, ho, fun _ => hcl⟩
        · rename_i heq
          intro _
          refine ⟨hav2, n, o, [], hn, ho, fun hne => absurd hne heq⟩

theorem Value_unlocked_fst_of_find (p : Properties) (k : String) (v : Any)
    (h : AnyMap.find p.props k = some v) : (p.Value_unlocked k).1 = v := by
  simp [Properties.Value_unlocked, h]

/-- C1: for every registration and every property map passed to
`SetProperties`, reserved keys included, the values the registration has for
`SERVICE_ID`, `OBJECTCLASS` and `SERVICE_SCOPE` after the call are the values
it had before the call, however the call ends, so in particular when it is made on an
available registration and returns. -/
theorem SetProperties_keeps_reserved_values (d : RegId) (props : AnyMap) (w : World) :
    ((((ServiceRegistrationBase.mk (some d)).SetProperties props w).2.heap d).properties.Value_unlocked
        Constants.SERVICE_ID).1
      = ((w.heap d).properties.Value_unlocked Constants.SERVICE_ID).1
    ∧ ((((ServiceRegistrationBase.mk (some d)).SetProperties props w).2.heap d).properties.Value_unlocked
        Constants.OBJECTCLASS).1
      = ((w.heap d).properties.Value_unlocked Constants.OBJECTCLASS).1
    ∧ ((((ServiceRegistrationBase.mk (some d)).SetProperties props w).2.heap d).properties.Value_unlocked
        Constants.SERVICE_SCOPE).1
      = ((w.heap d).properties.Value_unlocked Constants.SERVICE_SCOPE).1 := by
  rcases SetProperties_heap d props w with h | h
  · rw [h]
    exact ⟨rfl, rfl, rfl⟩
  · rw [h, World.store_heap_self]
    refine ⟨?_, ?_, ?_⟩ <;>
    · apply Value_unlocked_fst_of_find
      simp [swapped, find_propsCopyOf]

/-- C6: when `SetProperties(props)` returns, the property map of the
registration is `props` with the three reserved keys overwritten by their
previous values: a key that is not reserved has the value `props` gives it
and is absent when `props` has no entry for it (replacement, not merge), and
each reserved key has its previous value. -/
theorem SetProperties_replaces_properties (d : RegId) (props : AnyMap) (w : World)
    (hret : ((ServiceRegistrationBase.mk (some d)).SetProperties props w).1 = Outcome.returned) :
    (((ServiceRegistrationBase.mk (some d)).SetProperties props w).2.heap d).properties.props
      = AnyMap.assign
          (AnyMap.assign
            (AnyMap.assign props Constants.SERVICE_ID
              ((w.heap d).properties.Value_unlocked Constants.SERVICE_ID).1)
            Constants.OBJECTCLASS ((w.heap d).properties.Value_unlocked Constants.OBJECTCLASS).1)
          Constants.SERVICE_SCOPE ((w.heap d).properties.Value_unlocked Constants.SERVICE_SCOPE).1
    ∧ (∀ k : String, k ≠ Constants.SERVICE_ID → k ≠ Constants.OBJECTCLASS →
        k ≠ Constants.SERVICE_SCOPE →
        AnyMap.find
            (((ServiceRegistrationBase.mk (some d)).SetProperties props w).2.heap d).properties.props k
          = AnyMap.find props k)
    ∧ (∀ k : String, k = Constants.SERVICE_ID ∨ k = Constants.OBJECTCLASS ∨
        k = Constants.SERVICE_SCOPE →
        AnyMap.find
            (((ServiceRegistrationBase.mk (some d)).SetProperties props w).2.heap d).properties.props k
          = some ((w.heap d).properties.Value_unlocked k).1) := by
  rw [SetProperties_heap_returned d props w hret, World.store_heap_self]
  refine ⟨rfl, ?_, ?_⟩
  · intro k h1 h2 h3
    simp [swapped, find_propsCopyOf, h1, h2, h3]
  · intro k hk
    simp [swapped, find_propsCopyOf, hk]

theorem deliveries_append (a b : List Effect) :
    deliveries (a ++ b) = deliveries a ++ deliveries b := by
  induction a with
  | nil => rfl
  | cons e t ih => cases e <;> simp [deliveries, ih]

theorem deliveries_map_CallDelegate (l : List ListenerId) (evt : ServiceEvent) :
    deliveries (l.map (fun x => Effect.CallDelegate x evt)) = l.map (fun x => (x, evt)) := by
  induction l with
  | nil => rfl
  | cons a t ih => simp [deliveries, ih]

theorem filter_isUpdate_map_CallDelegate (l : List ListenerId) (evt : ServiceEvent) :
    (l.map (fun x => Effect.CallDelegate x evt)).filter Effect.isUpdateServiceRegistrationOrder
      = [] := by
  induction l with
  | nil => rfl
  | cons a t ih => simp [Effect.isUpdateServiceRegistrationOrder]

theorem callsSince_of_trace (w w2 : World) (seg : List Effect) (h : w2.trace = w.trace ++ seg) :
    callsSince w w2 = seg := by
  simp [callsSince, h]

theorem swapped_lockBundle (w : World) (d x : RegId) (props : AnyMap) :
    (w.store d (swapped w d props)).lockBundle x = w.lockBundle x :=
  World.store_lockBundle w d x _ rfl

theorem afterSwap_heap (w : World) (d : RegId) (props : AnyMap) (changed : Bool)
    (classes : List String) :
    (afterSwap w d props changed classes).heap = (w.store d (swapped w d props)).heap := by
  unfold afterSwap
  simp only
  split
  · split <;> rfl
  · rfl

theorem afterSwap_lockBundle (w : World) (d x : RegId) (props : AnyMap) (changed : Bool)
    (classes : List String) :
    (afterSwap w d props changed classes).lockBundle x = w.lockBundle x := by
  rw [← swapped_lockBundle w d x props]
  unfold afterSwap
  simp only
  split
  · split <;> rfl
  · rfl

theorem afterSwap_listeners (w : World) (d : RegId) (props : AnyMap) (changed : Bool)
    (classes : List String) :
    (afterSwap w d props changed classes).coreCtx.listeners = w.coreCtx.listeners := by
  unfold afterSwap
  simp only
  split
  · split <;> rfl
  · rfl

theorem afterSwap_trace (w : World) (d : RegId) (props : AnyMap) (changed : Bool)
    (classes : List String) :
    (afterSwap w d props changed classes).trace = w.trace ++
      (if changed = true ∧ (w.lockBundle d).isSome = true then
        [Effect.UpdateServiceRegistrationOrder classes] else []) := by
  unfold afterSwap
  simp only [swapped_lockBundle]
  cases changed <;> cases h : w.lockBundle d <;> simp

theorem afterSwap_services (w : World) (d : RegId) (props : AnyMap) (changed : Bool)
    (classes : List String) :
    (afterSwap w d props changed classes).coreCtx.services =
      if changed = true ∧ (w.lockBundle d).isSome = true then
        w.coreCtx.services.UpdateServiceRegistrationOrder
          (w.store d (swapped w d props)).heap classes
      else w.coreCtx.services := by
  unfold afterSwap
  simp only [swapped_lockBundle]
  cases changed <;> cases h : w.lockBundle d <;> simp

/-- C7: on an available registration whose owning bundle is alive, whose
stored ranking is an `int` or empty and whose `OBJECTCLASS` is the list
`classes`, `SetProperties(props)` with an `int` or absent ranking returns,
and it re-sorts the buckets, by one call of `UpdateServiceRegistrationOrder`
over `classes`, if and only if the ranking of `props` (0 when absent) differs
from the previous ranking (0 when absent); otherwise the registry is left as
it was. -/
theorem SetProperties_resorts_iff_ranking_changed (d : RegId) (b : BundleId) (props : AnyMap)
    (w : World) (classes : List String)
    (hav : (w.heap d).available = true)
    (hb : w.lockBundle d = some b)
    (hp : rankingIntOrAbsent props = true)
    (ho : rankingIntOrEmpty (w.heap d).properties = true)
    (hc : ((w.heap d).properties.Value_unlocked Constants.OBJECTCLASS).1
      = Any.stringVector classes) :
    ((ServiceRegistrationBase.mk (some d)).SetProperties props w).1 = Outcome.returned
    ∧ (Effect.UpdateServiceRegistrationOrder classes
          ∈ callsSince w ((ServiceRegistrationBase.mk (some d)).SetProperties props w).2
        ↔ ranking (Properties.mk props) ≠ ranking (w.heap d).properties)
    ∧ (callsSince w ((ServiceRegistrationBase.mk (some d)).SetProperties props w).2).filter
          Effect.isUpdateServiceRegistrationOrder
        = (if ranking (Properties.mk props) ≠ ranking (w.heap d).properties then
            [Effect.UpdateServiceRegistrationOrder classes] else [])
    ∧ ((ServiceRegistrationBase.mk (some d)).SetProperties props w).2.coreCtx.services
        = (if ranking (Properties.mk props) ≠ ranking (w.heap d).properties then
            w.coreCtx.services.UpdateServiceRegistrationOrder
              ((ServiceRegistrationBase.mk (some d)).SetProperties props w).2.heap classes
          else w.coreCtx.services) := by
  have hcast : ranking (w.heap d).properties ≠ ranking (Properties.mk props) →
      any_cast_stringVector ((w.heap d).properties.Value_unlocked Constants.OBJECTCLASS).1
        = Except.ok classes := by
    intro _
    rw [hc]
    rfl
  rw [SetProperties_eq d props w _ _ classes hav (newRank_of_rankingIntOrAbsent props hp)
    (oldRank_of_rankingIntOrEmpty _ ho) hcast]
  have htrace := notifyModified_trace
    (afterSwap w d props (decide (ranking (w.heap d).properties ≠ ranking (Properties.mk props)))
      classes) d (modifiedEventOf w d) (modifiedEndMatchEventOf w d) (beforeOf w d)
  rw [afterSwap_trace, afterSwap_lockBundle, hb, List.append_assoc] at htrace
  have hcalls := callsSince_of_trace w _ _ htrace
  simp only [hcalls, notifyModified_coreCtx, notifyModified_heap, afterSwap_services,
    afterSwap_heap, hb]
  by_cases hne : ranking (w.heap d).properties = ranking (Properties.mk props)
  · simp [hne, filter_isUpdate_map_CallDelegate]
  · have hne2 : ¬ ranking (Properties.mk props) = ranking (w.heap d).properties :=
      fun h => hne h.symm
    simp [hne, hne2, filter_isUpdate_map_CallDelegate, Effect.isUpdateServiceRegistrationOrder]

/-! ## Unregister: the unget loops -/

theorem World.sameState_refl (w : World) : w.sameState w := ⟨rfl, rfl, rfl, rfl⟩

theorem World.sameState_trans {a b c : World} (h1 : a.sameState b) (h2 : b.sameState c) :
    a.sameState c :=
  ⟨h2.1.trans h1.1, h2.2.1.trans h1.2.1, h2.2.2.1.trans h1.2.2.1, h2.2.2.2.trans h1.2.2.2⟩

theorem World.sameState_lockBundle {a b : World} (h : a.sameState b) (d : RegId) :
    b.lockBundle d = a.lockBundle d := by
  unfold World.lockBundle
  rw [h.1, h.2.2.1]

theorem andThen_of_returned (r : Outcome × World) (k : World → Outcome × World)
    (h : r.1 = Outcome.returned) : andThen r k = k r.2 := by
  simp [andThen, h]

theorem andThen_returned (r : Outcome × World) (k : World → Outcome × World)
    (h : (andThen r k).1 = Outcome.returned) :
    r.1 = Outcome.returned ∧ andThen r k = k r.2 := by
  unfold andThen at h ⊢
  obtain ⟨o, w⟩ := r
  cases o <;> simp_all

theorem andThen_sameState (a : World) (r : Outcome × World) (k : World → Outcome × World)
    (h1 : a.sameState r.2) (h2 : ∀ x : World, x.sameState (k x).2) :
    a.sameState (andThen r k).2 := by
  unfold andThen
  split
  · exact World.sameState_trans h1 (h2 r.2)
  · exact h1

theorem ungetOne_sameState (d : RegId) (f : Nat) (bundle : BundleId) (service : Instance)
    (w : World) : w.sameState (ungetOne d f bundle service w).2 := by
  unfold ungetOne
  simp only
  split
  · exact ⟨rfl, rfl, rfl, rfl⟩
  · split <;> exact ⟨rfl, rfl, rfl, rfl⟩
  · exact ⟨rfl, rfl, rfl, rfl⟩

theorem ungetServices_sameState (d : RegId) (f : Nat) (bundle : BundleId) (l : List Instance)
    (w : World) : w.sameState (ungetServices d f bundle l w).2 := by
  induction l generalizing w with
  | nil => exact World.sameState_refl w
  | cons s rest ih =>
    unfold ungetServices
    exact andThen_sameState w _ _ (ungetOne_sameState d f bundle s w) ih

theorem ungetPrototypeServices_sameState (d : RegId) (f : Nat)
    (l : List (BundleId × List Instance)) (w : World) :
    w.sameState (ungetPrototypeServices d f l w).2 := by
  induction l generalizing w with
  | nil => exact World.sameState_refl w
  | cons i rest ih =>
    unfold ungetPrototypeServices
    exact andThen_sameState w _ _ (ungetServices_sameState d f i.1 i.2 w) ih

theorem ungetBundleServices_sameState (d : RegId) (f : Nat) (l : List (BundleId × Instance))
    (w : World) : w.sameState (ungetBundleServices d f l w).2 := by
  induction l generalizing w with
  | nil => exact World.sameState_refl w
  | cons i rest ih =>
    unfold ungetBundleServices
    exact andThen_sameState w _ _ (ungetOne_sameState d f i.1 i.2 w) ih

/-- One unget whose factory call does not throw a non-standard object
returns, having made the calls of `ungetCalls`. -/
theorem ungetOne_trace (d : RegId) (f : Nat) (bundle : BundleId) (service : Instance) (w : World)
    (h : w.UngetService f bundle d service ≠ CallResult.throwsOther) :
    (ungetOne d f bundle service w).1 = Outcome.returned
      ∧ (ungetOne d f bundle service w).2.trace
          = w.trace ++ ungetCalls w d f (w.lockBundle d) (bundle, service) := by
  unfold ungetOne ungetCalls
  simp only [World.emit_lockBundle]
  cases hr : w.UngetService f bundle d service with
  | returns => simp
  | throwsStd what =>
    cases hb : w.lockBundle d <;> simp [SendFrameworkEvent]
  | throwsOther => exact absurd hr h

theorem ungetCalls_sameState {a b : World} (h : a.sameState b) (d : RegId) (f : Nat)
    (owner : Option BundleId) (i : BundleId × Instance) :
    ungetCalls b d f owner i = ungetCalls a d f owner i := by
  unfold ungetCalls
  rw [h.2.2.2]

theorem ungetBundleServices_trace (d : RegId) (f : Nat) (l : List (BundleId × Instance))
    (w : World) (h : ∀ i ∈ l, w.UngetService f i.1 d i.2 ≠ CallResult.throwsOther) :
    (ungetBundleServices d f l w).1 = Outcome.returned
      ∧ (ungetBundleServices d f l w).2.trace
          = w.trace ++ l.flatMap (ungetCalls w d f (w.lockBundle d)) := by
  induction l generalizing w with
  | nil => simp [ungetBundleServices]
  | cons i rest ih =>
    unfold ungetBundleServices
    obtain ⟨h1, h2⟩ := ungetOne_trace d f i.1 i.2 w (h i (List.mem_cons_self _ _))
    rw [andThen_of_returned _ _ h1]
    have hs := ungetOne_sameState d f i.1 i.2 w
    have ih2 := ih (ungetOne d f i.1 i.2 w).2 (by
      intro j hj
      rw [hs.2.2.2]
      exact h j (List.mem_cons_of_mem _ hj))
    refine ⟨ih2.1, ?_⟩
    rw [ih2.2, h2, World.sameState_lockBundle hs]
    have hfun : ungetCalls (ungetOne d f i.1 i.2 w).2 d f (w.lockBundle d)
        = ungetCalls w d f (w.lockBundle d) := by
      funext j
      exact ungetCalls_sameState hs d f _ j
    rw [hfun]
    simp [List.flatMap_cons]

theorem ungetServices_trace (d : RegId) (f : Nat) (bundle : BundleId) (l : List Instance)
    (w : World) (h : ∀ s ∈ l, w.UngetService f bundle d s ≠ CallResult.throwsOther) :
    (ungetServices d f bundle l w).1 = Outcome.returned
      ∧ (ungetServices d f bundle l w).2.trace
          = w.trace ++ (l.map (fun s => (bundle, s))).flatMap
              (ungetCalls w d f (w.lockBundle d)) := by
  induction l generalizing w with
  | nil => simp [ungetServices]
  | cons s rest ih =>
    unfold ungetServices
    obtain ⟨h1, h2⟩ := ungetOne_trace d f bundle s w (h s (List.mem_cons_self _ _))
    rw [andThen_of_returned _ _ h1]
    have hs := ungetOne_sameState d f bundle s w
    have ih2 := ih (ungetOne d f bundle s w).2 (by
      intro j hj
      rw [hs.2.2.2]
      exact h j (List.mem_cons_of_mem _ hj))
    refine ⟨ih2.1, ?_⟩
    rw [ih2.2, h2, World.sameState_lockBundle hs]
    have hfun : ungetCalls (ungetOne d f bundle s w).2 d f (w.lockBundle d)
        = ungetCalls w d f (w.lockBundle d) := by
      funext j
      exact ungetCalls_sameState hs d f _ j
    rw [hfun]
    simp [List.flatMap_cons]

theorem ungetPrototypeServices_trace (d : RegId) (f : Nat) (l : List (BundleId × List Instance))
    (w : World)
    (h : ∀ i ∈ prototypePairs l, w.UngetService f i.1 d i.2 ≠ CallResult.throwsOther) :
    (ungetPrototypeServices d f l w).1 = Outcome.returned
      ∧ (ungetPrototypeServices d f l w).2.trace
          = w.trace ++ (prototypePairs l).flatMap (ungetCalls w d f (w.lockBundle d)) := by
  induction l generalizing w with
  | nil => simp [ungetPrototypeServices, prototypePairs]
  | cons i rest ih =>
    unfold ungetPrototypeServices
    have hpairs : prototypePairs (i :: rest)
        = i.2.map (fun s => (i.1, s)) ++ prototypePairs rest := by
      simp [prototypePairs, List.flatMap_cons]
    rw [hpairs] at h ⊢
    obtain ⟨h1, h2⟩ := ungetServices_trace d f i.1 i.2 w (by
      intro s hs
      exact h (i.1, s) (List.mem_append_left _ (List.mem_map.mpr ⟨s, hs, rfl⟩)))
    rw [andThen_of_returned _ _ h1]
    have hs := ungetServices_sameState d f i.1 i.2 w
    have ih2 := ih (ungetServices d f i.1 i.2 w).2 (by
      intro j hj
      rw [hs.2.2.2]
      exact h j (List.mem_append_right _ hj))
    refine ⟨ih2.1, ?_⟩
    rw [ih2.2, h2, World.sameState_lockBundle hs]
    have hfun : ungetCalls (ungetServices d f i.1 i.2 w).2 d f (w.lockBundle d)
        = ungetCalls w d f (w.lockBundle d) := by
      funext j
      exact ungetCalls_sameState hs d f _ j
    rw [hfun]
    simp [List.flatMap_append]

/-! ## Unregister -/

theorem Unregister_unavailable (d : RegId) (w : World) (h : (w.heap d).available = false) :
    (ServiceRegistrationBase.mk (some d)).Unregister w
      = (Outcome.threw (Exn.logic_error "Service is unregistered"), w) := by
  unfold ServiceRegistrationBase.Unregister
  simp [h]

theorem Unregister_losing (d : RegId) (w : World) (hav : (w.heap d).available = true)
    (hl : (w.heap d).unregistering = true) :
    (ServiceRegistrationBase.mk (some d)).Unregister w = (Outcome.returned, w) := by
  unfold ServiceRegistrationBase.Unregister
  simp [hav, hl, atomic_compare_exchange_strong]

theorem Unregister_winning (d : RegId) (w : World) (hav : (w.heap d).available = true)
    (hl : (w.heap d).unregistering = false) :
    (ServiceRegistrationBase.mk (some d)).Unregister w = ungetAndFinish d (winnerDispatched w d) := by
  unfold ServiceRegistrationBase.Unregister winnerDispatched
  simp only
  rw [if_neg (by simp [hav])]
  simp only [hl, atomic_compare_exchange_strong, if_true, Bool.false_eq_true, if_false]
  cases hlk : (latched w d).lockBundle d
  · have hlk2 : (w.store d { w.heap d with unregistering := true }).lockBundle d = none := hlk
    simp [hlk2, latched]
  · have hlk2 : (w.store d { w.heap d with unregistering := true }).lockBundle d = some _ := hlk
    simp [hlk2, latched, dispatchedUnregistering, removedFromRegistry, unregisteringEventOf]

theorem latched_lockBundle (w : World) (d x : RegId) :
    (latched w d).lockBundle x = w.lockBundle x :=
  World.store_lockBundle w d x _ rfl

theorem latched_properties (w : World) (d r : RegId) :
    ((latched w d).heap r).properties = (w.heap r).properties := by
  by_cases hr : r = d
  · subst hr
    simp [latched]
  · simp [latched, World.store, hr]

theorem winnerDispatched_heap (w : World) (d : RegId) :
    (winnerDispatched w d).heap = (latched w d).heap := by
  unfold winnerDispatched
  split <;> rfl

theorem winnerDispatched_bundleAlive (w : World) (d : RegId) :
    (winnerDispatched w d).bundleAlive = w.bundleAlive := by
  unfold winnerDispatched
  split <;> rfl

theorem winnerDispatched_UngetService (w : World) (d : RegId) :
    (winnerDispatched w d).UngetService = w.UngetService := by
  unfold winnerDispatched
  split <;> rfl

theorem winnerDispatched_lockBundle (w : World) (d x : RegId) :
    (winnerDispatched w d).lockBundle x = w.lockBundle x := by
  rw [← latched_lockBundle w d x]
  unfold World.lockBundle
  rw [winnerDispatched_heap, winnerDispatched_bundleAlive]
  rfl

theorem winnerDispatched_coreCtx (w : World) (d : RegId) (b : BundleId)
    (hb : w.lockBundle d = some b) :
    (winnerDispatched w d).coreCtx = { w.coreCtx with services :=
      w.coreCtx.services.RemoveServiceRegistration_unlocked d } := by
  unfold winnerDispatched
  simp only [latched_lockBundle, hb]
  rfl

theorem GetMatchingServiceListeners_congr (w w2 : World) (evt : ServiceEvent)
    (hp : ∀ r, (w2.heap r).properties = (w.heap r).properties)
    (hl : w2.coreCtx.listeners = w.coreCtx.listeners) :
    GetMatchingServiceListeners w2 evt = GetMatchingServiceListeners w evt := by
  unfold GetMatchingServiceListeners
  cases evt.reference.registration with
  | none => rfl
  | some r => simp only [hp, hl]

theorem winnerDispatched_trace (w : World) (d : RegId) (b : BundleId)
    (hb : w.lockBundle d = some b) :
    (winnerDispatched w d).trace = w.trace ++
      (Effect.RemoveServiceRegistration d
        :: (GetMatchingServiceListeners w (unregisteringEventOf w d)).map
            (fun l => Effect.CallDelegate l (unregisteringEventOf w d))) := by
  unfold winnerDispatched
  simp only [latched_lockBundle, hb]
  have he : unregisteringEventOf (removedFromRegistry (latched w d) d) d
      = unregisteringEventOf w d := by
    simp [unregisteringEventOf, removedFromRegistry, latched]
  have hg : GetMatchingServiceListeners (removedFromRegistry (latched w d) d)
      (unregisteringEventOf w d) = GetMatchingServiceListeners w (unregisteringEventOf w d) :=
    GetMatchingServiceListeners_congr w _ _ (fun r => latched_properties w d r) rfl
  unfold dispatchedUnregistering
  rw [he, hg]
  simp [ServiceChanged, removedFromRegistry, latched]

theorem madeUnavailable_lockBundle (w : World) (d x : RegId) :
    (madeUnavailable w d).lockBundle x = w.lockBundle x :=
  World.store_lockBundle w d x _ rfl

/-- The final block of `Unregister` after unget loops that started from the
world `madeUnavailable w d`. -/
theorem finishUnregister_of_sameState (d : RegId) (w w3 : World)
    (s : (madeUnavailable w d).sameState w3) :
    (finishUnregister d w3).coreCtx = w.coreCtx
      ∧ (finishUnregister d w3).bundleAlive = w.bundleAlive
      ∧ (finishUnregister d w3).heap d = unregisteredRecord (w.heap d)
      ∧ ∀ x, x ≠ d → (finishUnregister d w3).heap x = w.heap x := by
  obtain ⟨sh, sc, sb, -⟩ := s
  refine ⟨sc, sb, ?_, ?_⟩
  · simp [finishUnregister, sh, unregisteredRecord, madeUnavailable]
  · intro x hx
    simp [finishUnregister, World.store, sh, hx, madeUnavailable]

theorem madeUnavailable_service (w : World) (d : RegId) :
    ((madeUnavailable w d).heap d).service = (w.heap d).service := by
  simp [madeUnavailable]

theorem madeUnavailable_caches (w : World) (d : RegId) :
    ((madeUnavailable w d).heap d).prototypeServiceInstances
        = (w.heap d).prototypeServiceInstances
      ∧ ((madeUnavailable w d).heap d).bundleServiceInstance
        = (w.heap d).bundleServiceInstance := by
  simp [madeUnavailable]

/-- The second half of `Unregister` when there is a factory to call. -/
theorem ungetAndFinish_factory (d : RegId) (w : World) (service : InterfaceMap) (f : Nat)
    (b : BundleId)
    (hsvc : (w.heap d).service = some service)
    (hf : InterfaceMap.find service "org.cppmicroservices.factory" = some (some f))
    (hb : w.lockBundle d = some b) :
    ungetAndFinish d w =
      andThen (ungetPrototypeServices d f (w.heap d).prototypeServiceInstances
          (madeUnavailable w d)) fun w2 =>
        andThen (ungetBundleServices d f (w.heap d).bundleServiceInstance w2) fun w3 =>
          (Outcome.returned, finishUnregister d w3) := by
  have h1 : ((madeUnavailable w d).heap d).service = some service :=
    (madeUnavailable_service w d).trans hsvc
  have h2 : factoryOf (madeUnavailable w d) d service = some f := by
    simp [factoryOf, madeUnavailable_lockBundle, hb, hf]
  unfold ungetAndFinish
  simp only [h1, h2, (madeUnavailable_caches w d).1, (madeUnavailable_caches w d).2]

/-- When the second half of `Unregister` returns, the registry, the
listeners and the other records are untouched and the record of the
registration has been cleared. -/
theorem ungetAndFinish_returned (d : RegId) (w : World)
    (h : (ungetAndFinish d w).1 = Outcome.returned) :
    (ungetAndFinish d w).2.coreCtx = w.coreCtx
      ∧ (ungetAndFinish d w).2.bundleAlive = w.bundleAlive
      ∧ (ungetAndFinish d w).2.heap d = unregisteredRecord (w.heap d)
      ∧ ∀ x, x ≠ d → (ungetAndFinish d w).2.heap x = w.heap x := by
  revert h
  unfold ungetAndFinish
  simp only
  split
  · simp
  · split
    · rename_i factory _
      intro h
      obtain ⟨h1, e1⟩ := andThen_returned _ _ h
      rw [e1] at h ⊢
      obtain ⟨h2, e2⟩ := andThen_returned _ _ h
      rw [e2]
      have s2 := ungetPrototypeServices_sameState d factory
        ((madeUnavailable w d).heap d).prototypeServiceInstances (madeUnavailable w d)
      have s3 := ungetBundleServices_sameState d factory
        ((madeUnavailable w d).heap d).bundleServiceInstance
        (ungetPrototypeServices d factory
          ((madeUnavailable w d).heap d).prototypeServiceInstances (madeUnavailable w d)).2
      exact finishUnregister_of_sameState d w _ (World.sameState_trans s2 s3)
    · intro _
      exact finishUnregister_of_sameState d w _ (World.sameState_refl _)

/-- The second half of `Unregister` for a registration with a factory whose
owning bundle is alive, when the factory throws nothing but `std::exception`s:
it returns, having visited every cached instance. -/
theorem ungetAndFinish_trace (d : RegId) (w : World) (service : InterfaceMap) (f : Nat)
    (b : BundleId)
    (hsvc : (w.heap d).service = some service)
    (hf : InterfaceMap.find service "org.cppmicroservices.factory" = some (some f))
    (hb : w.lockBundle d = some b)
    (hstd : ∀ i ∈ cachedInstances (w.heap d),
      w.UngetService f i.1 d i.2 ≠ CallResult.throwsOther) :
    (ungetAndFinish d w).1 = Outcome.returned
      ∧ (ungetAndFinish d w).2.trace
          = w.trace ++ (cachedInstances (w.heap d)).flatMap (ungetCalls w d f (some b)) := by
  rw [ungetAndFinish_factory d w service f b hsvc hf hb]
  obtain ⟨p1, p2⟩ := ungetPrototypeServices_trace d f (w.heap d).prototypeServiceInstances
    (madeUnavailable w d) (by
      intro i hi
      exact hstd i (List.mem_append_left _ hi))
  have s2 := ungetPrototypeServices_sameState d f (w.heap d).prototypeServiceInstances
    (madeUnavailable w d)
  obtain ⟨q1, q2⟩ := ungetBundleServices_trace d f (w.heap d).bundleServiceInstance
    (ungetPrototypeServices d f (w.heap d).prototypeServiceInstances (madeUnavailable w d)).2 (by
      intro i hi
      rw [s2.2.2.2]
      exact hstd i (List.mem_append_right _ hi))
  rw [andThen_of_returned _ _ p1, andThen_of_returned _ _ q1]
  refine ⟨rfl, ?_⟩
  have hfun1 : ungetCalls (madeUnavailable w d) d f (some b) = ungetCalls w d f (some b) := rfl
  have hfun2 : ungetCalls (ungetPrototypeServices d f (w.heap d).prototypeServiceInstances
      (madeUnavailable w d)).2 d f (some b) = ungetCalls w d f (some b) := by
    funext j
    exact ungetCalls_sameState s2 d f _ j
  have ht : (madeUnavailable w d).trace = w.trace := rfl
  simp only [finishUnregister, World.store_trace]
  rw [q2, p2, World.sameState_lockBundle s2, madeUnavailable_lockBundle, hb, hfun1, hfun2, ht]
  simp [cachedInstances, List.flatMap_append]

theorem ungets_append (a b : List Effect) : ungets (a ++ b) = ungets a ++ ungets b := by
  induction a with
  | nil => rfl
  | cons e t ih => cases e <;> simp [ungets, ih]

theorem frameworkEvents_append (a b : List Effect) :
    frameworkEvents (a ++ b) = frameworkEvents a ++ frameworkEvents b := by
  induction a with
  | nil => rfl
  | cons e t ih => cases e <;> simp [frameworkEvents, ih]

theorem ungets_map_CallDelegate (l : List ListenerId) (evt : ServiceEvent) :
    ungets (l.map (fun x => Effect.CallDelegate x evt)) = [] := by
  induction l with
  | nil => rfl
  | cons a t ih => simp [ungets, ih]

theorem frameworkEvents_map_CallDelegate (l : List ListenerId) (evt : ServiceEvent) :
    frameworkEvents (l.map (fun x => Effect.CallDelegate x evt)) = [] := by
  induction l with
  | nil => rfl
  | cons a t ih => simp [frameworkEvents, ih]

theorem ungets_ungetCalls (w : World) (d : RegId) (f : Nat) (owner : Option BundleId)
    (i : BundleId × Instance) : ungets (ungetCalls w d f owner i) = [(f, i.1, d, i.2)] := by
  unfold ungetCalls
  split <;> simp [ungets]

theorem ungets_flatMap_ungetCalls (w : World) (d : RegId) (f : Nat) (owner : Option BundleId)
    (l : List (BundleId × Instance)) :
    ungets (l.flatMap (ungetCalls w d f owner)) = l.map (fun i => (f, i.1, d, i.2)) := by
  induction l with
  | nil => rfl
  | cons i t ih => simp [List.flatMap_cons, ungets_append, ungets_ungetCalls, ih]

theorem frameworkEvents_flatMap_ungetCalls (w : World) (d : RegId) (f : Nat) (b : BundleId)
    (l : List (BundleId × Instance)) :
    frameworkEvents (l.flatMap (ungetCalls w d f (some b))) = factoryErrors w d f b l := by
  induction l with
  | nil => rfl
  | cons i t ih =>
    have hi : frameworkEvents (ungetCalls w d f (some b) i)
        = (match w.UngetService f i.1 d i.2 with
           | CallResult.throwsStd what => [factoryErrorEvent b what]
           | _ => []) := by
      unfold ungetCalls
      cases w.UngetService f i.1 d i.2 <;> simp [frameworkEvents, factoryErrorEvent]
    unfold factoryErrors at ih ⊢
    rw [List.flatMap_cons, frameworkEvents_append, hi, ih, List.filterMap_cons]
    cases w.UngetService f i.1 d i.2 <;> simp

/-- The calls of a winning `Unregister` on a registration with a factory,
whose owning bundle is alive, when the factory throws nothing but
`std::exception`s: the removal from the registry, the `UNREGISTERING`
deliveries, then the visit of every cached instance. -/
theorem Unregister_winning_trace (d : RegId) (w : World) (service : InterfaceMap) (f : Nat)
    (b : BundleId)
    (hav : (w.heap d).available = true)
    (hl : (w.heap d).unregistering = false)
    (hb : w.lockBundle d = some b)
    (hsvc : (w.heap d).service = some service)
    (hf : InterfaceMap.find service "org.cppmicroservices.factory" = some (some f))
    (hstd : ∀ i ∈ cachedInstances (w.heap d),
      w.UngetService f i.1 d i.2 ≠ CallResult.throwsOther) :
    ((ServiceRegistrationBase.mk (some d)).Unregister w).1 = Outcome.returned
      ∧ callsSince w ((ServiceRegistrationBase.mk (some d)).Unregister w).2
          = (Effect.RemoveServiceRegistration d
              :: (GetMatchingServiceListeners w (unregisteringEventOf w d)).map
                  (fun l => Effect.CallDelegate l (unregisteringEventOf w d)))
            ++ (cachedInstances (w.heap d)).flatMap (ungetCalls w d f (some b)) := by
  rw [Unregister_winning d w hav hl]
  have hheap : (winnerDispatched w d).heap d = { w.heap d with unregistering := true } := by
    rw [winnerDispatched_heap]
    simp [latched]
  have hcache : cachedInstances ((winnerDispatched w d).heap d) = cachedInstances (w.heap d) := by
    rw [hheap]
    rfl
  obtain ⟨h1, h2⟩ := ungetAndFinish_trace d (winnerDispatched w d) service f b
    (by rw [hheap]; exact hsvc) hf
    (by rw [winnerDispatched_lockBundle]; exact hb)
    (by
      rw [hcache, winnerDispatched_UngetService]
      exact hstd)
  refine ⟨h1, ?_⟩
  apply callsSince_of_trace
  have hfun : ungetCalls (winnerDispatched w d) d f (some b) = ungetCalls w d f (some b) := by
    funext j
    unfold ungetCalls
    rw [winnerDispatched_UngetService]
  rw [h2, hcache, hfun, winnerDispatched_trace w d b hb, List.append_assoc]

/-! ## The claims about the order of registrations -/

/-- C2: for two non-null handles of distinct records whose references refer to
their own registrations (as they do while registered), `operator<` holds if
and only if the first has the higher ranking, or the rankings are equal and
the first has the lower service id. -/
theorem operator_lt_iff_ranking_desc_id_asc (heap : RegId → ServiceRegistrationBasePrivate)
    (d1 d2 : RegId) (hne : d1 ≠ d2)
    (h1 : (heap d1).reference.registration = some d1)
    (h2 : (heap d2).reference.registration = some d2) :
    ServiceRegistrationBase.lt heap ⟨some d1⟩ ⟨some d2⟩ = true ↔
      (ranking (heap d1).properties > ranking (heap d2).properties
        ∨ (ranking (heap d1).properties = ranking (heap d2).properties
            ∧ serviceId (heap d1).properties < serviceId (heap d2).properties)) := by
  unfold ServiceRegistrationBase.lt ServiceReferenceBase.lt
  simp [hne, h1, h2]

/-- Witness of C2: registrations 2 and 3 of the concrete framework have equal
rankings, and 2 has the lower id. -/
theorem operator_lt_iff_ranking_desc_id_asc_witness :
    (2 : RegId) ≠ 3
      ∧ (Example.heap 2).reference.registration = some 2
      ∧ (Example.heap 3).reference.registration = some 3
      ∧ (ServiceRegistrationBase.lt Example.heap ⟨some 2⟩ ⟨some 3⟩ = true ↔
          (ranking (Example.heap 2).properties > ranking (Example.heap 3).properties
            ∨ (ranking (Example.heap 2).properties = ranking (Example.heap 3).properties
                ∧ serviceId (Example.heap 2).properties
                    < serviceId (Example.heap 3).properties))) :=
  ⟨by decide, rfl, rfl,
    operator_lt_iff_ranking_desc_id_asc Example.heap 2 3 (by decide) rfl rfl⟩

/-! ## The claims about SetProperties -/

/-- Witness of C6: raising the ranking of registration 1 in the concrete
framework. -/
theorem SetProperties_replaces_properties_witness :
    (Example.handle.SetProperties Example.newProps Example.world).1 = Outcome.returned
      ∧ ((Example.handle.SetProperties Example.newProps Example.world).2.heap 1).properties.props
          = [("service.ranking", Any.int 20), ("service.id", Any.long 1),
              ("objectclass", Any.stringVector ["Foo"]), ("service.scope", Any.string "bundle")] :=
  ⟨by decide,
    (SetProperties_replaces_properties 1 Example.newProps Example.world (by decide)).1⟩

/-- Witness of C7: raising the ranking of registration 1 in the concrete
framework re-sorts the bucket of `Foo` from `[2, 3, 1]` to `[1, 2, 3]`. -/
theorem SetProperties_resorts_iff_ranking_changed_witness :
    (Example.world.heap 1).available = true
      ∧ Example.world.lockBundle 1 = some 1
      ∧ rankingIntOrAbsent Example.newProps = true
      ∧ rankingIntOrEmpty (Example.world.heap 1).properties = true
      ∧ ((Example.world.heap 1).properties.Value_unlocked Constants.OBJECTCLASS).1
          = Any.stringVector ["Foo"]
      ∧ (Example.handle.SetProperties Example.newProps Example.world).1 = Outcome.returned
      ∧ (Example.handle.SetProperties Example.newProps Example.world).2.coreCtx.services
          = ⟨[("Foo", [1, 2, 3])]⟩ :=
  ⟨by decide, by decide, by decide, by decide, by decide,
    (SetProperties_resorts_iff_ranking_changed 1 1 Example.newProps Example.world ["Foo"]
      (by decide) (by decide) (by decide) (by decide) (by decide)).1,
    by decide⟩

theorem deliveries_singleton_update (classes : List String) :
    deliveries [Effect.UpdateServiceRegistrationOrder classes] = [] := rfl

theorem GetMatchingServiceListeners_eq (w : World) (t : ServiceEventType)
    (ref : ServiceReferenceBase) (r : RegId) (h : ref.registration = some r) :
    GetMatchingServiceListeners w ⟨t, ref⟩ = listenersMatching w (w.heap r).properties := by
  simp [GetMatchingServiceListeners, listenersMatching, h]

/-- C8 (amended): when `SetProperties` returns on a registration whose owning
bundle is alive (and whose reference refers to the registration itself, as it
does while registered), the listeners that receive an event are these, in
this order: `MODIFIED` goes to every listener whose filter matches the new
properties, then `MODIFIED_ENDMATCH` goes to exactly the listeners whose
filter matched the properties before the swap and does not match the new
ones; no listener receives both. -/
theorem SetProperties_dispatches_modified_then_endmatch (d : RegId) (b : BundleId)
    (props : AnyMap) (w w2 : World)
    (hb : w.lockBundle d = some b)
    (href : (w.heap d).reference.registration = some d)
    (hret : (ServiceRegistrationBase.mk (some d)).SetProperties props w = (Outcome.returned, w2)) :
    deliveries (callsSince w w2)
        = (listenersMatching w (w2.heap d).properties).map (fun l => (l, modifiedEventOf w d))
          ++ ((listenersMatching w (w.heap d).properties).filter
                (fun l => decide (l ∉ listenersMatching w (w2.heap d).properties))).map
              (fun l => (l, modifiedEndMatchEventOf w d))
      ∧ (∀ l ∈ w.coreCtx.listeners.serviceSet,
          w.coreCtx.listeners.filter l (w2.heap d).properties = true →
            (l, modifiedEventOf w d) ∈ deliveries (callsSince w w2))
      ∧ (∀ l, (l, modifiedEndMatchEventOf w d) ∈ deliveries (callsSince w w2) ↔
          (l ∈ w.coreCtx.listeners.serviceSet
            ∧ w.coreCtx.listeners.filter l (w.heap d).properties = true
            ∧ w.coreCtx.listeners.filter l (w2.heap d).properties = false))
      ∧ (∀ l, ¬ ((l, modifiedEventOf w d) ∈ deliveries (callsSince w w2)
          ∧ (l, modifiedEndMatchEventOf w d) ∈ deliveries (callsSince w w2))) := by
  have hret1 : ((ServiceRegistrationBase.mk (some d)).SetProperties props w).1
      = Outcome.returned := by rw [hret]
  obtain ⟨hav, n, o, classes, hn, ho, hc⟩ := SetProperties_returned_inv d props w hret1
  rw [SetProperties_eq d props w n o classes hav hn ho hc] at hret
  have hw2 : w2 = notifyModified (afterSwap w d props (decide (o ≠ n)) classes) d
      (modifiedEventOf w d) (modifiedEndMatchEventOf w d) (beforeOf w d) :=
    (congrArg Prod.snd hret).symm
  have hheap : (w2.heap d).properties
      = Properties.mk (propsCopyOf (w.heap d).properties props) := by
    rw [hw2, notifyModified_heap, afterSwap_heap, World.store_heap_self]
    rfl
  have hmatch : GetMatchingServiceListeners (afterSwap w d props (decide (o ≠ n)) classes)
      (modifiedEventOf w d) = listenersMatching w (w2.heap d).properties := by
    rw [modifiedEventOf, GetMatchingServiceListeners_eq _ _ _ d href, hheap]
    unfold listenersMatching
    rw [afterSwap_listeners, afterSwap_heap, World.store_heap_self]
    rfl
  have hbefore : beforeOf w d = listenersMatching w (w.heap d).properties := by
    unfold beforeOf
    rw [hb]
    exact GetMatchingServiceListeners_eq _ _ _ d href
  have htrace := notifyModified_trace (afterSwap w d props (decide (o ≠ n)) classes) d
    (modifiedEventOf w d) (modifiedEndMatchEventOf w d) (beforeOf w d)
  rw [← hw2, afterSwap_trace, afterSwap_lockBundle, hb, hmatch, hbefore, List.append_assoc]
    at htrace
  have hcalls := callsSince_of_trace w w2 _ htrace
  have hD : deliveries (callsSince w w2)
      = (listenersMatching w (w2.heap d).properties).map (fun l => (l, modifiedEventOf w d))
        ++ ((listenersMatching w (w.heap d).properties).filter
              (fun l => decide (l ∉ listenersMatching w (w2.heap d).properties))).map
            (fun l => (l, modifiedEndMatchEventOf w d)) := by
    rw [hcalls]
    simp only [deliveries_append, deliveries_map_CallDelegate]
    split <;> simp [deliveries]
  have hne : modifiedEventOf w d ≠ modifiedEndMatchEventOf w d := by
    simp [modifiedEventOf, modifiedEndMatchEventOf]
  refine ⟨hD, ?_, ?_, ?_⟩
  · intro l hl hf
    rw [hD]
    apply List.mem_append_left
    exact List.mem_map.mpr ⟨l, by simp [listenersMatching, hl, hf], rfl⟩
  · intro l
    rw [hD]
    simp only [List.mem_append, List.mem_map, Prod.mk.injEq, List.mem_filter, listenersMatching,
      decide_eq_true_eq]
    constructor
    · rintro (⟨a, _, _, h⟩ | ⟨a, ⟨⟨hs, hf⟩, hnot⟩, rfl, _⟩)
      · exact absurd h hne
      · refine ⟨hs, hf, ?_⟩
        cases hnew : w.coreCtx.listeners.filter a (w2.heap d).properties
        · rfl
        · exact absurd ⟨hs, hnew⟩ hnot
    · rintro ⟨hs, hf, hnew⟩
      right
      exact ⟨l, ⟨⟨hs, hf⟩, by simp [hnew]⟩, rfl, trivial⟩
  · intro l
    rw [hD]
    simp only [List.mem_append, List.mem_map, Prod.mk.injEq, List.mem_filter, listenersMatching,
      decide_eq_true_eq]
    rintro ⟨h1, h2⟩
    rcases h1 with ⟨a, ⟨hs, hf⟩, rfl, _⟩ | ⟨a, _, _, h⟩
    · rcases h2 with ⟨a2, _, _, h⟩ | ⟨a2, ⟨_, hnot⟩, rfl, _⟩
      · exact hne h
      · exact hnot ⟨hs, hf⟩
    · exact hne h.symm

/-- Witness of C8 (amended): raising the ranking of registration 1 and
dropping its `color` in the concrete framework sends `MODIFIED` to listeners
101 and 102 and `MODIFIED_ENDMATCH` to listener 100. -/
theorem SetProperties_dispatches_modified_then_endmatch_witness :
    Example.world.lockBundle 1 = some 1
      ∧ (Example.world.heap 1).reference.registration = some 1
      ∧ Example.handle.SetProperties Example.newProps Example.world
          = (Outcome.returned, (Example.handle.SetProperties Example.newProps Example.world).2)
      ∧ deliveries (callsSince Example.world
            (Example.handle.SetProperties Example.newProps Example.world).2)
          = [(101, modifiedEventOf Example.world 1), (102, modifiedEventOf Example.world 1),
              (100, modifiedEndMatchEventOf Example.world 1)] :=
  ⟨by decide, by decide, Prod.ext (by decide) rfl,
    (SetProperties_dispatches_modified_then_endmatch 1 1 Example.newProps Example.world _
      (by decide) (by decide) (Prod.ext (by decide) rfl)).1.trans (by decide)⟩

/-- Counterexample to C8 as stated: in the concrete framework with the owning
bundle gone, `SetProperties` on the available registration 1 returns,
listener 101 matches the new properties, and nothing is delivered. -/
theorem SetProperties_bundle_gone_dispatches_nothing :
    (Example.worldBundleGone.heap 1).available = true
      ∧ (Example.handle.SetProperties Example.newProps Example.worldBundleGone).1
          = Outcome.returned
      ∧ 101 ∈ Example.worldBundleGone.coreCtx.listeners.serviceSet
      ∧ Example.worldBundleGone.coreCtx.listeners.filter 101
          ((Example.handle.SetProperties Example.newProps Example.worldBundleGone).2.heap
            1).properties = true
      ∧ deliveries (callsSince Example.worldBundleGone
          (Example.handle.SetProperties Example.newProps Example.worldBundleGone).2) = [] := by
  decide

/-! ## The claims about Unregister -/

theorem andThen_trace_grows (a : World) (r : Outcome × World) (k : World → Outcome × World)
    (h1 : a.trace <+: r.2.trace) (h2 : ∀ x : World, x.trace <+: (k x).2.trace) :
    a.trace <+: (andThen r k).2.trace := by
  unfold andThen
  split
  · exact List.IsPrefix.trans h1 (h2 r.2)
  · exact h1

theorem ungetOne_trace_grows (d : RegId) (f : Nat) (bundle : BundleId) (service : Instance)
    (w : World) : w.trace <+: (ungetOne d f bundle service w).2.trace := by
  unfold ungetOne
  simp only
  split
  · exact List.prefix_append _ _
  · split
    · simp only [SendFrameworkEvent, World.emit_trace, List.append_assoc]
      exact List.prefix_append _ _
    · exact List.prefix_append _ _
  · exact List.prefix_append _ _

theorem ungetServices_trace_grows (d : RegId) (f : Nat) (bundle : BundleId) (l : List Instance)
    (w : World) : w.trace <+: (ungetServices d f bundle l w).2.trace := by
  induction l generalizing w with
  | nil => exact List.prefix_refl _
  | cons s rest ih =>
    unfold ungetServices
    exact andThen_trace_grows w _ _ (ungetOne_trace_grows d f bundle s w) ih

theorem ungetPrototypeServices_trace_grows (d : RegId) (f : Nat)
    (l : List (BundleId × List Instance)) (w : World) :
    w.trace <+: (ungetPrototypeServices d f l w).2.trace := by
  induction l generalizing w with
  | nil => exact List.prefix_refl _
  | cons i rest ih =>
    unfold ungetPrototypeServices
    exact andThen_trace_grows w _ _ (ungetServices_trace_grows d f i.1 i.2 w) ih

theorem ungetBundleServices_trace_grows (d : RegId) (f : Nat) (l : List (BundleId × Instance))
    (w : World) : w.trace <+: (ungetBundleServices d f l w).2.trace := by
  induction l generalizing w with
  | nil => exact List.prefix_refl _
  | cons i rest ih =>
    unfold ungetBundleServices
    exact andThen_trace_grows w _ _ (ungetOne_trace_grows d f i.1 i.2 w) ih

/-- The second half of `Unregister` only adds calls to the trace. -/
theorem ungetAndFinish_trace_grows (d : RegId) (w : World) :
    w.trace <+: (ungetAndFinish d w).2.trace := by
  unfold ungetAndFinish
  simp only
  split
  · exact List.prefix_refl _
  · split
    · apply andThen_trace_grows (madeUnavailable w d)
      · exact ungetPrototypeServices_trace_grows _ _ _ _
      · intro x
        apply andThen_trace_grows x
        · exact ungetBundleServices_trace_grows _ _ _ _
        · intro y
          exact List.prefix_refl _
    · exact List.prefix_refl _

/-- A winning `Unregister` on a registration whose owning bundle is alive
calls the removal from the registry, whatever happens next. -/
theorem Unregister_winning_calls_removal (d : RegId) (b : BundleId) (w : World)
    (hav : (w.heap d).available = true)
    (hl : (w.heap d).unregistering = false)
    (hb : w.lockBundle d = some b) :
    Effect.RemoveServiceRegistration d
      ∈ callsSince w ((ServiceRegistrationBase.mk (some d)).Unregister w).2 := by
  rw [Unregister_winning d w hav hl]
  obtain ⟨t, ht⟩ := ungetAndFinish_trace_grows d (winnerDispatched w d)
  rw [winnerDispatched_trace w d b hb, List.append_assoc] at ht
  rw [callsSince_of_trace w _ _ ht.symm]
  simp

/-- The world a winning `Unregister` leaves when it returns. -/
theorem Unregister_winning_returned (d : RegId) (b : BundleId) (w : World)
    (hav : (w.heap d).available = true)
    (hl : (w.heap d).unregistering = false)
    (hb : w.lockBundle d = some b)
    (hret : ((ServiceRegistrationBase.mk (some d)).Unregister w).1 = Outcome.returned) :
    ((ServiceRegistrationBase.mk (some d)).Unregister w).2.coreCtx.services
        = w.coreCtx.services.RemoveServiceRegistration_unlocked d
      ∧ ((ServiceRegistrationBase.mk (some d)).Unregister w).2.heap d
        = unregisteredRecord (w.heap d) := by
  rw [Unregister_winning d w hav hl] at hret ⊢
  obtain ⟨hc, -, hh, -⟩ := ungetAndFinish_returned d (winnerDispatched w d) hret
  rw [hc, hh, winnerDispatched_coreCtx w d b hb, winnerDispatched_heap]
  exact ⟨rfl, by simp [latched, unregisteredRecord]⟩

theorem not_mem_RemoveServiceRegistration_unlocked (s : ServiceRegistry) (d : RegId) :
    ∀ bucket ∈ (s.RemoveServiceRegistration_unlocked d).classServices, d ∉ bucket.2 := by
  intro bucket hbucket
  simp only [ServiceRegistry.RemoveServiceRegistration_unlocked, List.mem_map] at hbucket
  obtain ⟨b0, _, rfl⟩ := hbucket
  simp

theorem not_mem_Get_of_unavailable (s : ServiceRegistry)
    (heap : RegId → ServiceRegistrationBasePrivate) (d : RegId) (clazz : String)
    (h : (heap d).available = false) : d ∉ s.Get heap clazz := by
  simp only [ServiceRegistry.Get, List.mem_flatMap, List.mem_filter, not_exists, not_and]
  intro _ _ _
  simp [h]

/-- C3 (amended): for an available registration whose owning bundle is alive
and whose unregistering latch is not set, so that the call wins the
compare-and-swap, after `Unregister` returns the removal of the registration
from the registry has been called, the registration is in no bucket of the
registry, `Get` returns it for no interface, its available flag is false and
both of its instance caches are empty. -/
theorem Unregister_winner_removes_and_clears (d : RegId) (b : BundleId) (w : World)
    (hav : (w.heap d).available = true)
    (hl : (w.heap d).unregistering = false)
    (hb : w.lockBundle d = some b)
    (hret : ((ServiceRegistrationBase.mk (some d)).Unregister w).1 = Outcome.returned) :
    Effect.RemoveServiceRegistration d
        ∈ callsSince w ((ServiceRegistrationBase.mk (some d)).Unregister w).2
      ∧ (∀ bucket ∈
          ((ServiceRegistrationBase.mk (some d)).Unregister w).2.coreCtx.services.classServices,
          d ∉ bucket.2)
      ∧ (∀ clazz : String,
          d ∉ ((ServiceRegistrationBase.mk (some d)).Unregister w).2.coreCtx.services.Get
                ((ServiceRegistrationBase.mk (some d)).Unregister w).2.heap clazz)
      ∧ (((ServiceRegistrationBase.mk (some d)).Unregister w).2.heap d).available = false
      ∧ (((ServiceRegistrationBase.mk (some d)).Unregister w).2.heap d).bundleServiceInstance = []
      ∧ (((ServiceRegistrationBase.mk (some d)).Unregister w).2.heap d).prototypeServiceInstances
          = [] := by
  obtain ⟨hs, hh⟩ := Unregister_winning_returned d b w hav hl hb hret
  have hav2 : (((ServiceRegistrationBase.mk (some d)).Unregister w).2.heap d).available
      = false := by
    rw [hh]
    rfl
  refine ⟨Unregister_winning_calls_removal d b w hav hl hb, ?_, ?_, hav2, ?_, ?_⟩
  · rw [hs]
    exact not_mem_RemoveServiceRegistration_unlocked _ d
  · intro clazz
    exact not_mem_Get_of_unavailable _ _ d clazz hav2
  · rw [hh]
    rfl
  · rw [hh]
    rfl

/-- Witness of C3 (amended): unregistering registration 1 of the concrete
framework. -/
theorem Unregister_winner_removes_and_clears_witness :
    (Example.world.heap 1).available = true
      ∧ (Example.world.heap 1).unregistering = false
      ∧ Example.world.lockBundle 1 = some 1
      ∧ (Example.handle.Unregister Example.world).1 = Outcome.returned
      ∧ (∀ clazz : String,
          1 ∉ (Example.handle.Unregister Example.world).2.coreCtx.services.Get
                (Example.handle.Unregister Example.world).2.heap clazz)
      ∧ ((Example.handle.Unregister Example.world).2.heap 1).available = false :=
  ⟨by decide, by decide, by decide, by decide,
    (Unregister_winner_removes_and_clears 1 1 Example.world (by decide) (by decide) (by decide)
      (by decide)).2.2.1,
    (Unregister_winner_removes_and_clears 1 1 Example.world (by decide) (by decide) (by decide)
      (by decide)).2.2.2.1⟩

/-- Counterexample to C3 as stated: registration 1 of the concrete framework
is available and its owning bundle is alive, but its latch is set (an
`Unregister` is in flight); `Unregister` returns and leaves the registration
available, with both caches still filled. -/
theorem Unregister_in_flight_leaves_available :
    (Example.worldInFlight.heap 1).available = true
      ∧ Example.worldInFlight.lockBundle 1 = some 1
      ∧ (Example.handle.Unregister Example.worldInFlight).1 = Outcome.returned
      ∧ ((Example.handle.Unregister Example.worldInFlight).2.heap 1).available = true
      ∧ ((Example.handle.Unregister Example.worldInFlight).2.heap 1).bundleServiceInstance
          = [(2, 10), (3, 13)]
      ∧ ((Example.handle.Unregister Example.worldInFlight).2.heap 1).prototypeServiceInstances
          = [(2, [11, 12]), (3, [14])] := by
  decide

/-- C4 (amended): a second `Unregister` after a first one that returned
leaves the world, so the registration and the registry, exactly as the first
call left it; it does so by failing with `std::logic_error` when the first
call won the compare-and-swap, and it returns only when the first call lost
it to an unregistration still in flight. -/
theorem Unregister_second_call_changes_nothing (this : ServiceRegistrationBase) (w : World)
    (hret : (this.Unregister w).1 = Outcome.returned) :
    (this.Unregister (this.Unregister w).2).2 = (this.Unregister w).2
      ∧ (∀ d, this.d = some d → (w.heap d).unregistering = false →
          (this.Unregister (this.Unregister w).2).1
            = Outcome.threw (Exn.logic_error "Service is unregistered"))
      ∧ (∀ d, this.d = some d → (w.heap d).unregistering = true →
          (this.Unregister (this.Unregister w).2).1 = Outcome.returned) := by
  obtain ⟨od⟩ := this
  cases od with
  | none => simp [ServiceRegistrationBase.Unregister] at hret
  | some d =>
    cases hav : (w.heap d).available with
    | false =>
      rw [Unregister_unavailable d w hav] at hret
      simp at hret
    | true =>
      cases hl : (w.heap d).unregistering with
      | true =>
        have e := Unregister_losing d w hav hl
        have e2 : (ServiceRegistrationBase.mk (some d)).Unregister
            ((ServiceRegistrationBase.mk (some d)).Unregister w).2 = (Outcome.returned, w) := by
          rw [e]
          exact e
        rw [e2, e]
        refine ⟨rfl, ?_, ?_⟩
        · intro d2 hd hl2
          simp only [Option.some.injEq] at hd
          subst hd
          rw [hl] at hl2
          exact absurd hl2 (by decide)
        · intro _ _ _
          rfl
      | false =>
        have hav2 : (((ServiceRegistrationBase.mk (some d)).Unregister w).2.heap d).available
            = false := by
          rw [Unregister_winning d w hav hl] at hret ⊢
          rw [(ungetAndFinish_returned d (winnerDispatched w d) hret).2.2.1]
          rfl
        rw [Unregister_unavailable d _ hav2]
        refine ⟨rfl, ?_, ?_⟩
        · intro _ _ _
          rfl
        · intro d2 hd hl2
          simp only [Option.some.injEq] at hd
          subst hd
          rw [hl] at hl2
          exact absurd hl2 (by decide)

/-- Witness of C4 (amended): unregistering registration 1 of the concrete
framework twice. -/
theorem Unregister_second_call_changes_nothing_witness :
    (Example.handle.Unregister Example.world).1 = Outcome.returned
      ∧ (Example.handle.Unregister (Example.handle.Unregister Example.world).2).2
          = (Example.handle.Unregister Example.world).2 :=
  ⟨by decide, (Unregister_second_call_changes_nothing Example.handle Example.world (by decide)).1⟩

/-- Counterexample to C4 as stated: in the concrete framework the first
`Unregister` of registration 1 returns and the second one does not return
normally, it throws `std::logic_error`. -/
theorem Unregister_second_call_throws :
    (Example.handle.Unregister Example.world).1 = Outcome.returned
      ∧ (Example.handle.Unregister (Example.handle.Unregister Example.world).2).1
          = Outcome.threw (Exn.logic_error "Service is unregistered")
      ∧ (Example.handle.Unregister (Example.handle.Unregister Example.world).2).1
          ≠ Outcome.returned := by
  decide

/-- C5: on a registration whose available flag is already false, `Unregister`
fails with `std::logic_error("Service is unregistered")` and leaves the world
as it found it: no call into the registry, the listeners or a factory is
made, and no field of any registration changes. -/
theorem Unregister_unavailable_is_logic_error (d : RegId) (w : World)
    (h : (w.heap d).available = false) :
    (ServiceRegistrationBase.mk (some d)).Unregister w
        = (Outcome.threw (Exn.logic_error "Service is unregistered"), w)
      ∧ callsSince w ((ServiceRegistrationBase.mk (some d)).Unregister w).2 = []
      ∧ ((ServiceRegistrationBase.mk (some d)).Unregister w).2.heap d = w.heap d := by
  have he : (ServiceRegistrationBase.mk (some d)).Unregister w
      = (Outcome.threw (Exn.logic_error "Service is unregistered"), w) := by
    unfold ServiceRegistrationBase.Unregister
    simp [h]
  rw [he]
  exact ⟨rfl, by simp [callsSince], rfl⟩

/-- Witness of C5: registration 1 of the concrete framework, once
unregistered. -/
theorem Unregister_unavailable_is_logic_error_witness :
    (((Example.handle.Unregister Example.world).2).heap 1).available = false
      ∧ (ServiceRegistrationBase.mk (some 1)).Unregister (Example.handle.Unregister Example.world).2
          = (Outcome.threw (Exn.logic_error "Service is unregistered"),
              (Example.handle.Unregister Example.world).2) :=
  ⟨by decide,
    (Unregister_unavailable_is_logic_error 1 (Example.handle.Unregister Example.world).2
      (by decide)).1⟩

/-- C10 (amended): for a winning `Unregister` on a registration with a live
owning bundle `b` and a factory whose `UngetService` throws nothing but
`std::exception`s on the cached instances: the call returns, so no such
error reaches the caller; the framework events sent are exactly one
`FRAMEWORK_ERROR` with bundle `b` and a `FACTORY_EXCEPTION` carrying the
error, for each cached instance whose unget threw; every cached instance is
ungotten all the same; and the registration ends unavailable, with the latch
reset and both caches empty. -/
theorem Unregister_swallows_factory_std_exceptions (d : RegId) (w : World)
    (service : InterfaceMap) (f : Nat) (b : BundleId)
    (hav : (w.heap d).available = true)
    (hl : (w.heap d).unregistering = false)
    (hb : w.lockBundle d = some b)
    (hsvc : (w.heap d).service = some service)
    (hf : InterfaceMap.find service "org.cppmicroservices.factory" = some (some f))
    (hstd : ∀ i ∈ cachedInstances (w.heap d),
      w.UngetService f i.1 d i.2 ≠ CallResult.throwsOther) :
    ((ServiceRegistrationBase.mk (some d)).Unregister w).1 = Outcome.returned
      ∧ frameworkEvents (callsSince w ((ServiceRegistrationBase.mk (some d)).Unregister w).2)
          = (cachedInstances (w.heap d)).filterMap (fun i =>
              match w.UngetService f i.1 d i.2 with
              | CallResult.throwsStd what =>
                some ⟨FrameworkEventType.FRAMEWORK_ERROR, b, ungetMessage,
                  ⟨what, ServiceExceptionType.FACTORY_EXCEPTION⟩⟩
              | _ => none)
      ∧ ungets (callsSince w ((ServiceRegistrationBase.mk (some d)).Unregister w).2)
          = (cachedInstances (w.heap d)).map (fun i => (f, i.1, d, i.2))
      ∧ (((ServiceRegistrationBase.mk (some d)).Unregister w).2.heap d).available = false
      ∧ (((ServiceRegistrationBase.mk (some d)).Unregister w).2.heap d).unregistering = false
      ∧ (((ServiceRegistrationBase.mk (some d)).Unregister w).2.heap d).prototypeServiceInstances
          = []
      ∧ (((ServiceRegistrationBase.mk (some d)).Unregister w).2.heap d).bundleServiceInstance
          = [] := by
  obtain ⟨h1, h2⟩ := Unregister_winning_trace d w service f b hav hl hb hsvc hf hstd
  obtain ⟨-, hh⟩ := Unregister_winning_returned d b w hav hl hb h1
  have h3 : ungets (Effect.RemoveServiceRegistration d
      :: (GetMatchingServiceListeners w (unregisteringEventOf w d)).map
          (fun l => Effect.CallDelegate l (unregisteringEventOf w d))) = [] := by
    simp [ungets, ungets_map_CallDelegate]
  have h4 : frameworkEvents (Effect.RemoveServiceRegistration d
      :: (GetMatchingServiceListeners w (unregisteringEventOf w d)).map
          (fun l => Effect.CallDelegate l (unregisteringEventOf w d))) = [] := by
    simp [frameworkEvents, frameworkEvents_map_CallDelegate]
  refine ⟨h1, ?_, ?_, ?_, ?_, ?_, ?_⟩
  · rw [h2, frameworkEvents_append, h4, List.nil_append, frameworkEvents_flatMap_ungetCalls]
    rfl
  · rw [h2, ungets_append, h3, List.nil_append, ungets_flatMap_ungetCalls]
  · rw [hh]
    rfl
  · rw [hh]
    rfl
  · rw [hh]
    rfl
  · rw [hh]
    rfl

/-- Witness of C10 (amended): in the concrete framework the factory throws a
`std::exception` on instance 12; `Unregister` of registration 1 returns and
sends one framework error for it. -/
theorem Unregister_swallows_factory_std_exceptions_witness :
    (Example.world.heap 1).available = true
      ∧ (Example.world.heap 1).unregistering = false
      ∧ Example.world.lockBundle 1 = some 1
      ∧ (Example.world.heap 1).service
          = some [("Foo", some 7), ("org.cppmicroservices.factory", some 7)]
      ∧ InterfaceMap.find [("Foo", some 7), ("org.cppmicroservices.factory", some 7)]
          "org.cppmicroservices.factory" = some (some 7)
      ∧ (∀ i ∈ cachedInstances (Example.world.heap 1),
          Example.world.UngetService 7 i.1 1 i.2 ≠ CallResult.throwsOther)
      ∧ (Example.handle.Unregister Example.world).1 = Outcome.returned
      ∧ frameworkEvents (callsSince Example.world (Example.handle.Unregister Example.world).2)
          = [⟨FrameworkEventType.FRAMEWORK_ERROR, 1, ungetMessage,
              ⟨"boom", ServiceExceptionType.FACTORY_EXCEPTION⟩⟩] :=
  ⟨by decide, by decide, by decide, by decide, by decide, by decide,
    (Unregister_swallows_factory_std_exceptions 1 Example.world
      [("Foo", some 7), ("org.cppmicroservices.factory", some 7)] 7 1
      (by decide) (by decide) (by decide) (by decide) (by decide) (by decide)).1,
    (Unregister_swallows_factory_std_exceptions 1 Example.world
      [("Foo", some 7), ("org.cppmicroservices.factory", some 7)] 7 1
      (by decide) (by decide) (by decide) (by decide) (by decide) (by decide)).2.1.trans
      (by decide)⟩

/-- Counterexample to C10 as stated: in the concrete framework with a factory
that throws an object that is not a `std::exception` on instance 12, the
error leaves `Unregister` of registration 1, no framework event is sent, the
remaining instances are not ungotten, and the registration is left with its
latch set and its caches filled. -/
theorem Unregister_nonstd_factory_error_propagates :
    (Example.worldNonStd.heap 1).available = true
      ∧ (Example.worldNonStd.heap 1).unregistering = false
      ∧ Example.worldNonStd.lockBundle 1 = some 1
      ∧ Example.worldNonStd.UngetService 7 2 1 12 = CallResult.throwsOther
      ∧ (Example.handle.Unregister Example.worldNonStd).1 = Outcome.threw Exn.nonStd
      ∧ frameworkEvents (callsSince Example.worldNonStd
          (Example.handle.Unregister Example.worldNonStd).2) = []
      ∧ ungets (callsSince Example.worldNonStd
          (Example.handle.Unregister Example.worldNonStd).2) = [(7, 2, 1, 11), (7, 2, 1, 12)]
      ∧ ((Example.handle.Unregister Example.worldNonStd).2.heap 1).unregistering = true
      ∧ ((Example.handle.Unregister Example.worldNonStd).2.heap 1).bundleServiceInstance
          = [(2, 10), (3, 13)] := by
  decide

/-! ## The order of the steps of Unregister -/

theorem ungetAndFinish_eq (d : RegId) (w : World) :
    ungetAndFinish d w = ungetFromUnavailable d (madeUnavailable w d) := rfl

theorem andThen_calls (a : World) (r : Outcome × World) (k : World → Outcome × World)
    (P : Effect → Bool)
    (h1 : ∃ post, r.2.trace = a.trace ++ post ∧ ∀ e ∈ post, P e = true)
    (h2 : ∀ x : World, ∃ post, (k x).2.trace = x.trace ++ post ∧ ∀ e ∈ post, P e = true) :
    ∃ post, (andThen r k).2.trace = a.trace ++ post ∧ ∀ e ∈ post, P e = true := by
  unfold andThen
  split
  · obtain ⟨p1, e1, q1⟩ := h1
    obtain ⟨p2, e2, q2⟩ := h2 r.2
    refine ⟨p1 ++ p2, by rw [e2, e1, List.append_assoc], ?_⟩
    intro e he
    rcases List.mem_append.mp he with h | h
    · exact q1 e h
    · exact q2 e h
  · exact h1

theorem ungetOne_calls (d : RegId) (f : Nat) (bundle : BundleId) (service : Instance)
    (w : World) :
    ∃ post, (ungetOne d f bundle service w).2.trace = w.trace ++ post
      ∧ ∀ e ∈ post, Effect.isFactoryCall e = true := by
  unfold ungetOne
  simp only
  split
  · exact ⟨[_], rfl, by simp [Effect.isFactoryCall]⟩
  · split
    · rename_i what _ _ b _
      exact ⟨[Effect.UngetService f bundle d service,
          Effect.SendFrameworkEvent
            ⟨FrameworkEventType.FRAMEWORK_ERROR, b, ungetMessage,
              ⟨what, ServiceExceptionType.FACTORY_EXCEPTION⟩⟩],
        by simp [SendFrameworkEvent], by simp [Effect.isFactoryCall]⟩
    · exact ⟨[_], rfl, by simp [Effect.isFactoryCall]⟩
  · exact ⟨[_], rfl, by simp [Effect.isFactoryCall]⟩

theorem ungetServices_calls (d : RegId) (f : Nat) (bundle : BundleId) (l : List Instance)
    (w : World) :
    ∃ post, (ungetServices d f bundle l w).2.trace = w.trace ++ post
      ∧ ∀ e ∈ post, Effect.isFactoryCall e = true := by
  induction l generalizing w with
  | nil => exact ⟨[], by simp [ungetServices], by simp⟩
  | cons s rest ih =>
    unfold ungetServices
    exact andThen_calls w _ _ _ (ungetOne_calls d f bundle s w) ih

theorem ungetPrototypeServices_calls (d : RegId) (f : Nat)
    (l : List (BundleId × List Instance)) (w : World) :
    ∃ post, (ungetPrototypeServices d f l w).2.trace = w.trace ++ post
      ∧ ∀ e ∈ post, Effect.isFactoryCall e = true := by
  induction l generalizing w with
  | nil => exact ⟨[], by simp [ungetPrototypeServices], by simp⟩
  | cons i rest ih =>
    unfold ungetPrototypeServices
    exact andThen_calls w _ _ _ (ungetServices_calls d f i.1 i.2 w) ih

theorem ungetBundleServices_calls (d : RegId) (f : Nat) (l : List (BundleId × Instance))
    (w : World) :
    ∃ post, (ungetBundleServices d f l w).2.trace = w.trace ++ post
      ∧ ∀ e ∈ post, Effect.isFactoryCall e = true := by
  induction l generalizing w with
  | nil => exact ⟨[], by simp [ungetBundleServices], by simp⟩
  | cons i rest ih =>
    unfold ungetBundleServices
    exact andThen_calls w _ _ _ (ungetOne_calls d f i.1 i.2 w) ih

/-- Whatever follows line 249 of `Unregister` only adds factory calls to the
trace. -/
theorem ungetFromUnavailable_calls (d : RegId) (w1 : World) :
    ∃ post, (ungetFromUnavailable d w1).2.trace = w1.trace ++ post
      ∧ ∀ e ∈ post, Effect.isFactoryCall e = true := by
  unfold ungetFromUnavailable
  split
  · exact ⟨[], by simp, by simp⟩
  · split
    · apply andThen_calls w1
      · exact ungetPrototypeServices_calls _ _ _ _
      · intro x
        apply andThen_calls x
        · exact ungetBundleServices_calls _ _ _ _
        · intro y
          exact ⟨[], by simp [finishUnregister], by simp⟩
    · exact ⟨[], by simp [finishUnregister], by simp⟩

theorem winnerDispatched_trace_eq (w : World) (d : RegId) :
    (winnerDispatched w d).trace = w.trace ++ winnerCalls w d := by
  unfold winnerCalls
  cases hb : w.lockBundle d with
  | none =>
    unfold winnerDispatched
    rw [latched_lockBundle, hb]
    simp [latched]
  | some b => exact winnerDispatched_trace w d b hb

theorem winnerDispatched_available (w : World) (d : RegId) :
    ((winnerDispatched w d).heap d).available = (w.heap d).available := by
  rw [winnerDispatched_heap]
  simp [latched]

/-- The phases of a winning `Unregister` (registration available, latch not
set), as a composition of steps.  First lines 213-240 make the calls
`winnerCalls`: when the owning bundle is alive, the removal from the registry
and then the `UNREGISTERING` deliveries, the flag `available` being true
before and after them; none when the bundle is gone.  Then line 249 sets
`available` to false without any call.  Only then does the rest run, from that
world, and every call it adds is a factory `UngetService` or the framework
event reporting its failure. -/
theorem Unregister_winner_phases (d : RegId) (w : World)
    (hav : (w.heap d).available = true)
    (hl : (w.heap d).unregistering = false) :
    (ServiceRegistrationBase.mk (some d)).Unregister w
        = ungetFromUnavailable d (madeUnavailable (winnerDispatched w d) d)
      ∧ (∀ b, w.lockBundle d = some b →
          winnerDispatched w d
              = dispatchedUnregistering (removedFromRegistry (latched w d) d) d
            ∧ (removedFromRegistry (latched w d) d).trace
                = w.trace ++ [Effect.RemoveServiceRegistration d]
            ∧ ((removedFromRegistry (latched w d) d).heap d).available = true)
      ∧ (winnerDispatched w d).trace = w.trace ++ winnerCalls w d
      ∧ ((winnerDispatched w d).heap d).available = true
      ∧ (madeUnavailable (winnerDispatched w d) d).trace = w.trace ++ winnerCalls w d
      ∧ ((madeUnavailable (winnerDispatched w d) d).heap d).available = false
      ∧ ∃ post,
          callsSince w ((ServiceRegistrationBase.mk (some d)).Unregister w).2
              = winnerCalls w d ++ post
            ∧ ∀ e ∈ post, Effect.isFactoryCall e = true := by
  have heq : (ServiceRegistrationBase.mk (some d)).Unregister w
      = ungetFromUnavailable d (madeUnavailable (winnerDispatched w d) d) := by
    rw [Unregister_winning d w hav hl, ungetAndFinish_eq]
  refine ⟨heq, ?_, winnerDispatched_trace_eq w d, ?_, winnerDispatched_trace_eq w d, ?_, ?_⟩
  · intro b hb
    refine ⟨?_, by simp [removedFromRegistry, latched], by simp [removedFromRegistry, latched, hav]⟩
    unfold winnerDispatched
    rw [latched_lockBundle, hb]
  · rw [winnerDispatched_available, hav]
  · simp [madeUnavailable]
  · obtain ⟨post, hp, hq⟩ :=
      ungetFromUnavailable_calls d (madeUnavailable (winnerDispatched w d) d)
    refine ⟨post, ?_, hq⟩
    rw [heq]
    apply callsSince_of_trace
    rw [hp, ← List.append_assoc]
    exact congrArg (fun t => t ++ post) (winnerDispatched_trace_eq w d)

/-- An example: unregistering registration 1 of the concrete framework
removes it, delivers `UNREGISTERING` to listeners 100 and 101, then ungets. -/
theorem Unregister_winner_phases_example :
    (Example.world.heap 1).available = true
      ∧ (Example.world.heap 1).unregistering = false
      ∧ (winnerDispatched Example.world 1).trace
          = [Effect.RemoveServiceRegistration 1,
              Effect.CallDelegate 100 (unregisteringEventOf Example.world 1),
              Effect.CallDelegate 101 (unregisteringEventOf Example.world 1)] :=
  ⟨by decide, by decide,
    (Unregister_winner_phases 1 Example.world (by decide) (by decide)).2.2.1.trans
      (by decide)⟩

/-- C12: `Unregister` on a registration whose latch is already set and whose
available flag is still true returns without raising and leaves the world as
it found it: nothing is removed from the registry, no event is dispatched, no
factory is called, and no field of the registration, the latch included,
changes. -/
theorem Unregister_loser_returns_silently (d : RegId) (w : World)
    (hav : (w.heap d).available = true)
    (hl : (w.heap d).unregistering = true) :
    (ServiceRegistrationBase.mk (some d)).Unregister w = (Outcome.returned, w)
      ∧ callsSince w ((ServiceRegistrationBase.mk (some d)).Unregister w).2 = []
      ∧ ((ServiceRegistrationBase.mk (some d)).Unregister w).2.coreCtx.services
          = w.coreCtx.services
      ∧ ((ServiceRegistrationBase.mk (some d)).Unregister w).2.heap d = w.heap d := by
  have he : (ServiceRegistrationBase.mk (some d)).Unregister w = (Outcome.returned, w) := by
    unfold ServiceRegistrationBase.Unregister
    simp [hav, hl, atomic_compare_exchange_strong]
  rw [he]
  exact ⟨rfl, by simp [callsSince], rfl, rfl⟩

/-- Witness of C12: registration 1 of the concrete framework while its
unregistration is in flight. -/
theorem Unregister_loser_returns_silently_witness :
    (Example.worldInFlight.heap 1).available = true
      ∧ (Example.worldInFlight.heap 1).unregistering = true
      ∧ (ServiceRegistrationBase.mk (some 1)).Unregister Example.worldInFlight
          = (Outcome.returned, Example.worldInFlight) :=
  ⟨by decide, by decide,
    (Unregister_loser_returns_silently 1 Example.worldInFlight (by decide) (by decide)).1⟩

/-- C13: on a registration whose available flag is false, `GetReference`
fails with `std::logic_error` for every interface id and `SetProperties` fails
with `std::logic_error` for every property map, leaving the world as it found
it: no property changes, no bucket is re-sorted and no event is dispatched. -/
theorem unavailable_registration_is_illegal_state (d : RegId) (w : World)
    (h : (w.heap d).available = false) :
    (∀ interfaceId : String,
        (ServiceRegistrationBase.mk (some d)).GetReference interfaceId w
          = Except.error (Exn.logic_error "Service is unregistered"))
      ∧ (∀ props : AnyMap,
          (ServiceRegistrationBase.mk (some d)).SetProperties props w
            = (Outcome.threw (Exn.logic_error "Service is unregistered"), w))
      ∧ (∀ props : AnyMap,
          callsSince w ((ServiceRegistrationBase.mk (some d)).SetProperties props w).2 = []) := by
  have hs : ∀ props : AnyMap, (ServiceRegistrationBase.mk (some d)).SetProperties props w
      = (Outcome.threw (Exn.logic_error "Service is unregistered"), w) := by
    intro props
    unfold ServiceRegistrationBase.SetProperties
    simp [h]
  refine ⟨?_, hs, ?_⟩
  · intro interfaceId
    unfold ServiceRegistrationBase.GetReference
    simp [h]
  · intro props
    rw [hs props]
    simp [callsSince]

/-- Witness of C13: registration 1 of the concrete framework, once
unregistered. -/
theorem unavailable_registration_is_illegal_state_witness :
    (((Example.handle.Unregister Example.world).2).heap 1).available = false
      ∧ (ServiceRegistrationBase.mk (some 1)).GetReference "Foo"
            (Example.handle.Unregister Example.world).2
          = Except.error (Exn.logic_error "Service is unregistered") :=
  ⟨by decide,
    (unavailable_registration_is_illegal_state 1 (Example.handle.Unregister Example.world).2
      (by decide)).1 "Foo"⟩

namespace scrimpl

/-! ## ConfigurationNotifier: the two maps -/

theorem TokenMap.find_append (m : TokenMap) (t : ListenerTokenId) (cb : Listener)
    (t' : ListenerTokenId) :
    TokenMap.find (m ++ [(t, cb)]) t'
      = match TokenMap.find m t' with
        | some x => some x
        | none => if t = t' then some cb else none := by
  induction m with
  | nil => simp [TokenMap.find]
  | cons e rest ih =>
    obtain ⟨a, b⟩ := e
    by_cases h : a = t'
    · simp [TokenMap.find, h]
    · simp [TokenMap.find, h, ih]

theorem TokenMap.isSome_find_emplace (m : TokenMap) (t : ListenerTokenId) (cb : Listener)
    (t' : ListenerTokenId) :
    (TokenMap.find (TokenMap.emplace m t cb) t').isSome
      = (decide (t' = t) || (TokenMap.find m t').isSome) := by
  unfold TokenMap.emplace
  by_cases h : (TokenMap.find m t).isSome = true
  · rw [if_pos h]
    by_cases h2 : t' = t
    · subst h2
      simp [h]
    · simp [h2]
  · rw [if_neg h, TokenMap.find_append]
    cases hf : TokenMap.find m t' with
    | some x => simp
    | none =>
      by_cases h2 : t = t'
      · simp [h2]
      · simp [h2, Ne.symm h2]

theorem TokenMap.find_erase (m : TokenMap) (t t' : ListenerTokenId) :
    TokenMap.find (TokenMap.erase m t) t' = if t' = t then none else TokenMap.find m t' := by
  induction m with
  | nil => simp [TokenMap.erase, TokenMap.find]
  | cons e rest ih =>
    obtain ⟨a, b⟩ := e
    simp only [TokenMap.erase, ne_eq, decide_not] at ih ⊢
    by_cases h : a = t
    · subst h
      by_cases h2 : t' = a
      · subst h2
        simpa [List.filter_cons] using ih
      · simp [List.filter_cons, h2, ih, TokenMap.find, Ne.symm h2]
    · by_cases h2 : t' = t
      · subst h2
        simp [List.filter_cons, h, TokenMap.find, ih]
      · by_cases h3 : a = t'
        · simp [List.filter_cons, h, TokenMap.find, h3, h2]
        · simp [List.filter_cons, h, TokenMap.find, h3, h2, ih]

theorem TokenMap.find_isSome_iff_mem (m : TokenMap) (t : ListenerTokenId) :
    (TokenMap.find m t).isSome = true ↔ t ∈ m.map Prod.fst := by
  induction m with
  | nil => simp [TokenMap.find]
  | cons e rest ih =>
    obtain ⟨a, b⟩ := e
    by_cases h : a = t
    · simp [TokenMap.find, h]
    · simp [TokenMap.find, h, ih, Ne.symm h]

theorem TokenMap.emplace_ne_nil (m : TokenMap) (t : ListenerTokenId) (cb : Listener) :
    TokenMap.emplace m t cb ≠ [] := by
  unfold TokenMap.emplace
  split
  · rename_i h
    intro hm
    rw [hm] at h
    simp [TokenMap.find] at h
  · simp

theorem TokenMap.nodup_emplace (m : TokenMap) (t : ListenerTokenId) (cb : Listener)
    (h : (m.map Prod.fst).Nodup) : ((TokenMap.emplace m t cb).map Prod.fst).Nodup := by
  unfold TokenMap.emplace
  split
  · exact h
  · rename_i hn
    rw [List.map_append, List.nodup_append]
    refine ⟨h, by simp, ?_⟩
    intro a ha hb
    simp only [List.map_cons, List.map_nil, List.mem_singleton] at hb
    subst hb
    exact hn ((TokenMap.find_isSome_iff_mem m a).mpr ha)

theorem TokenMap.nodup_erase (m : TokenMap) (t : ListenerTokenId)
    (h : (m.map Prod.fst).Nodup) : ((TokenMap.erase m t).map Prod.fst).Nodup := by
  unfold TokenMap.erase
  exact List.Nodup.sublist (List.Sublist.map _ (List.filter_sublist _)) h

theorem ListenersMap.find_table_assign (table : ListenersMap) (p : String) (m : TokenMap)
    (p' : String) :
    ListenersMap.find (ListenersMap.assign table p m) p'
      = if p = p' then some m else ListenersMap.find table p' := by
  induction table with
  | nil => simp [ListenersMap.assign, ListenersMap.find]
  | cons e rest ih =>
    obtain ⟨a, b⟩ := e
    by_cases h : a = p
    · subst h
      by_cases h2 : a = p' <;> simp [ListenersMap.assign, ListenersMap.find, h2]
    · by_cases h2 : a = p'
      · subst h2
        simp [ListenersMap.assign, ListenersMap.find, h, Ne.symm h]
      · simp [ListenersMap.assign, ListenersMap.find, h, h2, ih]

theorem ListenersMap.find_table_erase (table : ListenersMap) (p p' : String) :
    ListenersMap.find (ListenersMap.erase table p) p'
      = if p' = p then none else ListenersMap.find table p' := by
  induction table with
  | nil => simp [ListenersMap.erase, ListenersMap.find]
  | cons e rest ih =>
    obtain ⟨a, b⟩ := e
    simp only [ListenersMap.erase, ne_eq, decide_not] at ih ⊢
    by_cases h : a = p
    · subst h
      by_cases h2 : p' = a
      · subst h2
        simpa [List.filter_cons] using ih
      · simp [List.filter_cons, h2, ih, ListenersMap.find, Ne.symm h2]
    · by_cases h2 : p' = p
      · subst h2
        simp [List.filter_cons, h, ListenersMap.find, ih]
      · by_cases h3 : a = p'
        · simp [List.filter_cons, h, ListenersMap.find, h3, h2]
        · simp [List.filter_cons, h, ListenersMap.find, h3, h2, ih]

theorem ListenersMap.mem_of_find (table : ListenersMap) (p : String) (m : TokenMap)
    (h : ListenersMap.find table p = some m) : (p, m) ∈ table := by
  induction table with
  | nil => simp [ListenersMap.find] at h
  | cons e rest ih =>
    obtain ⟨a, b⟩ := e
    by_cases h2 : a = p
    · subst h2
      simp [ListenersMap.find] at h
      simp [h]
    · simp [ListenersMap.find, h2] at h
      exact List.mem_cons_of_mem _ (ih h)

theorem ListenersMap.mem_assign (table : ListenersMap) (p : String) (m : TokenMap)
    (e : String × TokenMap) (h : e ∈ ListenersMap.assign table p m) : e = (p, m) ∨ e ∈ table := by
  induction table with
  | nil =>
    simp [ListenersMap.assign] at h
    exact Or.inl h
  | cons x rest ih =>
    obtain ⟨a, b⟩ := x
    by_cases h2 : a = p
    · simp [ListenersMap.assign, h2] at h
      rcases h with h | h
      · exact Or.inl h
      · exact Or.inr (List.mem_cons_of_mem _ h)
    · simp [ListenersMap.assign, h2] at h
      rcases h with h | h
      · right
        rw [h]
        exact List.mem_cons_self _ _
      · rcases ih h with h3 | h3
        · exact Or.inl h3
        · exact Or.inr (List.mem_cons_of_mem _ h3)

theorem ListenersMap.mem_erase (table : ListenersMap) (p : String) (e : String × TokenMap)
    (h : e ∈ ListenersMap.erase table p) : e ∈ table := by
  unfold ListenersMap.erase at h
  exact List.mem_of_mem_filter h

end scrimpl

namespace scrimpl

/-! ## ConfigurationNotifier: registration and unregistration -/

theorem isSome_listener_RegisterListener (n : ConfigurationNotifier) (pid : String)
    (notify : Listener) (p : String) (t : ListenerTokenId) :
    ((n.RegisterListener pid notify).2.listener p t).isSome
      = (decide (p = pid ∧ t = (n.RegisterListener pid notify).1) || (n.listener p t).isSome) := by
  unfold ConfigurationNotifier.RegisterListener ConfigurationNotifier.listener
  simp only [ListenersMap.find_table_assign]
  by_cases hp : pid = p
  · subst hp
    simp only [if_true, Option.bind_some, true_and]
    cases hf : ListenersMap.find n.listenersMap pid with
    | none =>
      simp only [Option.getD_none, Option.some_bind, Option.none_bind,
        TokenMap.isSome_find_emplace]
      simp [TokenMap.find]
    | some inner =>
      simp only [Option.getD_some, Option.some_bind, TokenMap.isSome_find_emplace]
  · simp [hp, Ne.symm hp]

theorem listener_UnregisterListener (n : ConfigurationNotifier) (pid : String)
    (token : ListenerTokenId) (p : String) (t : ListenerTokenId) :
    (n.UnregisterListener pid token).listener p t
      = if p = pid ∧ t = token then none else n.listener p t := by
  unfold ConfigurationNotifier.UnregisterListener ConfigurationNotifier.listener
  cases hf : ListenersMap.find n.listenersMap pid with
  | none =>
    simp only
    by_cases hp : p = pid
    · subst hp
      simp [hf]
    · simp [hp]
  | some inner =>
    simp only
    by_cases he : (TokenMap.erase inner token).isEmpty = true
    · rw [if_pos he]
      simp only [ListenersMap.find_table_erase]
      by_cases hp : p = pid
      · subst hp
        simp only [if_true, Option.bind_none, true_and, hf, Option.bind_some]
        by_cases ht : t = token
        · simp [ht]
        · have h1 := TokenMap.find_erase inner token t
          rw [List.isEmpty_iff.mp he] at h1
          simp [TokenMap.find, ht] at h1
          simp [ht, ← h1]
      · simp [hp]
    · rw [if_neg he]
      simp only [ListenersMap.find_table_assign]
      by_cases hp : p = pid
      · subst hp
        simp only [if_true, Option.bind_some, true_and, hf]
        by_cases ht : t = token <;> simp [ht, TokenMap.find_erase]
      · simp [hp, Ne.symm hp]

theorem wellFormed_RegisterListener (n : ConfigurationNotifier) (pid : String)
    (notify : Listener) (h : ListenersMap.WellFormed n.listenersMap) :
    ListenersMap.WellFormed (n.RegisterListener pid notify).2.listenersMap := by
  intro e he
  unfold ConfigurationNotifier.RegisterListener at he
  rcases ListenersMap.mem_assign _ _ _ _ he with h1 | h1
  · rw [h1]
    refine ⟨TokenMap.emplace_ne_nil _ _ _, TokenMap.nodup_emplace _ _ _ ?_⟩
    cases hf : ListenersMap.find n.listenersMap pid with
    | none => simp
    | some inner => exact (h _ (ListenersMap.mem_of_find _ _ _ hf)).2
  · exact h e h1

theorem wellFormed_UnregisterListener (n : ConfigurationNotifier) (pid : String)
    (token : ListenerTokenId) (h : ListenersMap.WellFormed n.listenersMap) :
    ListenersMap.WellFormed (n.UnregisterListener pid token).listenersMap := by
  unfold ConfigurationNotifier.UnregisterListener
  cases hf : ListenersMap.find n.listenersMap pid with
  | none => exact h
  | some inner =>
    simp only
    by_cases he : (TokenMap.erase inner token).isEmpty = true
    · rw [if_pos he]
      intro e hmem
      exact h e (ListenersMap.mem_erase _ _ _ hmem)
    · rw [if_neg he]
      intro e hmem
      rcases ListenersMap.mem_assign _ _ _ _ hmem with h1 | h1
      · rw [h1]
        refine ⟨?_, TokenMap.nodup_erase _ _ (h _ (ListenersMap.mem_of_find _ _ _ hf)).2⟩
        intro hnil
        have hnil2 : TokenMap.erase inner token = [] := hnil
        exact he (by simp [hnil2])
      · exact h e h1

theorem History.consistent_start : History.Consistent History.start := by
  refine ⟨?_, ?_⟩
  · intro e he
    simp [History.start, ConfigurationNotifier.fresh] at he
  · intro p t
    simp [History.start, ConfigurationNotifier.fresh, ConfigurationNotifier.listener,
      ListenersMap.find]

theorem History.consistent_step (h : History) (c : Call) (hc : h.Consistent) :
    (h.step c).Consistent := by
  obtain ⟨hw, hl⟩ := hc
  cases c with
  | register pid notify =>
    refine ⟨wellFormed_RegisterListener _ _ _ hw, ?_⟩
    intro p t
    simp only [History.step, isSome_listener_RegisterListener, ← hl]
    by_cases hpt : p = pid ∧ t = (h.notifier.RegisterListener pid notify).1
    · simp [hpt]
    · simp [hpt]
  | unregister pid token =>
    refine ⟨wellFormed_UnregisterListener _ _ _ hw, ?_⟩
    intro p t
    simp only [History.step, listener_UnregisterListener]
    by_cases hpt : p = pid ∧ t = token
    · simp [hpt]
    · simp [hpt, hl]

theorem History.consistent_run (calls : List Call) (h : History) (hc : h.Consistent) :
    (h.run calls).Consistent := by
  induction calls generalizing h with
  | nil => exact hc
  | cons c rest ih => exact ih (h.step c) (History.consistent_step h c hc)

end scrimpl

namespace scrimpl

/-! ## ConfigurationNotifier: notification -/

theorem invocations_notifyEach (pid : String) (x : ConfigChangeNotification) (m : TokenMap) :
    invocations (notifyEach pid x m) = m.map (fun e => (pid, e.1, x)) := by
  induction m with
  | nil => rfl
  | cons e rest ih =>
    obtain ⟨t, cb⟩ := e
    unfold notifyEach
    cases hcb : cb x <;> simp [invocations, ih]

theorem logged_notifyEach (pid : String) (x : ConfigChangeNotification) (m : TokenMap) :
    logged (notifyEach pid x m)
      = m.filterMap (fun e =>
          match e.2 x with
          | CallResult.returns => none
          | r => some (thrownMessage r)) := by
  induction m with
  | nil => rfl
  | cons e rest ih =>
    obtain ⟨t, cb⟩ := e
    unfold notifyEach
    cases hcb : cb x <;> simp [logged, ih, List.filterMap_cons, hcb]

theorem exists_listener_of_find (table : ListenersMap) (p : String) (inner : TokenMap)
    (hw : ListenersMap.WellFormed table) (hf : ListenersMap.find table p = some inner) :
    ∃ t, (TokenMap.find inner t).isSome = true := by
  have hne := (hw _ (ListenersMap.mem_of_find _ _ _ hf)).1
  cases inner with
  | nil => exact absurd rfl hne
  | cons e rest =>
    obtain ⟨t, cb⟩ := e
    exact ⟨t, by simp [TokenMap.find]⟩

/-- C19: after any sequence of `RegisterListener` and `UnregisterListener`
calls, `AnyListenersForPid(p)` is true exactly when some listener registered
under `p` has not yet been unregistered; a further `UnregisterListener(p,
token)` removes the entry of `(p, token)` and changes no other entry; when it
leaves no listener under `p` the table has no inner map for `p`; and no inner
map of the table is ever empty. -/
theorem AnyListenersForPid_iff_live_listener (calls : List Call) (p : String) :
    ((History.start.run calls).notifier.AnyListenersForPid p = true
        ↔ ∃ t, (History.start.run calls).live p t = true)
      ∧ (∀ token q t,
          ((History.start.run calls).notifier.UnregisterListener p token).listener q t
            = if q = p ∧ t = token then none
              else (History.start.run calls).notifier.listener q t)
      ∧ (∀ token,
          (∀ t, ((History.start.run calls).notifier.UnregisterListener p token).listener p t
            = none) →
          ListenersMap.find
            ((History.start.run calls).notifier.UnregisterListener p token).listenersMap p = none)
      ∧ (∀ e ∈ (History.start.run calls).notifier.listenersMap, e.2 ≠ []) := by
  obtain ⟨hw, hl⟩ := History.consistent_run calls History.start History.consistent_start
  refine ⟨?_, ?_, ?_, ?_⟩
  · unfold ConfigurationNotifier.AnyListenersForPid
    constructor
    · intro h
      cases hf : ListenersMap.find (History.start.run calls).notifier.listenersMap p with
      | none => simp [hf] at h
      | some inner =>
        obtain ⟨t, ht⟩ := exists_listener_of_find _ p inner hw hf
        exact ⟨t, by rw [hl, ConfigurationNotifier.listener, hf]; simpa using ht⟩
    · rintro ⟨t, ht⟩
      rw [hl, ConfigurationNotifier.listener] at ht
      cases hf : ListenersMap.find (History.start.run calls).notifier.listenersMap p with
      | none => simp [hf] at ht
      | some inner => rfl
  · intro token q t
    exact listener_UnregisterListener _ p token q t
  · intro token hnone
    have hw2 := wellFormed_UnregisterListener (History.start.run calls).notifier p token hw
    cases hf : ListenersMap.find
        ((History.start.run calls).notifier.UnregisterListener p token).listenersMap p with
    | none => rfl
    | some inner =>
      obtain ⟨t, ht⟩ := exists_listener_of_find _ p inner hw2 hf
      have h1 := hnone t
      rw [ConfigurationNotifier.listener, hf] at h1
      simp only [Option.some_bind] at h1
      rw [h1] at ht
      simp at ht
  · intro e he
    exact (hw e he).1

/-- C20: for every notifier, every PID and whatever callbacks of its
listeners raise an error, `NotifyAllListeners` returns, leaves the notifier as
it found it, invokes every callback stored under the PID in the snapshot,
and logs one message for each callback that raised, the error itself being
discarded. -/
theorem NotifyAllListeners_isolates_listener_errors (n : ConfigurationNotifier) (pid : String)
    (type : ConfigurationEventType) (properties : Option AnyMap) :
    (n.NotifyAllListeners pid type properties).1 = Outcome.returned
      ∧ (n.NotifyAllListeners pid type properties).2.1 = n
      ∧ invocations (n.NotifyAllListeners pid type properties).2.2
          = ((ListenersMap.find n.listenersMap pid).getD []).map
              (fun e => (pid, e.1, ConfigChangeNotification.new pid properties type))
      ∧ logged (n.NotifyAllListeners pid type properties).2.2
          = ((ListenersMap.find n.listenersMap pid).getD []).filterMap
              (fun e =>
                match e.2 (ConfigChangeNotification.new pid properties type) with
                | CallResult.returns => none
                | r => some (thrownMessage r)) := by
  unfold ConfigurationNotifier.NotifyAllListeners
  cases hf : ListenersMap.find n.listenersMap pid with
  | none => simp [invocations, logged]
  | some inner =>
    simp only [Option.getD_some, invocations_notifyEach, logged_notifyEach]
    refine ⟨?_, ?_, ?_, ?_⟩ <;> first | rfl | trivial

end scrimpl

namespace scrimpl

/-! ## ConfigurationNotifier: tokens -/

/-- An example: two listeners are registered under `a` and one under `b`, the
first listener of `a` is unregistered and another one registered; the tokens
returned are 1, 2, 3 and 4. -/
theorem exampleCalls_tokens :
    (History.start.run
      [Call.register "a" (fun _ => CallResult.returns),
        Call.register "a" (fun _ => CallResult.throwsStd "bad"),
        Call.register "b" (fun _ => CallResult.returns),
        Call.unregister "a" 1,
        Call.register "a" (fun _ => CallResult.returns)]).tokens = [1, 2, 3, 4] := by
  decide

/-- The same example: a notification for `a` invokes the listeners of tokens
2 and 4, and logs the error the listener of token 2 raises. -/
theorem exampleCalls_notification :
    invocations
        ((History.start.run
          [Call.register "a" (fun _ => CallResult.returns),
            Call.register "a" (fun _ => CallResult.throwsStd "bad"),
            Call.register "b" (fun _ => CallResult.returns),
            Call.unregister "a" 1,
            Call.register "a" (fun _ => CallResult.returns)]).notifier.NotifyAllListeners "a"
          ConfigurationEventType.UPDATED none).2.2
        = [("a", 2, ConfigChangeNotification.new "a" none ConfigurationEventType.UPDATED),
            ("a", 4, ConfigChangeNotification.new "a" none ConfigurationEventType.UPDATED)]
      ∧ logged
          ((History.start.run
            [Call.register "a" (fun _ => CallResult.returns),
              Call.register "a" (fun _ => CallResult.throwsStd "bad"),
              Call.register "b" (fun _ => CallResult.returns),
              Call.unregister "a" 1,
              Call.register "a" (fun _ => CallResult.returns)]).notifier.NotifyAllListeners "a"
            ConfigurationEventType.UPDATED none).2.2
        = ["bad"] := by
  decide

/-- An example: after two rounds of registering and unregistering, no listener
is left and the tokens returned were 1 and 2. -/
theorem registerAndUnregister_two :
    (History.start.run
        (registerAndUnregister "pid" (fun _ => CallResult.returns) 2)).tokens = [1, 2]
      ∧ (History.start.run
          (registerAndUnregister "pid" (fun _ => CallResult.returns)
            2)).notifier.AnyListenersForPid "pid" = false := by
  decide

end scrimpl

namespace scrimpl

/-! ## CCUnsatisfiedReferenceState -/

theorem satisfiedAfter_address_ne (this : ComponentConfigurationState) :
    (satisfiedAfter this).address ≠ this.address := by
  simp [satisfiedAfter]

theorem registerStep_start_won (this : ComponentConfigurationState) (s : System) (f : Nat)
    (hstate : s.config.state = this) (hf : s.config.factory = some f) :
    registerStep this Phase.start s
      = (Phase.publishing, { s with config := { s.config with state := satisfiedAfter this } }) := by
  simp [registerStep, hf, System.CompareAndSetState, hstate]

theorem registerStep_start_lost (this : ComponentConfigurationState) (s : System) (f : Nat)
    (hstate : s.config.state = satisfiedAfter this) (hf : s.config.factory = some f) :
    registerStep this Phase.start s = (Phase.returned, s) := by
  simp [registerStep, hf, System.CompareAndSetState, hstate, satisfiedAfter]

theorem length_GetServiceReferences_RegisterService (s : System) (clazz : String)
    (h : clazz ∈ s.config.interfaces) :
    (s.RegisterService.GetServiceReferences clazz).length
      = (s.GetServiceReferences clazz).length + 1 := by
  simp [System.GetServiceReferences, System.RegisterService, List.filter_append, h]

/-- C14: through a state object `this` of value `UNSATISFIED_REFERENCE` that
is the current state of the configuration, `Register` returns without raising
in both cases.  When the factory lookup returns null it leaves the system as
it found it: the state stays `UNSATISFIED_REFERENCE` and nothing is
published.  Otherwise it publishes exactly one registration, under the
provided interfaces of the component, and the state becomes `SATISFIED`, held
by a state object other than `this`. -/
theorem Register_publishes_once_or_stays (this : ComponentConfigurationState) (s : System)
    (hstate : s.config.state = this)
    (hval : this.value = ComponentState.UNSATISFIED_REFERENCE) :
    (s.config.factory = none →
        CCUnsatisfiedReferenceState.Register this s = (Outcome.returned, s)
          ∧ (CCUnsatisfiedReferenceState.Register this s).2.GetConfigState
              = ComponentState.UNSATISFIED_REFERENCE)
      ∧ (∀ f, s.config.factory = some f →
          (CCUnsatisfiedReferenceState.Register this s).1 = Outcome.returned
            ∧ (CCUnsatisfiedReferenceState.Register this s).2.registrations
                = s.registrations ++ [s.config.interfaces]
            ∧ (CCUnsatisfiedReferenceState.Register this s).2.GetConfigState
                = ComponentState.SATISFIED
            ∧ (CCUnsatisfiedReferenceState.Register this s).2.config.state.address
                ≠ this.address
            ∧ ∀ clazz ∈ s.config.interfaces,
                ((CCUnsatisfiedReferenceState.Register this s).2.GetServiceReferences clazz).length
                  = (s.GetServiceReferences clazz).length + 1) := by
  refine ⟨?_, ?_⟩
  · intro hf
    have he : CCUnsatisfiedReferenceState.Register this s = (Outcome.returned, s) := by
      simp [CCUnsatisfiedReferenceState.Register, registerStep, hf]
    rw [he]
    exact ⟨rfl, by simp [System.GetConfigState, hstate, hval]⟩
  · intro f hf
    have he : CCUnsatisfiedReferenceState.Register this s
        = (Outcome.returned,
            ({ s with config := { s.config with state := satisfiedAfter this } } :
              System).RegisterService) := by
      unfold CCUnsatisfiedReferenceState.Register
      simp only [registerStep_start_won this s f hstate hf]
      rfl
    rw [he]
    refine ⟨rfl, rfl, rfl, satisfiedAfter_address_ne this, ?_⟩
    intro clazz hc
    exact length_GetServiceReferences_RegisterService _ clazz hc

/-- Witness of C14: the configuration of `TestRegister`; afterwards one
registration provides `Service::Interface`. -/
theorem Register_publishes_once_or_stays_witness :
    exampleSystem.config.state = exampleSystem.config.state
      ∧ exampleSystem.config.state.value = ComponentState.UNSATISFIED_REFERENCE
      ∧ ((CCUnsatisfiedReferenceState.Register exampleSystem.config.state
            exampleSystem).2.GetServiceReferences "Service::Interface").length = 1
      ∧ (CCUnsatisfiedReferenceState.Register exampleSystem.config.state
            exampleSystemNoFactory).2.GetConfigState = ComponentState.UNSATISFIED_REFERENCE :=
  ⟨rfl, rfl,
    ((Register_publishes_once_or_stays exampleSystem.config.state exampleSystem rfl rfl).2 9
      rfl).2.2.2.2 "Service::Interface" (by decide),
    ((Register_publishes_once_or_stays exampleSystem.config.state exampleSystemNoFactory rfl
      rfl).1 rfl).2⟩

/-- C16: through a state object `this` of value `UNSATISFIED_REFERENCE` that
is the current state of the configuration, `Activate` returns a null instance
without raising and `Deactivate` returns without raising, and after either
call the state of the configuration is still `UNSATISFIED_REFERENCE` and is
the same state object `this`. -/
theorem UnsatisfiedReference_stable_under_Activate_Deactivate
    (this : ComponentConfigurationState) (s : System) (clientBundle : Nat)
    (hstate : s.config.state = this)
    (hval : this.value = ComponentState.UNSATISFIED_REFERENCE) :
    (CCUnsatisfiedReferenceState.Activate this s clientBundle).1 = Outcome.returned
      ∧ (CCUnsatisfiedReferenceState.Activate this s clientBundle).2.1 = none
      ∧ (CCUnsatisfiedReferenceState.Activate this s clientBundle).2.2.GetConfigState
          = ComponentState.UNSATISFIED_REFERENCE
      ∧ (CCUnsatisfiedReferenceState.Activate this s clientBundle).2.2.config.state = this
      ∧ (CCUnsatisfiedReferenceState.Deactivate this s).1 = Outcome.returned
      ∧ (CCUnsatisfiedReferenceState.Deactivate this s).2.GetConfigState
          = ComponentState.UNSATISFIED_REFERENCE
      ∧ (CCUnsatisfiedReferenceState.Deactivate this s).2.config.state = this := by
  have hv : s.GetConfigState = ComponentState.UNSATISFIED_REFERENCE := by
    simp [System.GetConfigState, hstate, hval]
  exact ⟨rfl, rfl, hv, hstate, rfl, hv, hstate⟩

/-- Witness of C16: the configuration of `TestActivate` and `TestDeactivate`. -/
theorem UnsatisfiedReference_stable_under_Activate_Deactivate_witness :
    exampleSystem.config.state = exampleSystem.config.state
      ∧ exampleSystem.config.state.value = ComponentState.UNSATISFIED_REFERENCE
      ∧ (CCUnsatisfiedReferenceState.Activate exampleSystem.config.state exampleSystem 0).2.1
          = none :=
  ⟨rfl, rfl,
    (UnsatisfiedReference_stable_under_Activate_Deactivate exampleSystem.config.state
      exampleSystem 0 rfl rfl).2.1⟩

end scrimpl

namespace scrimpl

theorem rank_registerStep (this : ComponentConfigurationState) (ph : Phase) (s : System) :
    min 2 (Phase.rank ph + 1) ≤ Phase.rank (registerStep this ph s).1 := by
  cases ph with
  | start =>
    unfold registerStep
    simp only
    split
    · simp [Phase.rank]
    · split <;> simp [Phase.rank]
  | publishing => simp [registerStep, Phase.rank]
  | returned => simp [registerStep, Phase.rank]

theorem rank_eq_two (ph : Phase) (h : 2 ≤ Phase.rank ph) : ph = Phase.returned := by
  cases ph <;> simp [Phase.rank] at h ⊢

/-- An invocation that is given `k` steps by the schedule has advanced by `k`
phases, or has returned. -/
theorem rank_run (this : ComponentConfigurationState) (n : Nat) (i : Nat) (hi : i < n)
    (schedule : List Nat) (x : Interleaving) :
    min 2 (Phase.rank (x.phase i) + schedule.count i)
      ≤ Phase.rank ((Interleaving.run this n x schedule).phase i) := by
  induction schedule generalizing x with
  | nil => simp [Interleaving.run]
  | cons j rest ih =>
    have hrun : Interleaving.run this n x (j :: rest)
        = Interleaving.run this n (Interleaving.step this n x j) rest := rfl
    rw [hrun]
    have ih2 := ih (Interleaving.step this n x j)
    by_cases hji : j = i
    · subst hji
      have hstep : (Interleaving.step this n x j).phase j
          = (registerStep this (x.phase j) x.system).1 := by
        simp [Interleaving.step, hi]
      have hr := rank_registerStep this (x.phase j) x.system
      rw [hstep] at ih2
      rw [List.count_cons_self]
      omega
    · have hstep : (Interleaving.step this n x j).phase i = x.phase i := by
        unfold Interleaving.step
        split
        · simp [Ne.symm hji]
        · rfl
      rw [hstep] at ih2
      rw [List.count_cons_of_ne (Ne.symm hji)]
      exact ih2

end scrimpl

namespace scrimpl

/-! ## Concurrent invocations of Register -/

theorem inv_init (this : ComponentConfigurationState) (s : System) (n : Nat)
    (hstate : s.config.state = this) : Interleaving.Inv this s n (Interleaving.init s) :=
  ⟨rfl, rfl, Or.inl ⟨hstate, fun _ _ => rfl, rfl⟩⟩

theorem inv_step (this : ComponentConfigurationState) (s : System) (n : Nat) (f : Nat)
    (hf : s.config.factory = some f) (x : Interleaving) (i : Nat)
    (h : Interleaving.Inv this s n x) : Interleaving.Inv this s n (Interleaving.step this n x i) := by
  unfold Interleaving.step
  by_cases hi : i < n
  · rw [if_pos hi]
    obtain ⟨hfac, hint, hcase⟩ := h
    have hf2 : x.system.config.factory = some f := hfac.trans hf
    rcases hcase with ⟨hst, hph, hreg⟩ | ⟨hst, ⟨w, hw, hpw, hothers⟩, hreg⟩ | ⟨hst, hph, hreg⟩
    · -- nobody has stepped: invocation `i` wins the compare-and-swap
      rw [hph i hi, registerStep_start_won this x.system f hst hf2]
      refine ⟨hfac, hint, Or.inr (Or.inl ⟨rfl, ⟨i, hi, by simp, ?_⟩, hreg⟩)⟩
      intro j hj hji
      simp [hji, hph j hj]
    · -- a winner is about to publish
      cases hpi : x.phase i with
      | start =>
        rw [registerStep_start_lost this x.system f hst hf2]
        have hiw : i ≠ w := by
          intro h2
          rw [h2, hpw] at hpi
          exact absurd hpi (by decide)
        refine ⟨hfac, hint, Or.inr (Or.inl ⟨hst, ⟨w, hw, ?_, ?_⟩, hreg⟩)⟩
        · simp [Ne.symm hiw, hpw]
        · intro j hj hjw
          by_cases hji : j = i
          · simp [hji]
          · simp [hji, hothers j hj hjw]
      | publishing =>
        have hiw : i = w := by
          by_contra h2
          exact hothers i hi h2 hpi
        refine ⟨hfac, hint, Or.inr (Or.inr ⟨hst, ?_, ?_⟩)⟩
        · intro j hj
          by_cases hji : j = i
          · simp [hji, registerStep]
          · have hjw : j ≠ w := by rw [← hiw]; exact hji
            simp [hji, hothers j hj hjw]
        · simp [registerStep, System.RegisterService, hreg, hint]
      | returned =>
        refine ⟨hfac, hint, Or.inr (Or.inl ⟨hst, ⟨w, hw, ?_, ?_⟩, hreg⟩)⟩
        · have hiw : w ≠ i := by
            intro h2
            rw [← h2, hpw] at hpi
            exact absurd hpi (by decide)
          simp [registerStep, hiw, hpw]
        · intro j hj hjw
          by_cases hji : j = i
          · simp [hji, registerStep]
          · simp [hji, hothers j hj hjw]
    · -- the winner has published
      cases hpi : x.phase i with
      | start =>
        rw [registerStep_start_lost this x.system f hst hf2]
        refine ⟨hfac, hint, Or.inr (Or.inr ⟨hst, ?_, hreg⟩)⟩
        intro j hj
        by_cases hji : j = i
        · simp [hji]
        · simp [hji, hph j hj]
      | publishing => exact absurd hpi (hph i hi)
      | returned =>
        refine ⟨hfac, hint, Or.inr (Or.inr ⟨hst, ?_, hreg⟩)⟩
        intro j hj
        by_cases hji : j = i
        · simp [hji, registerStep]
        · simp [hji, registerStep, hph j hj]
  · rw [if_neg hi]
    exact h

theorem inv_run (this : ComponentConfigurationState) (s : System) (n : Nat) (f : Nat)
    (hf : s.config.factory = some f) (schedule : List Nat) (x : Interleaving)
    (h : Interleaving.Inv this s n x) :
    Interleaving.Inv this s n (Interleaving.run this n x schedule) := by
  induction schedule generalizing x with
  | nil => exact h
  | cons i rest ih => exact ih (Interleaving.step this n x i) (inv_step this s n f hf x i h)

/-- C15: for `n ≥ 1` invocations of `Register` through the same state object
`this`, the current state of a component configuration with a factory, taking
their atomic steps in the order of any schedule: at every moment at most one
registration has been published; every invocation that has returned finds the
configuration in state `SATISFIED`; once all `n` invocations have returned,
exactly one registration has been published, under the provided interfaces;
and all of them have returned as soon as the schedule has given each its two
steps. -/
theorem concurrent_Register_publishes_exactly_once (this : ComponentConfigurationState)
    (s : System) (f : Nat) (n : Nat) (schedule : List Nat)
    (hn : 1 ≤ n)
    (hstate : s.config.state = this)
    (hf : s.config.factory = some f) :
    ((Interleaving.run this n (Interleaving.init s) schedule).system.registrations
          = s.registrations
        ∨ (Interleaving.run this n (Interleaving.init s) schedule).system.registrations
          = s.registrations ++ [s.config.interfaces])
      ∧ (∀ i, i < n →
          (Interleaving.run this n (Interleaving.init s) schedule).phase i = Phase.returned →
          (Interleaving.run this n (Interleaving.init s) schedule).system.GetConfigState
            = ComponentState.SATISFIED)
      ∧ ((∀ i, i < n →
            (Interleaving.run this n (Interleaving.init s) schedule).phase i = Phase.returned) →
          (Interleaving.run this n (Interleaving.init s) schedule).system.registrations
              = s.registrations ++ [s.config.interfaces]
            ∧ ∀ clazz ∈ s.config.interfaces,
                ((Interleaving.run this n (Interleaving.init s)
                    schedule).system.GetServiceReferences clazz).length
                  = (s.GetServiceReferences clazz).length + 1)
      ∧ ((∀ i, i < n → 2 ≤ schedule.count i) →
          ∀ i, i < n →
            (Interleaving.run this n (Interleaving.init s) schedule).phase i
              = Phase.returned) := by
  have hdone : (∀ i, i < n → 2 ≤ schedule.count i) →
      ∀ i, i < n →
        (Interleaving.run this n (Interleaving.init s) schedule).phase i = Phase.returned := by
    intro hcount i hi
    apply rank_eq_two
    have hr := rank_run this n i hi schedule (Interleaving.init s)
    have hc := hcount i hi
    have h0 : Phase.rank ((Interleaving.init s).phase i) = 0 := rfl
    rw [h0] at hr
    omega
  obtain ⟨-, -, hcase⟩ :=
    inv_run this s n f hf schedule (Interleaving.init s) (inv_init this s n hstate)
  have h0 : 0 < n := hn
  rcases hcase with ⟨hst, hph, hreg⟩ | ⟨hst, ⟨w, hw, hpw, hothers⟩, hreg⟩ | ⟨hst, hph, hreg⟩
  · refine ⟨Or.inl hreg, ?_, ?_, hdone⟩
    · intro i hi hret
      rw [hph i hi] at hret
      exact absurd hret (by decide)
    · intro hall
      have h1 := hall 0 h0
      rw [hph 0 h0] at h1
      exact absurd h1 (by decide)
  · refine ⟨Or.inl hreg, ?_, ?_, hdone⟩
    · intro i hi hret
      simp [System.GetConfigState, hst, satisfiedAfter]
    · intro hall
      have h1 := hall w hw
      rw [hpw] at h1
      exact absurd h1 (by decide)
  · refine ⟨Or.inr hreg, ?_, ?_, hdone⟩
    · intro i hi hret
      simp [System.GetConfigState, hst, satisfiedAfter]
    · intro hall
      refine ⟨hreg, ?_⟩
      intro clazz hc
      simp [System.GetServiceReferences, hreg, List.filter_append, hc]

/-- Witness of C15: three invocations on the configuration of
`TestConcurrentRegister`, each taking its two steps in the order
`2, 0, 1, 2, 0, 1`: all three have returned, the state is `SATISFIED` and one
registration provides `Service::Interface`. -/
theorem concurrent_Register_publishes_exactly_once_witness :
    1 ≤ 3
      ∧ exampleSystem.config.state = exampleSystem.config.state
      ∧ exampleSystem.config.factory = some 9
      ∧ (∀ i, i < 3 →
          (Interleaving.run exampleSystem.config.state 3 (Interleaving.init exampleSystem)
            [2, 0, 1, 2, 0, 1]).phase i = Phase.returned)
      ∧ (Interleaving.run exampleSystem.config.state 3 (Interleaving.init exampleSystem)
            [2, 0, 1, 2, 0, 1]).system.registrations = [["Service::Interface"]]
      ∧ (Interleaving.run exampleSystem.config.state 3 (Interleaving.init exampleSystem)
            [2, 0, 1, 2, 0, 1]).system.GetConfigState = ComponentState.SATISFIED :=
  ⟨by decide, rfl, rfl, by decide,
    ((concurrent_Register_publishes_exactly_once exampleSystem.config.state exampleSystem 9 3
      [2, 0, 1, 2, 0, 1] (by decide) rfl rfl).2.2.1 (by decide)).1,
    (concurrent_Register_publishes_exactly_once exampleSystem.config.state exampleSystem 9 3
      [2, 0, 1, 2, 0, 1] (by decide) rfl rfl).2.1 0 (by decide) (by decide)⟩

end scrimpl

/-! ## A mistyped ranking -/

theorem newRank_of_mistyped (props : AnyMap) (v : Any)
    (hfind : AnyMap.find props Constants.SERVICE_RANKING = some v)
    (hty : ∀ i : Int, v ≠ Any.int i) :
    newRank props
      = Except.error
          (Exn.invalid_argument "SERVICE_RANKING property has unexpected value type. ") := by
  unfold newRank
  rw [hfind]
  cases v with
  | int i => exact absurd rfl (hty i)
  | empty => rfl
  | bool b => rfl
  | long i => rfl
  | string s => rfl
  | stringVector l => rfl

/-- C26: for an available registration and a property map whose
`SERVICE_RANKING` entry is present and is not an `int`, `SetProperties` fails
with `std::invalid_argument` and leaves the world as it found it: the property
map of the registration is what it was, no bucket is re-sorted and no event is
dispatched. -/
theorem SetProperties_mistyped_ranking_is_rejected (d : RegId) (props : AnyMap) (v : Any)
    (w : World)
    (hav : (w.heap d).available = true)
    (hfind : AnyMap.find props Constants.SERVICE_RANKING = some v)
    (hty : ∀ i : Int, v ≠ Any.int i) :
    (∃ what, ((ServiceRegistrationBase.mk (some d)).SetProperties props w).1
        = Outcome.threw (Exn.invalid_argument what))
      ∧ ((ServiceRegistrationBase.mk (some d)).SetProperties props w).2 = w
      ∧ (((ServiceRegistrationBase.mk (some d)).SetProperties props w).2.heap d).properties
          = (w.heap d).properties
      ∧ ((ServiceRegistrationBase.mk (some d)).SetProperties props w).2.coreCtx.services
          = w.coreCtx.services
      ∧ callsSince w ((ServiceRegistrationBase.mk (some d)).SetProperties props w).2 = [] := by
  have he : (ServiceRegistrationBase.mk (some d)).SetProperties props w
      = (Outcome.threw
          (Exn.invalid_argument "SERVICE_RANKING property has unexpected value type. "), w) := by
    simp only [ServiceRegistrationBase.SetProperties, hav, Bool.not_true, Bool.false_eq_true,
      if_false, newRank_propsCopyOf, newRank_of_mistyped props v hfind hty]
  rw [he]
  exact ⟨⟨_, rfl⟩, rfl, rfl, rfl, by simp [callsSince]⟩

/-- Witness of C26: registration 1 of the concrete framework and a map whose
ranking is a string. -/
theorem SetProperties_mistyped_ranking_is_rejected_witness :
    (Example.world.heap 1).available = true
      ∧ AnyMap.find Example.mistypedProps Constants.SERVICE_RANKING = some (Any.string "high")
      ∧ (Example.handle.SetProperties Example.mistypedProps Example.world).2 = Example.world :=
  ⟨rfl, by decide,
    (SetProperties_mistyped_ranking_is_rejected 1 Example.mistypedProps (Any.string "high")
      Example.world rfl (by decide) (by intro i h; cases h)).2.1⟩

/-! ## The order of handles -/

/-- C28: `operator<` is false for two handles of the same record (both null,
or a handle and itself), false whenever the right handle is null and true
whenever the left handle is null and the right one is not; so `a < b` and
`b < a` never both hold when one of the handles is null; and `operator==`
holds exactly when the handles share their record. -/
theorem operator_lt_irreflexive_null_first (heap : RegId → ServiceRegistrationBasePrivate)
    (a b : ServiceRegistrationBase) :
    (a.d = b.d → a.lt heap b = false)
      ∧ a.lt heap a = false
      ∧ (b.d = none → a.lt heap b = false)
      ∧ (a.d = none → b.d ≠ none → a.lt heap b = true)
      ∧ ((a.d = none ∨ b.d = none) → ¬ (a.lt heap b = true ∧ b.lt heap a = true))
      ∧ (a.eq b = true ↔ a.d = b.d) := by
  obtain ⟨ad⟩ := a
  obtain ⟨bd⟩ := b
  refine ⟨?_, ?_, ?_, ?_, ?_, ?_⟩
  · intro h
    simp only at h
    simp [ServiceRegistrationBase.lt, h]
  · simp [ServiceRegistrationBase.lt]
  · intro h
    simp only at h
    subst h
    simp [ServiceRegistrationBase.lt]
  · intro ha hb
    simp only at ha hb
    subst ha
    cases bd with
    | none => exact absurd rfl hb
    | some x => simp [ServiceRegistrationBase.lt]
  · intro h
    simp only at h
    rcases h with h | h
    · subst h
      simp [ServiceRegistrationBase.lt]
    · subst h
      simp [ServiceRegistrationBase.lt]
  · simp [ServiceRegistrationBase.eq]

/-! ## GetReference -/

theorem winnerDispatched_of_bundle_gone (w : World) (d : RegId) (hb : w.lockBundle d = none) :
    winnerDispatched w d = latched w d := by
  unfold winnerDispatched
  rw [latched_lockBundle, hb]

theorem ungetAndFinish_of_bundle_gone (w : World) (d : RegId) (service : InterfaceMap)
    (hb : w.lockBundle d = none) (hsvc : (w.heap d).service = some service) :
    ungetAndFinish d w = (Outcome.returned, finishUnregister d (madeUnavailable w d)) := by
  unfold ungetAndFinish
  simp only [madeUnavailable_service, hsvc, factoryOf, madeUnavailable_lockBundle, hb,
    Option.isSome_none, Bool.false_and, Bool.false_eq_true, if_false]

/-- C27 (amended): for an available registration whose latch is not set, whose
interface map is present and whose owning bundle is gone, `Unregister` returns
and makes no call at all: no removal from the registry, no `UNREGISTERING`
delivery and no factory `UngetService`, whatever the caches hold.  The
registry is what it was, and the record of the registration is cleared: the
available flag is false, both instance caches are empty, the reference is null
and the latch is false again. -/
theorem Unregister_bundle_gone_clears_without_calls (d : RegId) (w : World)
    (service : InterfaceMap)
    (hav : (w.heap d).available = true)
    (hl : (w.heap d).unregistering = false)
    (hb : w.lockBundle d = none)
    (hsvc : (w.heap d).service = some service) :
    ((ServiceRegistrationBase.mk (some d)).Unregister w).1 = Outcome.returned
      ∧ callsSince w ((ServiceRegistrationBase.mk (some d)).Unregister w).2 = []
      ∧ ((ServiceRegistrationBase.mk (some d)).Unregister w).2.coreCtx.services
          = w.coreCtx.services
      ∧ ((ServiceRegistrationBase.mk (some d)).Unregister w).2.heap d
          = unregisteredRecord (w.heap d)
      ∧ (((ServiceRegistrationBase.mk (some d)).Unregister w).2.heap d).available = false
      ∧ (((ServiceRegistrationBase.mk (some d)).Unregister w).2.heap d).prototypeServiceInstances
          = []
      ∧ (((ServiceRegistrationBase.mk (some d)).Unregister w).2.heap d).bundleServiceInstance = []
      ∧ (((ServiceRegistrationBase.mk (some d)).Unregister w).2.heap d).reference
          = ServiceReferenceBase.null
      ∧ (((ServiceRegistrationBase.mk (some d)).Unregister w).2.heap d).unregistering = false := by
  have hsvc2 : ((latched w d).heap d).service = some service := by
    simp [latched, hsvc]
  have he : (ServiceRegistrationBase.mk (some d)).Unregister w
      = (Outcome.returned, finishUnregister d (madeUnavailable (latched w d) d)) := by
    rw [Unregister_winning d w hav hl, winnerDispatched_of_bundle_gone w d hb]
    exact ungetAndFinish_of_bundle_gone (latched w d) d service
      (by rw [latched_lockBundle]; exact hb) hsvc2
  have hrec : (finishUnregister d (madeUnavailable (latched w d) d)).heap d
      = unregisteredRecord (w.heap d) := by
    simp [finishUnregister, madeUnavailable, latched, unregisteredRecord]
  rw [he]
  refine ⟨rfl, ?_, rfl, hrec, ?_, ?_, ?_, ?_, ?_⟩
  · exact callsSince_of_trace w _ [] (by simp [finishUnregister, madeUnavailable, latched])
  all_goals simp only [hrec, unregisteredRecord]

/-- Witness of C27 (amended): registration 1 of the concrete framework after
every bundle has been destroyed; five instances are cached and none is
ungotten. -/
theorem Unregister_bundle_gone_clears_without_calls_witness :
    (Example.worldBundleGone.heap 1).available = true
      ∧ (Example.worldBundleGone.heap 1).unregistering = false
      ∧ Example.worldBundleGone.lockBundle 1 = none
      ∧ cachedInstances (Example.worldBundleGone.heap 1)
          = [(2, 11), (2, 12), (3, 14), (2, 10), (3, 13)]
      ∧ callsSince Example.worldBundleGone
          (Example.handle.Unregister Example.worldBundleGone).2 = []
      ∧ ((Example.handle.Unregister Example.worldBundleGone).2.heap 1).available = false :=
  ⟨rfl, rfl, by decide, by decide,
    (Unregister_bundle_gone_clears_without_calls 1 Example.worldBundleGone
      [("Foo", some 7), ("org.cppmicroservices.factory", some 7)] rfl rfl (by decide) rfl).2.1,
    (Unregister_bundle_gone_clears_without_calls 1 Example.worldBundleGone
      [("Foo", some 7), ("org.cppmicroservices.factory", some 7)] rfl rfl (by decide)
      rfl).2.2.2.2.1⟩

/-- Counterexample to C27 as stated: registration 1 of the concrete framework
is available and its owning bundle is gone, but its latch is set (an
`Unregister` is in flight); `Unregister` returns and sets nothing: the
registration is still available, both caches are still filled, the reference
still refers to the registration and the latch is still set. -/
theorem Unregister_bundle_gone_in_flight_clears_nothing :
    (Example.worldInFlightBundleGone.heap 1).available = true
      ∧ Example.worldInFlightBundleGone.lockBundle 1 = none
      ∧ (Example.handle.Unregister Example.worldInFlightBundleGone).1 = Outcome.returned
      ∧ ((Example.handle.Unregister Example.worldInFlightBundleGone).2.heap 1).available = true
      ∧ ((Example.handle.Unregister Example.worldInFlightBundleGone).2.heap 1).bundleServiceInstance
          = [(2, 10), (3, 13)]
      ∧ ((Example.handle.Unregister
            Example.worldInFlightBundleGone).2.heap 1).prototypeServiceInstances
          = [(2, [11, 12]), (3, [14])]
      ∧ ((Example.handle.Unregister Example.worldInFlightBundleGone).2.heap 1).reference
          = { registration := some 1, interfaceId := "" }
      ∧ ((Example.handle.Unregister Example.worldInFlightBundleGone).2.heap 1).unregistering
          = true := by
  decide

namespace sample

/-! ## ServiceComponentCA7 -/

/-- A sequence of `Modified` calls with non-null configurations returns and
leaves the last configuration in the component. -/
theorem ModifiedAll_of_configurations (this : ServiceComponentCA7)
    (calls : List (Option ComponentContext × AnyMap)) :
    this.ModifiedAll (calls.map (fun c => (c.1, some c.2)))
      = (Outcome.returned,
          { properties := ((calls.getLast?).map Prod.snd).getD this.properties }) := by
  induction calls generalizing this with
  | nil => rfl
  | cons c rest ih =>
    have hstep : this.ModifiedAll ((c :: rest).map (fun c => (c.1, some c.2)))
        = ServiceComponentCA7.ModifiedAll { this with properties := c.2 }
            (rest.map (fun c => (c.1, some c.2))) := rfl
    rw [hstep, ih]
    cases rest with
    | nil => rfl
    | cons c2 rest2 =>
      rw [List.getLast?_cons_cons, List.getLast?_eq_getLast (c2 :: rest2) (List.cons_ne_nil _ _)]
      rfl

/-- C30: for a component constructed from the property map `p0` and every
sequence of `Modified` calls with configurations `c1, ..., cn`, every call
returns and `GetProperties` then returns `p0` when the sequence is empty and
the last configuration `cn` otherwise, whatever the contexts passed and
whatever the earlier configurations. -/
theorem GetProperties_returns_latest_configuration (p0 : AnyMap)
    (calls : List (Option ComponentContext × AnyMap)) :
    ∃ component, ServiceComponentCA7.new (some p0) = some component
      ∧ (component.ModifiedAll []).2.GetProperties = p0
      ∧ (component.ModifiedAll (calls.map (fun c => (c.1, some c.2)))).1 = Outcome.returned
      ∧ (component.ModifiedAll (calls.map (fun c => (c.1, some c.2)))).2.GetProperties
          = ((calls.getLast?).map Prod.snd).getD p0
      ∧ ∀ (context : Option ComponentContext) (cn : AnyMap),
          (component.ModifiedAll
            ((calls ++ [(context, cn)]).map (fun c => (c.1, some c.2)))).2.GetProperties = cn := by
  refine ⟨{ properties := p0 }, rfl, rfl, ?_, ?_, ?_⟩
  · rw [ModifiedAll_of_configurations]
  · rw [ModifiedAll_of_configurations]
    rfl
  · intro context cn
    rw [ModifiedAll_of_configurations]
    simp [ServiceComponentCA7.GetProperties]

/-- An example: a component constructed with `foo = bar` and modified twice
returns the second configuration. -/
theorem GetProperties_after_two_updates :
    (ServiceComponentCA7.ModifiedAll { properties := [("foo", Any.string "bar")] }
        [(some 1, some [("foo", Any.string "baz")]),
          (none, some [("foo", Any.string "qux"), ("n", Any.int 2)])]).2.GetProperties
      = [("foo", Any.string "qux"), ("n", Any.int 2)] := by
  decide

end sample

namespace scrimpl

namespace metadata

/-! ## MetadataParserFactory -/

theorem Create_version_one (logger : Option Nat) :
    MetadataParserFactory.Create 1 logger = Except.ok { version := 1, logger := logger } := rfl

/-- C25: for every manifest version other than 1, `Create` fails with a
parser error, a `std::runtime_error`, and returns no parser. -/
theorem Create_rejects_other_versions (version : Int) (logger : Option Nat)
    (h : version ≠ 1) :
    (∃ what, MetadataParserFactory.Create version logger
        = Except.error (ParserError.runtime_error what))
      ∧ ∀ parser, MetadataParserFactory.Create version logger ≠ Except.ok parser := by
  have he : MetadataParserFactory.Create version logger
      = Except.error (ParserError.runtime_error "Unsupported manifest file version") := by
    simp [MetadataParserFactory.Create, h]
  rw [he]
  exact ⟨⟨_, rfl⟩, fun parser hp => by cases hp⟩

/-- Witness of C25: the versions 0 and 2 of `ManifestVersionInvalid`. -/
theorem Create_rejects_other_versions_witness :
    ((0 : Int) ≠ 1 ∧ ∀ parser, MetadataParserFactory.Create 0 (some 3) ≠ Except.ok parser)
      ∧ ((2 : Int) ≠ 1 ∧ ∀ parser, MetadataParserFactory.Create 2 (some 3) ≠ Except.ok parser) :=
  ⟨⟨by decide, (Create_rejects_other_versions 0 (some 3) (by decide)).2⟩,
    ⟨by decide, (Create_rejects_other_versions 2 (some 3) (by decide)).2⟩⟩

end metadata

end scrimpl

namespace scrimpl

/-! ## SCRAsyncWorkService -/

/-- The scenario of `TestFallbackUsedAfterUnregister`: with the mock executor
registered, a post hands it the task; after its `Unregister` the next post
hands it nothing and the fallback runs the task. -/
theorem post_after_Unregister_uses_fallback :
    ((SCRAsyncWorkService.mk []).post Example.worldWithExecutor 1).log
        = [PostEffect.userPost 1 1]
      ∧ ((ServiceRegistrationBase.mk (some 1)).Unregister Example.worldWithExecutor).1
          = Outcome.returned
      ∧ (((SCRAsyncWorkService.mk []).post Example.worldWithExecutor 1).post
          ((ServiceRegistrationBase.mk (some 1)).Unregister Example.worldWithExecutor).2 2).log
        = [PostEffect.userPost 1 1, PostEffect.fallbackRun 2] := by
  decide

end scrimpl

/-! ## Bundle validation -/

@[simp]
theorem Framework.update_bundles_self (fw : Framework) (b : BundleId) (r : BundleRecord) :
    (fw.update b r).bundles b = r := by
  simp [Framework.update]

@[simp]
theorem Framework.update_validationFunc (fw : Framework) (b : BundleId) (r : BundleRecord) :
    (fw.update b r).validationFunc = fw.validationFunc := rfl

@[simp]
theorem Framework.update_events (fw : Framework) (b : BundleId) (r : BundleRecord) :
    (fw.update b r).events = fw.events := rfl

theorem Framework.update_update (fw : Framework) (b : BundleId) (r r2 : BundleRecord) :
    (fw.update b r).update b r2 = fw.update b r2 := by
  have h : (fun x => if x = b then r2 else if x = b then r else fw.bundles x)
      = fun x => if x = b then r2 else fw.bundles x := by
    funext x
    by_cases hx : x = b <;> simp [hx]
  simp only [Framework.update, h]

theorem validate_accepts (fw : Framework) (b : BundleId)
    (validationFunc : BundleId → ValidationResult)
    (hfun : fw.validationFunc = some validationFunc)
    (h : validationFunc b = ValidationResult.accepts) :
    fw.validate b = (Except.ok (), fw) := by
  simp [Framework.validate, hfun, h]

theorem validate_rejects (fw : Framework) (b : BundleId)
    (validationFunc : BundleId → ValidationResult)
    (hfun : fw.validationFunc = some validationFunc)
    (h : validationFunc b = ValidationResult.rejects) :
    fw.validate b = (Except.error ⟨"bundle validation failed"⟩, fw) := by
  simp [Framework.validate, hfun, h]

theorem validate_throws (fw : Framework) (b : BundleId)
    (validationFunc : BundleId → ValidationResult) (what : String)
    (hfun : fw.validationFunc = some validationFunc)
    (h : validationFunc b = ValidationResult.throws what) :
    fw.validate b
      = (Except.error ⟨what⟩,
          { fw with events := fw.events ++
            [⟨FrameworkEventType.FRAMEWORK_ERROR, b, "bundle validation threw",
              ⟨what, ServiceExceptionType.UNSPECIFIED⟩⟩] }) := by
  simp [Framework.validate, hfun, h]

/-- The activation of a component whose library is not loaded, when the
predicate accepts the bundle. -/
theorem activate_accepts (fw : Framework) (b : BundleId)
    (validationFunc : BundleId → ValidationResult)
    (hfun : fw.validationFunc = some validationFunc)
    (h : validationFunc b = ValidationResult.accepts)
    (hloaded : (fw.bundles b).loaded = false) :
    fw.activate b
      = (Except.ok (), fw.update b { fw.bundles b with loaded := true, active := true }) := by
  simp only [Framework.activate, Framework.loadSharedLibrary, hloaded, Bool.false_eq_true,
    if_false, validate_accepts fw b validationFunc hfun h, Framework.update_bundles_self,
    Framework.update_update]

/-- The activation of a component whose library is not loaded, when the
predicate rejects the bundle. -/
theorem activate_rejects (fw : Framework) (b : BundleId)
    (validationFunc : BundleId → ValidationResult)
    (hfun : fw.validationFunc = some validationFunc)
    (h : validationFunc b = ValidationResult.rejects)
    (hloaded : (fw.bundles b).loaded = false) :
    fw.activate b = (Except.error ⟨"bundle validation failed"⟩, fw) := by
  simp only [Framework.activate, Framework.loadSharedLibrary, hloaded, Bool.false_eq_true,
    if_false, validate_rejects fw b validationFunc hfun h]

/-- The activation of a component whose library is not loaded, when the
predicate throws for the bundle. -/
theorem activate_throws (fw : Framework) (b : BundleId)
    (validationFunc : BundleId → ValidationResult) (what : String)
    (hfun : fw.validationFunc = some validationFunc)
    (h : validationFunc b = ValidationResult.throws what)
    (hloaded : (fw.bundles b).loaded = false) :
    fw.activate b
      = (Except.error ⟨what⟩,
          { fw with events := fw.events ++
            [⟨FrameworkEventType.FRAMEWORK_ERROR, b, "bundle validation threw",
              ⟨what, ServiceExceptionType.UNSPECIFIED⟩⟩] }) := by
  simp only [Framework.activate, Framework.loadSharedLibrary, hloaded, Bool.false_eq_true,
    if_false, validate_throws fw b validationFunc what hfun h]

/-- C22 (amended): for a bundle that is not started and not loaded, whose
component is immediate, enabled and satisfied, `Start` returns and leaves the
bundle in `ACTIVE`, loaded, when the predicate returns true for it, and fails
with `SecurityException` and leaves the bundle in `RESOLVED`, not loaded, when
the predicate returns false for it. -/
theorem Start_of_satisfied_immediate_is_gated (fw : Framework) (b : BundleId)
    (validationFunc : BundleId → ValidationResult)
    (hfun : fw.validationFunc = some validationFunc)
    (hstate : (fw.bundles b).state ≠ Bundle.State.STATE_ACTIVE)
    (hloaded : (fw.bundles b).loaded = false)
    (himm : (fw.bundles b).immediate = true)
    (hen : (fw.bundles b).enabled = true)
    (hsat : (fw.bundles b).satisfied = true) :
    (validationFunc b = ValidationResult.accepts →
        (fw.Start b).1 = Except.ok ()
          ∧ ((fw.Start b).2.bundles b).state = Bundle.State.STATE_ACTIVE
          ∧ ((fw.Start b).2.bundles b).loaded = true)
      ∧ (validationFunc b = ValidationResult.rejects →
          isSecurityError (fw.Start b).1 = true
            ∧ ((fw.Start b).2.bundles b).state = Bundle.State.STATE_RESOLVED
            ∧ ((fw.Start b).2.bundles b).loaded = false) := by
  constructor
  · intro h
    simp [Framework.Start, hstate, himm, hen, hsat,
      activate_accepts fw b validationFunc hfun h hloaded]
  · intro h
    simp [Framework.Start, hstate, himm, hen, hsat,
      activate_rejects fw b validationFunc hfun h hloaded, isSecurityError, hloaded]

/-- Witness of C22 (amended): bundle 1 of the tests, accepted in the framework
of `BundleValidationSuccess` and rejected in the one of
`BundleValidationFailure`. -/
theorem Start_of_satisfied_immediate_is_gated_witness :
    ((Example.frameworkAccepting.Start 1).2.bundles 1).state = Bundle.State.STATE_ACTIVE
      ∧ isSecurityError (Example.frameworkRejecting.Start 1).1 = true
      ∧ ((Example.frameworkRejecting.Start 1).2.bundles 1).state
          = Bundle.State.STATE_RESOLVED :=
  ⟨((Start_of_satisfied_immediate_is_gated Example.frameworkAccepting 1
        (fun _ => ValidationResult.accepts) rfl (by decide) rfl rfl rfl rfl).1 rfl).2.1,
    ((Start_of_satisfied_immediate_is_gated Example.frameworkRejecting 1 Example.rejectingFunc
        rfl (by decide) rfl rfl rfl rfl).2 rfl).1,
    ((Start_of_satisfied_immediate_is_gated Example.frameworkRejecting 1 Example.rejectingFunc
        rfl (by decide) rfl rfl rfl rfl).2 rfl).2.1⟩

/-- Counterexample to C22 as stated: bundle 7 of `BundleValidationFailure` has
an immediate component and the predicate returns false for it, but the
reference of the component is unsatisfied when the bundle is started; `Start`
returns and leaves the bundle in `ACTIVE`. -/
theorem Start_of_unsatisfied_immediate_succeeds :
    (Example.frameworkRejecting.bundles 7).immediate = true
      ∧ Example.rejectingFunc 7 = ValidationResult.rejects
      ∧ (Example.frameworkRejecting.bundles 7).state = Bundle.State.STATE_RESOLVED
      ∧ isSecurityError (Example.frameworkRejecting.Start 7).1 = false
      ∧ ((Example.frameworkRejecting.Start 7).2.bundles 7).state
          = Bundle.State.STATE_ACTIVE := by
  decide

/-- A `GetService` on the published service of a component that is not
active, in a bundle that is not loaded and that the predicate rejects, fails
with `SecurityException` and leaves the component disabled. -/
theorem GetService_rejects (fw : Framework) (b : BundleId)
    (validationFunc : BundleId → ValidationResult)
    (hfun : fw.validationFunc = some validationFunc)
    (hrej : validationFunc b = ValidationResult.rejects)
    (hpub : fw.published b = true)
    (hloaded : (fw.bundles b).loaded = false)
    (hact : (fw.bundles b).active = false) :
    fw.GetService b
      = (Except.error ⟨"bundle validation failed"⟩,
          fw.update b { fw.bundles b with enabled := false }) := by
  simp [Framework.GetService, hpub, hact,
    activate_rejects fw b validationFunc hfun hrej hloaded]

/-- C23: for a bundle that is not started, not loaded and rejected by the
predicate, whose component is delayed, enabled and not active: `Start`
returns; once the references of the component are satisfied its service is
published, `GetService` fails with `SecurityException` and the component is
disabled afterwards; `EnableComponent` then completes without error and the
service is published again; the next `GetService` fails with
`SecurityException` again and leaves the component disabled again.  And in
every state of the framework in which the service is published and the
component not active, `GetService` fails in that way. -/
theorem GetService_of_delayed_is_gated (fw : Framework) (b : BundleId)
    (validationFunc : BundleId → ValidationResult)
    (hfun : fw.validationFunc = some validationFunc)
    (hrej : validationFunc b = ValidationResult.rejects)
    (hstate : (fw.bundles b).state ≠ Bundle.State.STATE_ACTIVE)
    (hloaded : (fw.bundles b).loaded = false)
    (hdel : (fw.bundles b).immediate = false)
    (hen : (fw.bundles b).enabled = true)
    (hact : (fw.bundles b).active = false) :
    (fw.Start b).1 = Except.ok ()
      ∧ (fw.startedAndSatisfied b).published b = true
      ∧ isSecurityError ((fw.startedAndSatisfied b).GetService b).1 = true
      ∧ ((fw.startedAndSatisfied b).GetService b).2.IsComponentEnabled b = false
      ∧ (((fw.startedAndSatisfied b).GetService b).2.EnableComponent b).1 = Except.ok ()
      ∧ ((fw.startedAndSatisfied b).reenabled b).published b = true
      ∧ isSecurityError (((fw.startedAndSatisfied b).reenabled b).GetService b).1 = true
      ∧ (((fw.startedAndSatisfied b).reenabled b).GetService b).2.IsComponentEnabled b = false
      ∧ (∀ fw2 : Framework, fw2.validationFunc = some validationFunc →
          fw2.published b = true → (fw2.bundles b).loaded = false →
          (fw2.bundles b).active = false →
          isSecurityError (fw2.GetService b).1 = true
            ∧ (fw2.GetService b).2.IsComponentEnabled b = false) := by
  have hgen : ∀ fw2 : Framework, fw2.validationFunc = some validationFunc →
      fw2.published b = true → (fw2.bundles b).loaded = false →
      (fw2.bundles b).active = false →
      isSecurityError (fw2.GetService b).1 = true
        ∧ (fw2.GetService b).2.IsComponentEnabled b = false := by
    intro fw2 h1 h2 h3 h4
    rw [GetService_rejects fw2 b validationFunc h1 hrej h2 h3 h4]
    simp [isSecurityError, Framework.IsComponentEnabled]
  have hstart : fw.Start b
      = (Except.ok (), fw.update b { fw.bundles b with state := Bundle.State.STATE_ACTIVE }) := by
    simp [Framework.Start, hstate, hdel]
  have hsas : fw.startedAndSatisfied b
      = (fw.update b { fw.bundles b with state := Bundle.State.STATE_ACTIVE }).update b
          { fw.bundles b with state := Bundle.State.STATE_ACTIVE, satisfied := true } := by
    simp [Framework.startedAndSatisfied, hstart, Framework.ReferencesSatisfied, hdel]
  have hsas_fun : (fw.startedAndSatisfied b).validationFunc = some validationFunc := by
    rw [hsas]
    simpa using hfun
  have hsas_rec : (fw.startedAndSatisfied b).bundles b
      = { fw.bundles b with state := Bundle.State.STATE_ACTIVE, satisfied := true } := by
    rw [hsas]
    simp
  have hsas_pub : (fw.startedAndSatisfied b).published b = true := by
    simp [Framework.published, hsas_rec, hen]
  have hget := GetService_rejects (fw.startedAndSatisfied b) b validationFunc hsas_fun hrej
    hsas_pub (by rw [hsas_rec]; exact hloaded) (by rw [hsas_rec]; exact hact)
  have hre : (fw.startedAndSatisfied b).reenabled b
      = (((fw.startedAndSatisfied b).update b
            { (fw.startedAndSatisfied b).bundles b with enabled := false }).update b
          { (fw.startedAndSatisfied b).bundles b with enabled := true }) := by
    simp [Framework.reenabled, hget, Framework.EnableComponent, hsas_rec, hdel]
  have hre_fun : ((fw.startedAndSatisfied b).reenabled b).validationFunc
      = some validationFunc := by
    rw [hre]
    simpa using hsas_fun
  have hre_rec : ((fw.startedAndSatisfied b).reenabled b).bundles b
      = { (fw.startedAndSatisfied b).bundles b with enabled := true } := by
    rw [hre]
    simp
  have hre_pub : ((fw.startedAndSatisfied b).reenabled b).published b = true := by
    simp [Framework.published, hre_rec, hsas_rec]
  refine ⟨by rw [hstart], hsas_pub, ?_, ?_, ?_, hre_pub, ?_, ?_, hgen⟩
  · exact (hgen _ hsas_fun hsas_pub (by rw [hsas_rec]; exact hloaded)
      (by rw [hsas_rec]; exact hact)).1
  · exact (hgen _ hsas_fun hsas_pub (by rw [hsas_rec]; exact hloaded)
      (by rw [hsas_rec]; exact hact)).2
  · simp [hget, Framework.EnableComponent, hsas_rec, hdel]
  · exact (hgen _ hre_fun hre_pub (by rw [hre_rec, hsas_rec]; exact hloaded)
      (by rw [hre_rec, hsas_rec]; exact hact)).1
  · exact (hgen _ hre_fun hre_pub (by rw [hre_rec, hsas_rec]; exact hloaded)
      (by rw [hre_rec, hsas_rec]; exact hact)).2

/-- Witness of C23: bundle 6 of `BundleValidationFailure`. -/
theorem GetService_of_delayed_is_gated_witness :
    Example.rejectingFunc 6 = ValidationResult.rejects
      ∧ (Example.frameworkRejecting.bundles 6).immediate = false
      ∧ isSecurityError ((Example.frameworkRejecting.startedAndSatisfied 6).GetService 6).1
          = true
      ∧ ((Example.frameworkRejecting.startedAndSatisfied 6).GetService 6).2.IsComponentEnabled 6
          = false :=
  ⟨rfl, rfl,
    (GetService_of_delayed_is_gated Example.frameworkRejecting 6 Example.rejectingFunc rfl rfl
      (by decide) rfl rfl rfl rfl).2.2.1,
    (GetService_of_delayed_is_gated Example.frameworkRejecting 6 Example.rejectingFunc rfl rfl
      (by decide) rfl rfl rfl rfl).2.2.2.1⟩

/-- C24 (amended): for a bundle that is not loaded and for which the predicate
throws, whose component is not active: when the bundle is not started and the
component is immediate, enabled and satisfied, `Start` fails with
`SecurityException` and leaves the bundle in `RESOLVED`; when the service of
the component is published, `GetService` fails with `SecurityException`; and
in both cases one framework event is delivered, a `FRAMEWORK_ERROR` whose
bundle is that bundle. -/
theorem throwing_validation_is_reported_and_rejected (fw : Framework) (b : BundleId)
    (validationFunc : BundleId → ValidationResult) (what : String)
    (hfun : fw.validationFunc = some validationFunc)
    (hthrow : validationFunc b = ValidationResult.throws what)
    (hloaded : (fw.bundles b).loaded = false)
    (hact : (fw.bundles b).active = false) :
    ((fw.bundles b).state ≠ Bundle.State.STATE_ACTIVE → (fw.bundles b).immediate = true →
        (fw.bundles b).enabled = true → (fw.bundles b).satisfied = true →
        isSecurityError (fw.Start b).1 = true
          ∧ ((fw.Start b).2.bundles b).state = Bundle.State.STATE_RESOLVED
          ∧ ∃ evt, (fw.Start b).2.events = fw.events ++ [evt]
              ∧ evt.isErrorOf b = true)
      ∧ (fw.published b = true →
          isSecurityError (fw.GetService b).1 = true
            ∧ ∃ evt, (fw.GetService b).2.events = fw.events ++ [evt]
                ∧ evt.isErrorOf b = true) := by
  constructor
  · intro hstate himm hen hsat
    simp [Framework.Start, hstate, himm, hen, hsat,
      activate_throws fw b validationFunc what hfun hthrow hloaded, isSecurityError,
      FrameworkEvent.isErrorOf]
  · intro hpub
    simp [Framework.GetService, hpub, hact,
      activate_throws fw b validationFunc what hfun hthrow hloaded, isSecurityError,
      FrameworkEvent.isErrorOf]

/-- Witness of C24 (amended): bundles 1 and 6 of
`BundleValidationFunctionException`. -/
theorem throwing_validation_is_reported_and_rejected_witness :
    Example.throwingFunc 1 = ValidationResult.throws "foobar"
      ∧ isSecurityError (Example.frameworkThrowing.Start 1).1 = true
      ∧ ((Example.frameworkThrowing.Start 1).2.bundles 1).state = Bundle.State.STATE_RESOLVED
      ∧ (Example.frameworkThrowing.startedAndSatisfied 6).published 6 = true
      ∧ isSecurityError ((Example.frameworkThrowing.startedAndSatisfied 6).GetService 6).1
          = true :=
  ⟨rfl,
    ((throwing_validation_is_reported_and_rejected Example.frameworkThrowing 1
      Example.throwingFunc "foobar" rfl rfl rfl rfl).1 (by decide) rfl rfl rfl).1,
    ((throwing_validation_is_reported_and_rejected Example.frameworkThrowing 1
      Example.throwingFunc "foobar" rfl rfl rfl rfl).1 (by decide) rfl rfl rfl).2.1,
    by decide,
    ((throwing_validation_is_reported_and_rejected
      (Example.frameworkThrowing.startedAndSatisfied 6) 6
      Example.throwingFunc "foobar" rfl rfl (by decide) (by decide)).2 (by decide)).1⟩

/-- Counterexample to C24 as stated: bundle 7 of the tests has an immediate
component and the predicate throws for it, but the reference of the component
is unsatisfied when the bundle is started; `Start` returns, leaves the bundle
in `ACTIVE` and no framework event is delivered. -/
theorem Start_of_unsatisfied_immediate_consults_nothing :
    (Example.frameworkThrowing.bundles 7).immediate = true
      ∧ Example.throwingFunc 7 = ValidationResult.throws "foobar"
      ∧ isSecurityError (Example.frameworkThrowing.Start 7).1 = false
      ∧ ((Example.frameworkThrowing.Start 7).2.bundles 7).state = Bundle.State.STATE_ACTIVE
      ∧ (Example.frameworkThrowing.Start 7).2.events = [] := by
  decide

/-! ## Unregister, as its callees observe it -/

theorem observedWith_append (a : Bool) (xs ys : List Effect) :
    observedWith a (xs ++ ys) = observedWith a xs ++ observedWith a ys := by
  simp [observedWith]

theorem map_call_observedWith (a : Bool) (xs : List Effect) :
    (observedWith a xs).map ObservedCall.call = xs := by
  simp [observedWith, Function.comp_def]

theorem factoryStep_refl (d : RegId) (o : Observed) :
    Observed.FactoryStep d o (Outcome.returned, o.world) (Outcome.returned, o) :=
  ⟨rfl, rfl, [], by simp [observedWith], by simp, by simp⟩

theorem andThenObserved_factoryStep (d : RegId) (o : Observed) (r : Outcome × World)
    (r2 : Outcome × Observed) (k : World → Outcome × World) (k2 : Observed → Outcome × Observed)
    (h1 : Observed.FactoryStep d o r r2)
    (h2 : ∀ x : Observed, Observed.FactoryStep d x (k x.world) (k2 x)) :
    Observed.FactoryStep d o (andThen r k) (andThenObserved r2 k2) := by
  obtain ⟨he, hh, p1, hl1, ht1, hq1⟩ := h1
  have h1o : r2.1 = r.1 := congrArg Prod.fst he
  have h1w : r2.2.world = r.2 := congrArg Prod.snd he
  unfold andThen andThenObserved
  rw [h1o]
  cases hr : r.1 with
  | returned =>
    simp only
    obtain ⟨he2, hh2, p2, hl2, ht2, hq2⟩ := h2 r2.2
    refine ⟨by rw [← h1w]; exact he2, hh2.trans hh, p1 ++ p2, ?_, ?_, ?_⟩
    · rw [hl2, hl1, hh, observedWith_append, List.append_assoc]
    · rw [ht2, ht1, List.append_assoc]
    · intro e hm
      rcases List.mem_append.mp hm with h | h
      · exact hq1 e h
      · exact hq2 e h
  | threw e =>
    simp only
    exact ⟨by rw [← he, h1o, hr], hh, p1, hl1, ht1, hq1⟩
  | nullDereference =>
    simp only
    exact ⟨by rw [← he, h1o, hr], hh, p1, hl1, ht1, hq1⟩

theorem ungetOneObserved_factoryStep (d : RegId) (f : Nat) (bundle : BundleId)
    (service : Instance) (o : Observed) :
    Observed.FactoryStep d o (ungetOne d f bundle service o.world)
      (ungetOneObserved d f bundle service o) := by
  unfold ungetOne ungetOneObserved
  simp only
  cases o.world.UngetService f bundle d service with
  | returns =>
    exact ⟨rfl, rfl, [_], rfl, rfl, by simp [Effect.isFactoryCall]⟩
  | throwsStd what =>
    simp only [Observed.emit, World.emit_heap]
    cases hb : (o.world.emit (Effect.UngetService f bundle d service)).lockBundle d with
    | none => exact ⟨rfl, rfl, [_], rfl, rfl, by simp [Effect.isFactoryCall]⟩
    | some b =>
      exact ⟨rfl, rfl,
        [Effect.UngetService f bundle d service,
          Effect.SendFrameworkEvent
            ⟨FrameworkEventType.FRAMEWORK_ERROR, b, ungetMessage,
              ⟨what, ServiceExceptionType.FACTORY_EXCEPTION⟩⟩],
        by simp [observedWith], by simp [SendFrameworkEvent], by simp [Effect.isFactoryCall]⟩
  | throwsOther =>
    exact ⟨rfl, rfl, [_], rfl, rfl, by simp [Effect.isFactoryCall]⟩

theorem ungetServicesObserved_factoryStep (d : RegId) (f : Nat) (bundle : BundleId)
    (l : List Instance) (o : Observed) :
    Observed.FactoryStep d o (ungetServices d f bundle l o.world)
      (ungetServicesObserved d f bundle l o) := by
  induction l generalizing o with
  | nil => exact factoryStep_refl d o
  | cons s rest ih =>
    unfold ungetServices ungetServicesObserved
    exact andThenObserved_factoryStep d o _ _ _ _ (ungetOneObserved_factoryStep d f bundle s o) ih

theorem ungetPrototypeServicesObserved_factoryStep (d : RegId) (f : Nat)
    (l : List (BundleId × List Instance)) (o : Observed) :
    Observed.FactoryStep d o (ungetPrototypeServices d f l o.world)
      (ungetPrototypeServicesObserved d f l o) := by
  induction l generalizing o with
  | nil => exact factoryStep_refl d o
  | cons i rest ih =>
    unfold ungetPrototypeServices ungetPrototypeServicesObserved
    exact andThenObserved_factoryStep d o _ _ _ _
      (ungetServicesObserved_factoryStep d f i.1 i.2 o) ih

theorem ungetBundleServicesObserved_factoryStep (d : RegId) (f : Nat)
    (l : List (BundleId × Instance)) (o : Observed) :
    Observed.FactoryStep d o (ungetBundleServices d f l o.world)
      (ungetBundleServicesObserved d f l o) := by
  induction l generalizing o with
  | nil => exact factoryStep_refl d o
  | cons i rest ih =>
    unfold ungetBundleServices ungetBundleServicesObserved
    exact andThenObserved_factoryStep d o _ _ _ _
      (ungetOneObserved_factoryStep d f i.1 i.2 o) ih

theorem logs_of_factoryStep (d : RegId) (o : Observed) (r : Outcome × World)
    (r2 : Outcome × Observed) (h : Observed.FactoryStep d o r r2) :
    Observed.Logs (o.world.heap d).available o r r2 :=
  ⟨h.1, h.2.2⟩

/-- Two steps in sequence, the second one taken from where the first one ends. -/
theorem andThenObserved_logs (a : Bool) (o : Observed) (r : Outcome × World)
    (r2 : Outcome × Observed) (k : World → Outcome × World) (k2 : Observed → Outcome × Observed)
    (h1 : Observed.Logs a o r r2)
    (h2 : Observed.Logs a r2.2 (k r2.2.world) (k2 r2.2)) :
    Observed.Logs a o (andThen r k) (andThenObserved r2 k2) := by
  obtain ⟨he, p1, hl1, ht1, hq1⟩ := h1
  have h1o : r2.1 = r.1 := congrArg Prod.fst he
  have h1w : r2.2.world = r.2 := congrArg Prod.snd he
  unfold andThen andThenObserved
  rw [h1o]
  cases hr : r.1 with
  | returned =>
    simp only
    obtain ⟨he2, p2, hl2, ht2, hq2⟩ := h2
    refine ⟨by rw [← h1w]; exact he2, p1 ++ p2, ?_, ?_, ?_⟩
    · rw [hl2, hl1, observedWith_append, List.append_assoc]
    · rw [ht2, ht1, List.append_assoc]
    · intro e hm
      rcases List.mem_append.mp hm with h | h
      · exact hq1 e h
      · exact hq2 e h
  | threw e =>
    simp only
    exact ⟨by rw [← he, h1o, hr], p1, hl1, ht1, hq1⟩
  | nullDereference =>
    simp only
    exact ⟨by rw [← he, h1o, hr], p1, hl1, ht1, hq1⟩

theorem finishUnregisterObserved_world (d : RegId) (o : Observed) :
    (finishUnregisterObserved d o).world = finishUnregister d o.world := rfl

theorem finishUnregisterObserved_log (d : RegId) (o : Observed) :
    (finishUnregisterObserved d o).log = o.log := rfl

/-- Lines 242-329 with the log: they run as without it, and every call they
make is a factory call that finds the flag `available` false. -/
theorem ungetAndFinishObserved_logs (d : RegId) (o : Observed) :
    Observed.Logs false o (ungetAndFinish d o.world) (ungetAndFinishObserved d o) := by
  have hfin : ∀ x : Observed, Observed.Logs false x (Outcome.returned, finishUnregister d x.world)
      (Outcome.returned, finishUnregisterObserved d x) := by
    intro x
    exact ⟨rfl, [], by simp [observedWith, finishUnregisterObserved_log],
      by simp [finishUnregisterObserved_world, finishUnregister], by simp⟩
  have hlift : ∀ (a b : Observed) (r : Outcome × World) (r2 : Outcome × Observed),
      a.world = b.world → a.log = b.log → Observed.Logs false a r r2 →
      Observed.Logs false b r r2 := by
    intro a b r r2 hw hlg h
    obtain ⟨he, p, hl, ht, hq⟩ := h
    exact ⟨he, p, by rw [← hlg]; exact hl, by rw [← hw]; exact ht, hq⟩
  have hav : ∀ x : Observed, x.world.heap = (madeUnavailable o.world d).heap →
      (x.world.heap d).available = false := by
    intro x hx
    rw [hx]
    simp [madeUnavailable]
  have hstep : Observed.Logs false (o.store d { o.world.heap d with available := false })
      (ungetAndFinish d o.world) (ungetAndFinishObserved d o) := by
    unfold ungetAndFinish ungetAndFinishObserved
    simp only
    have hw1 : (o.store d { o.world.heap d with available := false }).world
        = madeUnavailable o.world d := rfl
    rw [hw1]
    cases (madeUnavailable o.world d).heap d |>.service with
    | none => exact ⟨rfl, [], by simp [observedWith], by simp [hw1], by simp⟩
    | some service =>
      simp only
      cases factoryOf (madeUnavailable o.world d) d service with
      | none =>
        simp only
        have := hfin (o.store d { o.world.heap d with available := false })
        rw [hw1] at this
        exact this
      | some f =>
        simp only
        have s1 := ungetPrototypeServicesObserved_factoryStep d f
          ((madeUnavailable o.world d).heap d).prototypeServiceInstances
          (o.store d { o.world.heap d with available := false })
        have l1 := logs_of_factoryStep d _ _ _ s1
        rw [hav _ (by rw [hw1])] at l1
        rw [hw1] at l1
        refine andThenObserved_logs false _ _ _ _ _ l1 ?_
        have s2 := ungetBundleServicesObserved_factoryStep d f
          ((madeUnavailable o.world d).heap d).bundleServiceInstance
          (ungetPrototypeServicesObserved d f
            ((madeUnavailable o.world d).heap d).prototypeServiceInstances
            (o.store d { o.world.heap d with available := false })).2
        have l2 := logs_of_factoryStep d _ _ _ s2
        rw [hav _ (by rw [s1.2.1, hw1])] at l2
        refine andThenObserved_logs false _ _ _ _ _ l2 ?_
        exact hfin _
  exact hlift _ _ _ _ rfl rfl hstep

theorem Observed.eq_mk (o : Observed) (w : World) (l : List ObservedCall)
    (hw : o.world = w) (hl : o.log = l) : o = { world := w, log := l } := by
  cases o
  simp only at hw hl
  rw [hw, hl]

/-- With the log, a winning `Unregister` reaches line 242 in the world
`winnerDispatched`, having entered the calls `winnerCalls` in the log, each
with the flag `available` true. -/
theorem UnregisterObserved_winning (d : RegId) (w : World)
    (hav : (w.heap d).available = true)
    (hl : (w.heap d).unregistering = false) :
    (ServiceRegistrationBase.mk (some d)).UnregisterObserved w
      = ungetAndFinishObserved d
          { world := winnerDispatched w d, log := observedWith true (winnerCalls w d) } := by
  have hlk0 : (latched w d).lockBundle d = w.lockBundle d := latched_lockBundle w d d
  have ha : ((latched w d).heap d).available = true := by simp [latched, hav]
  unfold ServiceRegistrationBase.UnregisterObserved
  simp only
  rw [if_neg (by simp [hav])]
  simp only [hl, atomic_compare_exchange_strong, if_true, Bool.false_eq_true, if_false]
  congr 1
  apply Observed.eq_mk
  · unfold winnerDispatched
    cases hlk : (latched w d).lockBundle d with
    | none =>
      have hlk2 : (w.store d { w.heap d with unregistering := true }).lockBundle d = none := hlk
      simp [hlk2, latched, Observed.store]
    | some b =>
      have hlk2 : (w.store d { w.heap d with unregistering := true }).lockBundle d = some b := hlk
      simp only [Observed.store, hlk2]
      rfl
  · unfold winnerCalls
    rw [← hlk0]
    cases hlk : (latched w d).lockBundle d with
    | none =>
      have hlk2 : (w.store d { w.heap d with unregistering := true }).lockBundle d = none := hlk
      simp [hlk2, Observed.store, observedWith]
    | some b =>
      have hlk2 : (w.store d { w.heap d with unregistering := true }).lockBundle d = some b := hlk
      have he : unregisteringEventOf (removedFromRegistry (latched w d) d) d
          = unregisteringEventOf w d := by
        simp [unregisteringEventOf, removedFromRegistry, latched]
      have hg : GetMatchingServiceListeners (removedFromRegistry (latched w d) d)
          (unregisteringEventOf w d) = GetMatchingServiceListeners w (unregisteringEventOf w d) :=
        GetMatchingServiceListeners_congr w _ _ (fun r => latched_properties w d r) rfl
      simp only [Observed.store, hlk2]
      show ([] ++ [ObservedCall.mk (Effect.RemoveServiceRegistration d)
              ((latched w d).heap d).available])
            ++ (GetMatchingServiceListeners (removedFromRegistry (latched w d) d)
                (unregisteringEventOf (removedFromRegistry (latched w d) d) d)).map
              (fun l => ObservedCall.mk
                (Effect.CallDelegate l (unregisteringEventOf (removedFromRegistry (latched w d) d) d))
                ((latched w d).heap d).available)
          = _
      rw [he, hg, ha]
      simp [observedWith]

theorem UnregisterObserved_unavailable (d : RegId) (w : World)
    (h : (w.heap d).available = false) :
    (ServiceRegistrationBase.mk (some d)).UnregisterObserved w
      = (Outcome.threw (Exn.logic_error "Service is unregistered"),
          { world := w, log := [] }) := by
  unfold ServiceRegistrationBase.UnregisterObserved
  simp [h]

theorem UnregisterObserved_losing (d : RegId) (w : World)
    (hav : (w.heap d).available = true) (hl : (w.heap d).unregistering = true) :
    (ServiceRegistrationBase.mk (some d)).UnregisterObserved w
      = (Outcome.returned, { world := w, log := [] }) := by
  unfold ServiceRegistrationBase.UnregisterObserved
  simp [hav, hl, atomic_compare_exchange_strong]

/-- The embedding of `Unregister` with the log runs as the one without it: on
every handle and in every world it ends in the same way and leaves the same
world. -/
theorem UnregisterObserved_world (this : ServiceRegistrationBase) (w : World) :
    ((this.UnregisterObserved w).1, (this.UnregisterObserved w).2.world) = this.Unregister w := by
  obtain ⟨d⟩ := this
  cases d with
  | none => rfl
  | some d =>
    cases hav : (w.heap d).available with
    | false => rw [UnregisterObserved_unavailable d w hav, Unregister_unavailable d w hav]
    | true =>
      cases hl : (w.heap d).unregistering with
      | true => rw [UnregisterObserved_losing d w hav hl, Unregister_losing d w hav hl]
      | false =>
        rw [UnregisterObserved_winning d w hav hl, Unregister_winning d w hav hl]
        exact (ungetAndFinishObserved_logs d
          { world := winnerDispatched w d, log := observedWith true (winnerCalls w d) }).1

/-- The log of a winning `Unregister`: the calls of lines 213-240, each made
while the flag `available` is true, then factory calls only, each made while
the flag is false; and the trace of the world is the trace it had, followed by
these calls. -/
theorem UnregisterObserved_winning_log (d : RegId) (w : World)
    (hav : (w.heap d).available = true)
    (hl : (w.heap d).unregistering = false) :
    ∃ post,
      ((ServiceRegistrationBase.mk (some d)).UnregisterObserved w).2.log
          = observedWith true (winnerCalls w d) ++ observedWith false post
        ∧ ((ServiceRegistrationBase.mk (some d)).UnregisterObserved w).2.world.trace
          = w.trace ++ (winnerCalls w d ++ post)
        ∧ ∀ e ∈ post, Effect.isFactoryCall e = true := by
  rw [UnregisterObserved_winning d w hav hl]
  obtain ⟨-, post, hlog, htr, hq⟩ := ungetAndFinishObserved_logs d
    { world := winnerDispatched w d, log := observedWith true (winnerCalls w d) }
  refine ⟨post, hlog, ?_, hq⟩
  rw [htr]
  simp only
  rw [winnerDispatched_trace_eq, List.append_assoc]

/-- The calls entered in the log are the calls added to the trace, in the
same order: no call of `Unregister` is left out of the log. -/
theorem UnregisterObserved_log_calls (this : ServiceRegistrationBase) (w : World) :
    (this.UnregisterObserved w).2.log.map ObservedCall.call
      = callsSince w (this.Unregister w).2 := by
  have hw : (this.UnregisterObserved w).2.world = (this.Unregister w).2 :=
    congrArg Prod.snd (UnregisterObserved_world this w)
  rw [← hw]
  obtain ⟨d⟩ := this
  cases d with
  | none => simp [ServiceRegistrationBase.UnregisterObserved, callsSince]
  | some d =>
    cases hav : (w.heap d).available with
    | false => simp [UnregisterObserved_unavailable d w hav, callsSince]
    | true =>
      cases hl : (w.heap d).unregistering with
      | true => simp [UnregisterObserved_losing d w hav hl, callsSince]
      | false =>
        obtain ⟨post, hlog, htr, -⟩ := UnregisterObserved_winning_log d w hav hl
        rw [hlog, callsSince_of_trace w _ _ htr]
        simp [map_call_observedWith]

/-- After line 249 the flag `available` is false, however the rest of
`Unregister` ends. -/
theorem ungetAndFinish_available (d : RegId) (w : World) :
    ((ungetAndFinish d w).2.heap d).available = false := by
  have h0 : ((madeUnavailable w d).heap d).available = false := by simp [madeUnavailable]
  have hfin : ∀ x : World, (x.heap d).available = false →
      ((finishUnregister d x).heap d).available = false := by
    intro x hx
    simp [finishUnregister, hx]
  unfold ungetAndFinish
  simp only
  split
  · exact h0
  · split
    · rename_i f _
      have s1 := ungetPrototypeServices_sameState d f
        ((madeUnavailable w d).heap d).prototypeServiceInstances (madeUnavailable w d)
      have a1 : (((ungetPrototypeServices d f
          ((madeUnavailable w d).heap d).prototypeServiceInstances
          (madeUnavailable w d)).2).heap d).available = false := by
        rw [s1.1]
        exact h0
      unfold andThen
      split
      · have s2 := ungetBundleServices_sameState d f
          ((madeUnavailable w d).heap d).bundleServiceInstance
          (ungetPrototypeServices d f ((madeUnavailable w d).heap d).prototypeServiceInstances
            (madeUnavailable w d)).2
        have a2 : (((ungetBundleServices d f
            ((madeUnavailable w d).heap d).bundleServiceInstance
            (ungetPrototypeServices d f ((madeUnavailable w d).heap d).prototypeServiceInstances
              (madeUnavailable w d)).2).2).heap d).available = false := by
          rw [s2.1]
          exact a1
        simp only
        split
        · exact hfin _ a2
        · exact a2
      · exact a1
    · exact hfin _ h0

/-- C11: in a winning `Unregister` (registration available, latch not set),
run with the log of what its callees find, the steps happen in this order.
When the owning bundle is alive the log starts with the removal from the
registry, followed by the `UNREGISTERING` deliveries to the matching
listeners, and each of these calls is made while the flag `available` is
true.  Every call after them is a factory `UngetService`, or the framework
event reporting its failure, and is made while the flag is false: the flag is
set between the last delivery and the first unget, and stays false to the
end.  When the bundle is gone there is no removal and no delivery.  The log
leaves out no call, and the run with the log ends as the run without it. -/
theorem Unregister_winner_step_order (d : RegId) (w : World)
    (hav : (w.heap d).available = true)
    (hl : (w.heap d).unregistering = false) :
    (((ServiceRegistrationBase.mk (some d)).UnregisterObserved w).1,
          ((ServiceRegistrationBase.mk (some d)).UnregisterObserved w).2.world)
        = (ServiceRegistrationBase.mk (some d)).Unregister w
      ∧ ((ServiceRegistrationBase.mk (some d)).UnregisterObserved w).2.log.map ObservedCall.call
          = callsSince w ((ServiceRegistrationBase.mk (some d)).Unregister w).2
      ∧ (∃ post,
          ((ServiceRegistrationBase.mk (some d)).UnregisterObserved w).2.log
              = observedWith true (winnerCalls w d) ++ observedWith false post
            ∧ ∀ e ∈ post, Effect.isFactoryCall e = true)
      ∧ (∀ b, w.lockBundle d = some b →
          winnerCalls w d
            = Effect.RemoveServiceRegistration d
              :: (GetMatchingServiceListeners w (unregisteringEventOf w d)).map
                  (fun l => Effect.CallDelegate l (unregisteringEventOf w d)))
      ∧ (w.lockBundle d = none → winnerCalls w d = [])
      ∧ (((ServiceRegistrationBase.mk (some d)).Unregister w).2.heap d).available = false := by
  refine ⟨UnregisterObserved_world _ w, UnregisterObserved_log_calls _ w, ?_, ?_, ?_, ?_⟩
  · obtain ⟨post, hlog, -, hq⟩ := UnregisterObserved_winning_log d w hav hl
    exact ⟨post, hlog, hq⟩
  · intro b hb
    simp [winnerCalls, hb]
  · intro hb
    simp [winnerCalls, hb]
  · rw [Unregister_winning d w hav hl]
    exact ungetAndFinish_available d (winnerDispatched w d)

/-- Witness of C11: unregistering registration 1 of the concrete framework.
The removal and the deliveries to listeners 100 and 101 find the registration
available; the five ungets, and the framework event for the failure on
instance 12, find it unavailable. -/
theorem Unregister_winner_step_order_witness :
    (Example.world.heap 1).available = true
      ∧ (Example.world.heap 1).unregistering = false
      ∧ (Example.handle.UnregisterObserved Example.world).2.log
          = [⟨Effect.RemoveServiceRegistration 1, true⟩,
              ⟨Effect.CallDelegate 100 (unregisteringEventOf Example.world 1), true⟩,
              ⟨Effect.CallDelegate 101 (unregisteringEventOf Example.world 1), true⟩,
              ⟨Effect.UngetService 7 2 1 11, false⟩,
              ⟨Effect.UngetService 7 2 1 12, false⟩,
              ⟨Effect.SendFrameworkEvent (factoryErrorEvent 1 "boom"), false⟩,
              ⟨Effect.UngetService 7 3 1 14, false⟩,
              ⟨Effect.UngetService 7 2 1 10, false⟩,
              ⟨Effect.UngetService 7 3 1 13, false⟩]
      ∧ (Example.handle.UnregisterObserved Example.world).2.log.map ObservedCall.call
          = callsSince Example.world (Example.handle.Unregister Example.world).2 :=
  ⟨by decide, by decide, by decide,
    (Unregister_winner_step_order 1 Example.world (by decide) (by decide)).2.1⟩

end cppmicroservices
